import Mathlib

/-!
# OpenFlappyBird: a shallow embedding of `FlappyBird/Main.cpp`

The game logic of `Main.cpp` is embedded as pure functions over explicit state,
in two layers that share the state types and the statements that do no
arithmetic.

* The exact layer (`Player.Update`, `Terrain.Update`, `Terrain.CheckCollision`,
  `Run.frame`, ...) reads every `float` operation as the operation on exact
  rationals `ℚ` and every `int` as an `Int`. It carries the properties that
  rest on comparisons, on the order of the statements and on the control flow.
* The machine layer (`Machine.Player.Update`, `Machine.Terrain.Update`,
  `Machine.Terrain.CheckCollision`, `Machine.Run.frame`, ...) follows the same
  statements with the arithmetic of the compiled program: every `float`
  operation is rounded on its own to the nearest binary32 value, ties to even
  (`Binary32.round`; no fused multiply-add, no wider intermediate precision),
  the constants `0.01f` and `0.1f` are the rounded constants, and the
  increment of the `int` score is reduced to 32 bits (`Int32.wrap`; the
  overflow of a signed `int` is undefined in C++ and wraps on the usual
  targets). Infinities and NaN are not represented: the overflow threshold
  2^128 is far above the magnitudes of the game. The properties that depend on
  the value an arithmetic operation returns are settled on this layer.
* Of `sf::Sprite` only the position is kept: texture, scale and rotation are
  written by the program but never read by the game logic.
* `sf::Clock` is modelled by its start instant; the instants at which the
  program reads or restarts a clock are inputs of a frame.
* The value drawn from `std::uniform_int_distribution` is an input of a frame,
  carried together with the range guarantee of the distribution.
-/

set_option autoImplicit false

namespace FlappyBird

/-! ## Library types used by the program -/

/-- The `sf::Vector2f` of SFML: a pair of floats. -/
structure Vector2f where
  x : ℚ
  y : ℚ
  deriving DecidableEq

/-- The `sf::Rect<float>` of SFML: left, top, width, height. -/
structure Rect where
  left : ℚ
  top : ℚ
  width : ℚ
  height : ℚ
  deriving DecidableEq

/-- The constructor `sf::Rect<float>(position, size)`. -/
def Rect.ofPositionSize (position size : Vector2f) : Rect :=
  { left := position.x, top := position.y, width := size.x, height := size.y }

/-- Modelled from the spec: `sf::Rect<float>::intersects` is SFML library code
that is not part of the repository; the spec calls it an axis-aligned-rectangle
overlap test. It is written here as SFML 2.x computes it: the extent of each
rectangle on both axes (rectangles of negative size are allowed), the bounds of
the intersection, and a test that the intersection has positive area. -/
def Rect.intersects (r1 r2 : Rect) : Bool :=
  let r1MinX := min r1.left (r1.left + r1.width)
  let r1MaxX := max r1.left (r1.left + r1.width)
  let r1MinY := min r1.top (r1.top + r1.height)
  let r1MaxY := max r1.top (r1.top + r1.height)
  let r2MinX := min r2.left (r2.left + r2.width)
  let r2MaxX := max r2.left (r2.left + r2.width)
  let r2MinY := min r2.top (r2.top + r2.height)
  let r2MaxY := max r2.top (r2.top + r2.height)
  let interLeft := max r1MinX r2MinX
  let interTop := max r1MinY r2MinY
  let interRight := min r1MaxX r2MaxX
  let interBottom := min r1MaxY r2MaxY
  decide (interLeft < interRight) && decide (interTop < interBottom)

/-- The `sf::Clock` of SFML, as the instant (in microseconds) it was last
restarted at. -/
structure Clock where
  startTime : Int
  deriving DecidableEq

/-- The `sf::Clock::getElapsedTime` call made at instant `now`, in microseconds. -/
def Clock.getElapsedTime (c : Clock) (now : Int) : Int :=
  now - c.startTime

/-- The `sf::Clock::restart` call made at instant `now`. -/
def Clock.restart (_c : Clock) (now : Int) : Clock :=
  { startTime := now }

/-- The `sf::Time::asSeconds` conversion: microseconds to seconds, as a float. -/
def asSeconds (microseconds : Int) : ℚ :=
  (microseconds : ℚ) / 1000000

/-! ## Player -/

/-- The class `Player`: the sprite position and the private field `force`. -/
structure Player where
  position : Vector2f
  force : ℚ
  deriving DecidableEq

/-- The method `Player::Update`. -/
def Player.Update (p : Player) (deltaTime : ℚ) : Player :=
  let force := p.force - deltaTime * 0.01
  let oldPosition := p.position
  { position := { x := oldPosition.x, y := oldPosition.y - force }, force := force }

/-- The method `Player::ResetPosition`. -/
def Player.ResetPosition (_p : Player) : Player :=
  { position := { x := 100, y := 100 }, force := 3 }

/-- The method `Player::Jump`. -/
def Player.Jump (p : Player) : Player :=
  { p with force := 4 }

/-- The player states of a run: `ResetPosition` is called first, then `Jump`
and `Update` (with a non-negative elapsed time) in any order. -/
inductive Player.Reachable : Player → Prop
  | reset (p : Player) : Player.Reachable p.ResetPosition
  | jump (p : Player) : Player.Reachable p → Player.Reachable p.Jump
  | update (p : Player) (deltaTime : ℚ) :
      Player.Reachable p → 0 ≤ deltaTime → Player.Reachable (p.Update deltaTime)

/-! ## Terrain -/

/-- The class `Terrain`: the sprite position and the tag `type`
(1 - ground, 2 - pipe, 3 - rotated pipe). -/
structure Terrain where
  position : Vector2f
  type : Int
  deriving DecidableEq

/-- The method `Terrain::Update`. -/
def Terrain.Update (t : Terrain) (deltaTime : ℚ) : Terrain :=
  let oldPosition := t.position
  { t with position := { x := oldPosition.x - 0.1 * deltaTime, y := oldPosition.y } }

/-- The method `Terrain::CheckCollision`. -/
def Terrain.CheckCollision (t : Terrain) (player : Player) : Bool :=
  let pipeHitbox := Rect.ofPositionSize t.position { x := 70, y := 425 }
  let playerHitbox := Rect.ofPositionSize player.position { x := 45, y := 32 }
  if t.type = 2 then
    if pipeHitbox.intersects playerHitbox then true else false
  else if t.type = 3 then
    -- image is rotated by 180 degrees, so the hitbox must be moved
    let pipeHitbox := { pipeHitbox with left := pipeHitbox.left - 70 }
    let pipeHitbox := { pipeHitbox with top := pipeHitbox.top - 425 }
    if pipeHitbox.intersects playerHitbox then true else false
  else
    false

/-- The rectangle that `Terrain::CheckCollision` tests the player against:
`pipeHitbox` as built from the position, moved by (-70, -425) in `case 3`. -/
def Terrain.hitbox (t : Terrain) : Rect :=
  let pipeHitbox := Rect.ofPositionSize t.position { x := 70, y := 425 }
  if t.type = 3 then
    let pipeHitbox := { pipeHitbox with left := pipeHitbox.left - 70 }
    { pipeHitbox with top := pipeHitbox.top - 425 }
  else
    pipeHitbox

/-- The rectangle `playerHitbox` of `Terrain::CheckCollision`. -/
def Player.hitbox (player : Player) : Rect :=
  Rect.ofPositionSize player.position { x := 45, y := 32 }

/-! ## Application -/

/-- The members `grounds`, `pipes` and `score` of the class `Application`
(the textures, the font and `textureScale` are only used for drawing). -/
structure Application where
  grounds : List Terrain
  pipes : List Terrain
  score : Int
  deriving DecidableEq

/-- The `std::list::remove_if` of the standard library: the elements for which
the predicate holds are removed, the others keep their relative order. -/
def remove_if (pred : Terrain → Bool) (l : List Terrain) : List Terrain :=
  l.filter (fun t => !pred t)

/-- The `std::uniform_int_distribution<int>` of the standard library with its
two parameters. -/
structure UniformIntDistribution where
  a : Int
  b : Int
  deriving DecidableEq

/-- A value drawn from a distribution: the standard guarantees that the value
lies in the closed range of the distribution. -/
structure UniformIntDistribution.Draw (d : UniformIntDistribution) where
  value : Int
  lower : d.a ≤ value
  upper : value ≤ d.b

/-- The method `Application::SpawnPipes`; `drawn` is the value returned by
`distribution(generator)` for the distribution built with `(210, 450)`. -/
def Application.SpawnPipes (app : Application)
    (drawn : UniformIntDistribution.Draw { a := 210, b := 450 }) : Application :=
  let yRandomPos : ℚ := (drawn.value : ℚ)
  let pipe : Terrain := { position := { x := 400, y := yRandomPos }, type := 2 }
  let pipes := app.pipes ++ [pipe]
  let pipe : Terrain := { pipe with position := { x := 469, y := yRandomPos - 200 }, type := 3 }
  let pipes := pipes ++ [pipe]
  -- remove pipes and grounds that are far away from screen
  let pipes := remove_if (fun pipe => decide (pipe.position.x < -500)) pipes
  let grounds := remove_if (fun ground => decide (ground.position.x < -500)) app.grounds
  { app with grounds := grounds, pipes := pipes }

/-! ## The main loop of `Application::Run` -/

/-- The state that `Application::Run` carries from one iteration of its loop
to the next: the application members and the locals `player`, `ground`,
`pipeSpawnClock`, `scoreClock`, `holdingSpaceButton` and `gameLost`. -/
structure RunState where
  app : Application
  player : Player
  ground : Terrain
  pipeSpawnClock : Clock
  scoreClock : Clock
  holdingSpaceButton : Bool
  gameLost : Bool
  deriving DecidableEq

/-- What one iteration of the loop reads from outside the program. -/
structure FrameInput where
  /-- The value of `clock.getElapsedTime().asMilliseconds()`, an `sf::Int32`. -/
  elapsedTime : Int
  /-- The value of `sf::Keyboard::isKeyPressed(sf::Keyboard::Space)`. -/
  spacePressed : Bool
  /-- The instant of `pipeSpawnClock.restart()` in the reset branch. -/
  resetSpawnInstant : Int
  /-- The instant of `scoreClock.restart()` in the reset branch. -/
  resetScoreInstant : Int
  /-- The instant of `pipeSpawnClock.getElapsedTime()`. -/
  spawnReadInstant : Int
  /-- The instant of `pipeSpawnClock.restart()` in the spawn branch. -/
  spawnRestartInstant : Int
  /-- The instant of `scoreClock.getElapsedTime()`. -/
  scoreReadInstant : Int
  /-- The value of `distribution(generator)` in `SpawnPipes`. -/
  drawn : UniformIntDistribution.Draw { a := 210, b := 450 }

/-- The state of `Application::Run` when its loop is entered; the two
arguments are the instants at which the two timers are constructed. -/
def Run.init (pipeSpawnStart scoreStart : Int) : RunState :=
  let player : Player := Player.ResetPosition { position := { x := 0, y := 0 }, force := 3 }
  let ground : Terrain := { position := { x := 0, y := 550 }, type := 1 }
  { app := { grounds := [] ++ [ground], pipes := [], score := 0 }
    player := player
    ground := ground
    pipeSpawnClock := { startTime := pipeSpawnStart }
    scoreClock := { startTime := scoreStart }
    holdingSpaceButton := false
    gameLost := false }

/-- Keyboard input. -/
def Run.keyboardInput (s : RunState) (spacePressed : Bool) : RunState :=
  if spacePressed then
    if !s.holdingSpaceButton then
      { s with holdingSpaceButton := true, player := s.player.Jump }
    else s
  else
    { s with holdingSpaceButton := false }

/-- Update player position. -/
def Run.updatePlayer (s : RunState) (elapsedTime : ℚ) : RunState :=
  { s with player := s.player.Update elapsedTime }

/-- Check if player collided with pipes: the loop over `pipes`. -/
def Run.checkPipes (s : RunState) : RunState :=
  let gameLost := s.app.pipes.foldl
    (fun gameLost pipe => if pipe.CheckCollision s.player then true else gameLost) s.gameLost
  { s with gameLost := gameLost }

/-- The condition of the reset branch. -/
def Run.resetCondition (s : RunState) : Bool :=
  s.gameLost || decide (s.player.position.y > 520) || decide (s.player.position.y < -100)

/-- The body of the reset branch. -/
def Run.reset (s : RunState) (i : FrameInput) : RunState :=
  { s with
    gameLost := false
    player := s.player.ResetPosition
    app := { s.app with pipes := [], score := 0 }
    pipeSpawnClock := s.pipeSpawnClock.restart i.resetSpawnInstant
    scoreClock := s.scoreClock.restart i.resetScoreInstant }

/-- The reset statement: the branch is taken when its condition holds. -/
def Run.resetIfLost (s : RunState) (i : FrameInput) : RunState :=
  if Run.resetCondition s then Run.reset s i else s

/-- Update grounds positions. -/
def Run.updateGrounds (s : RunState) (elapsedTime : ℚ) : RunState :=
  { s with app := { s.app with grounds := s.app.grounds.map (fun g => g.Update elapsedTime) } }

/-- Create new ground if last one is going out of screen. `grounds.back()` is
undefined on an empty list: the step then has no result. -/
def Run.createGround (s : RunState) : Option RunState :=
  match s.app.grounds.getLast? with
  | none => none
  | some lastGround =>
    if lastGround.position.x < -48 then
      let ground : Terrain := { s.ground with position := { x := 336, y := 550 } }
      some { s with ground := ground, app := { s.app with grounds := s.app.grounds ++ [ground] } }
    else
      some s

/-- Update position of pipes. -/
def Run.updatePipes (s : RunState) (elapsedTime : ℚ) : RunState :=
  { s with app := { s.app with pipes := s.app.pipes.map (fun p => p.Update elapsedTime) } }

/-- Spawn new pipes every 3 seconds and give points. -/
def Run.spawnAndScore (s : RunState) (i : FrameInput) : RunState :=
  if asSeconds (s.pipeSpawnClock.getElapsedTime i.spawnReadInstant) > 3 then
    let pipeSpawnClock := s.pipeSpawnClock.restart i.spawnRestartInstant
    let app := s.app.SpawnPipes i.drawn
    let app :=
      if asSeconds (s.scoreClock.getElapsedTime i.scoreReadInstant) > 5 then
        { app with score := app.score + 1 }
      else app
    { s with pipeSpawnClock := pipeSpawnClock, app := app }
  else s

/-- The state after player update and collision check, right before the reset
statement of the iteration. -/
def Run.beforeReset (s : RunState) (i : FrameInput) : RunState :=
  Run.checkPipes (Run.updatePlayer (Run.keyboardInput s i.spacePressed) (i.elapsedTime : ℚ))

/-- One iteration of the loop of `Application::Run` (drawing left out). -/
def Run.frame (s : RunState) (i : FrameInput) : Option RunState :=
  let s := Run.beforeReset s i
  let s := Run.resetIfLost s i
  let s := Run.updateGrounds s (i.elapsedTime : ℚ)
  match Run.createGround s with
  | none => none
  | some s =>
    let s := Run.updatePipes s (i.elapsedTime : ℚ)
    some (Run.spawnAndScore s i)

/-- The states the loop of `Application::Run` can be in at the start of an
iteration. -/
inductive Run.Reachable : RunState → Prop
  | init (pipeSpawnStart scoreStart : Int) : Run.Reachable (Run.init pipeSpawnStart scoreStart)
  | frame (s s' : RunState) (i : FrameInput) :
      Run.Reachable s → Run.frame s i = some s' → Run.Reachable s'

/-- The state right after the reset statement of the iteration. -/
def Run.afterReset (s : RunState) (i : FrameInput) : RunState :=
  Run.resetIfLost (Run.beforeReset s i) i

/-- The iterations of the loop of `Application::Run` for a list of inputs, one
input for each iteration. -/
def Run.frames (s : RunState) : List FrameInput → Option RunState
  | [] => some s
  | i :: rest =>
    match Run.frame s i with
    | none => none
    | some s' => Run.frames s' rest

/-- The guard under which the keyboard step of an iteration calls
`player.Jump()`: the key is pressed and `holdingSpaceButton` is not set. -/
def Run.jumpInvoked (s : RunState) (spacePressed : Bool) : Bool :=
  spacePressed && !s.holdingSpaceButton

/-- The input of a frame in which `elapsedTime` milliseconds have passed since
the last frame, every timer is read or restarted at the instant `now`, and the
drawn anchor is 300. -/
def FrameInput.atInstant (elapsedTime : Int) (spacePressed : Bool) (now : Int) : FrameInput :=
  { elapsedTime := elapsedTime, spacePressed := spacePressed, resetSpawnInstant := now,
    resetScoreInstant := now, spawnReadInstant := now, spawnRestartInstant := now,
    scoreReadInstant := now, drawn := { value := 300, lower := by decide, upper := by decide } }

/-! ## Machine arithmetic: binary32 and 32-bit integers -/

/-- The integer nearest to a rational, the even one of the two when the
rational lies halfway between two integers. -/
def Binary32.roundHalfEven (t : ℚ) : ℤ :=
  let n := ⌊t⌋
  if t - n < 1 / 2 then n
  else if 1 / 2 < t - n then n + 1
  else if n % 2 = 0 then n else n + 1

/-- The exponent of the unit in the last place of the binary32 values around a
positive rational q: with 2^k <= q < 2^(k+1) the 24-bit significand leaves the
unit 2^(k-23), and the subnormal values have the unit 2^(-149). -/
def Binary32.ulpExponent (q : ℚ) : ℤ :=
  max (Int.log 2 q - 23) (-149)

/-- Rounding of a non-negative rational to the nearest multiple of its unit in
the last place, ties to the even significand. -/
def Binary32.roundNonneg (q : ℚ) : ℚ :=
  (Binary32.roundHalfEven (q / 2 ^ Binary32.ulpExponent q) : ℚ) * 2 ^ Binary32.ulpExponent q

/-- The result of a `float` operation whose exact result is q: q rounded to the
nearest binary32 value, ties to even (the IEEE 754 default rounding). The
overflow to an infinity (magnitudes from 2^128 on) is not represented. -/
def Binary32.round (q : ℚ) : ℚ :=
  if q < 0 then -Binary32.roundNonneg (-q) else Binary32.roundNonneg q

/-- The rationals that are binary32 values: those that rounding leaves as they
are. -/
def Binary32.IsValue (q : ℚ) : Prop :=
  Binary32.round q = q

/-- Whether a rational is a binary32 value is decided by rounding it. -/
instance (q : ℚ) : Decidable (Binary32.IsValue q) :=
  inferInstanceAs (Decidable (Binary32.round q = q))


/-- The result an `int` holds after an operation whose exact result is `n`:
the value is reduced modulo 2^32 into the range of a 32-bit two's complement
integer. -/
def Int32.wrap (n : Int) : Int :=
  (n + 2147483648) % 4294967296 - 2147483648

/-- The method `Player::Update`, in binary32 arithmetic. -/
def Machine.Player.Update (p : Player) (deltaTime : ℚ) : Player :=
  let force := Binary32.round (p.force - Binary32.round (deltaTime * Binary32.round 0.01))
  let oldPosition := p.position
  { position := { x := oldPosition.x, y := Binary32.round (oldPosition.y - force) },
    force := force }

/-- The method `Terrain::Update`, in binary32 arithmetic. -/
def Machine.Terrain.Update (t : Terrain) (deltaTime : ℚ) : Terrain :=
  let oldPosition := t.position
  { t with
    position :=
      { x := Binary32.round (oldPosition.x - Binary32.round (Binary32.round 0.1 * deltaTime)),
        y := oldPosition.y } }

/-- The `sf::Rect<float>::intersects` of SFML 2.x, in binary32 arithmetic: the
sums `left + width` and `top + height` are rounded. -/
def Machine.Rect.intersects (r1 r2 : Rect) : Bool :=
  let r1MinX := min r1.left (Binary32.round (r1.left + r1.width))
  let r1MaxX := max r1.left (Binary32.round (r1.left + r1.width))
  let r1MinY := min r1.top (Binary32.round (r1.top + r1.height))
  let r1MaxY := max r1.top (Binary32.round (r1.top + r1.height))
  let r2MinX := min r2.left (Binary32.round (r2.left + r2.width))
  let r2MaxX := max r2.left (Binary32.round (r2.left + r2.width))
  let r2MinY := min r2.top (Binary32.round (r2.top + r2.height))
  let r2MaxY := max r2.top (Binary32.round (r2.top + r2.height))
  let interLeft := max r1MinX r2MinX
  let interTop := max r1MinY r2MinY
  let interRight := min r1MaxX r2MaxX
  let interBottom := min r1MaxY r2MaxY
  decide (interLeft < interRight) && decide (interTop < interBottom)

/-- The method `Terrain::CheckCollision`, in binary32 arithmetic. -/
def Machine.Terrain.CheckCollision (t : Terrain) (player : Player) : Bool :=
  let pipeHitbox := Rect.ofPositionSize t.position { x := 70, y := 425 }
  let playerHitbox := Rect.ofPositionSize player.position { x := 45, y := 32 }
  if t.type = 2 then
    if Machine.Rect.intersects pipeHitbox playerHitbox then true else false
  else if t.type = 3 then
    -- image is rotated by 180 degrees, so the hitbox must be moved
    let pipeHitbox := { pipeHitbox with left := Binary32.round (pipeHitbox.left - 70) }
    let pipeHitbox := { pipeHitbox with top := Binary32.round (pipeHitbox.top - 425) }
    if Machine.Rect.intersects pipeHitbox playerHitbox then true else false
  else
    false

/-- The `sf::Time::asSeconds` conversion in binary32 arithmetic: the count of
microseconds is converted to `float` and divided by `1000000.f`. -/
def Machine.asSeconds (microseconds : Int) : ℚ :=
  Binary32.round (Binary32.round (microseconds : ℚ) / 1000000)

/-- The method `Application::SpawnPipes`, in binary32 arithmetic. -/
def Machine.Application.SpawnPipes (app : Application)
    (drawn : UniformIntDistribution.Draw { a := 210, b := 450 }) : Application :=
  let yRandomPos : ℚ := Binary32.round (drawn.value : ℚ)
  let pipe : Terrain := { position := { x := 400, y := yRandomPos }, type := 2 }
  let pipes := app.pipes ++ [pipe]
  let pipe : Terrain :=
    { pipe with position := { x := 469, y := Binary32.round (yRandomPos - 200) }, type := 3 }
  let pipes := pipes ++ [pipe]
  -- remove pipes and grounds that are far away from screen
  let pipes := remove_if (fun pipe => decide (pipe.position.x < -500)) pipes
  let grounds := remove_if (fun ground => decide (ground.position.x < -500)) app.grounds
  { app with grounds := grounds, pipes := pipes }

/-- Update player position, in binary32 arithmetic. -/
def Machine.Run.updatePlayer (s : RunState) (elapsedTime : ℚ) : RunState :=
  { s with player := Machine.Player.Update s.player elapsedTime }

/-- Check if player collided with pipes, in binary32 arithmetic. -/
def Machine.Run.checkPipes (s : RunState) : RunState :=
  let gameLost := s.app.pipes.foldl
    (fun gameLost pipe => if Machine.Terrain.CheckCollision pipe s.player then true else gameLost)
    s.gameLost
  { s with gameLost := gameLost }

/-- Update grounds positions, in binary32 arithmetic. -/
def Machine.Run.updateGrounds (s : RunState) (elapsedTime : ℚ) : RunState :=
  { s with
    app := { s.app with
      grounds := s.app.grounds.map (fun g => Machine.Terrain.Update g elapsedTime) } }

/-- Update position of pipes, in binary32 arithmetic. -/
def Machine.Run.updatePipes (s : RunState) (elapsedTime : ℚ) : RunState :=
  { s with
    app := { s.app with pipes := s.app.pipes.map (fun p => Machine.Terrain.Update p elapsedTime) } }

/-- Spawn new pipes every 3 seconds and give points, in binary32 and 32-bit
integer arithmetic. -/
def Machine.Run.spawnAndScore (s : RunState) (i : FrameInput) : RunState :=
  if Machine.asSeconds (s.pipeSpawnClock.getElapsedTime i.spawnReadInstant) > 3 then
    let pipeSpawnClock := s.pipeSpawnClock.restart i.spawnRestartInstant
    let app := Machine.Application.SpawnPipes s.app i.drawn
    let app :=
      if Machine.asSeconds (s.scoreClock.getElapsedTime i.scoreReadInstant) > 5 then
        { app with score := Int32.wrap (app.score + 1) }
      else app
    { s with pipeSpawnClock := pipeSpawnClock, app := app }
  else s

/-- The `float elapsedTime` of an iteration: the count of milliseconds read
from the frame clock, converted to `float`. -/
def Machine.Run.elapsedTime (i : FrameInput) : ℚ :=
  Binary32.round (i.elapsedTime : ℚ)

/-- The state right before the reset statement of the iteration, in machine
arithmetic. -/
def Machine.Run.beforeReset (s : RunState) (i : FrameInput) : RunState :=
  Machine.Run.checkPipes
    (Machine.Run.updatePlayer (Run.keyboardInput s i.spacePressed) (Machine.Run.elapsedTime i))

/-- The state right after the reset statement of the iteration, in machine
arithmetic. -/
def Machine.Run.afterReset (s : RunState) (i : FrameInput) : RunState :=
  Run.resetIfLost (Machine.Run.beforeReset s i) i

/-- One iteration of the loop of `Application::Run` (drawing left out), in
machine arithmetic. -/
def Machine.Run.frame (s : RunState) (i : FrameInput) : Option RunState :=
  let s := Machine.Run.beforeReset s i
  let s := Run.resetIfLost s i
  let s := Machine.Run.updateGrounds s (Machine.Run.elapsedTime i)
  match Run.createGround s with
  | none => none
  | some s =>
    let s := Machine.Run.updatePipes s (Machine.Run.elapsedTime i)
    some (Machine.Run.spawnAndScore s i)

/-- The iterations of the loop for a list of inputs, in machine arithmetic. -/
def Machine.Run.frames (s : RunState) : List FrameInput → Option RunState
  | [] => some s
  | i :: rest =>
    match Machine.Run.frame s i with
    | none => none
    | some s' => Machine.Run.frames s' rest

/-- The states the loop can be in at the start of an iteration, in machine
arithmetic. -/
inductive Machine.Run.Reachable : RunState → Prop
  | init (pipeSpawnStart scoreStart : Int) :
      Machine.Run.Reachable (Run.init pipeSpawnStart scoreStart)
  | frame (s s' : RunState) (i : FrameInput) :
      Machine.Run.Reachable s → Machine.Run.frame s i = some s' → Machine.Run.Reachable s'

/-- The successive player states under repeated `Player::Update` calls in
binary32 arithmetic, with no other call in between. -/
def Machine.Player.trajectory (p : Player) : List ℚ → List Player
  | [] => [p]
  | deltaTime :: rest => p :: Machine.Player.trajectory (Machine.Player.Update p deltaTime) rest

/-! ## Collision test -/

/-- The overlap test on two rectangles of positive size is the strict
comparison of their edges. -/
theorem Rect.intersects_iff (r1 r2 : Rect) (hw1 : 0 < r1.width) (hh1 : 0 < r1.height)
    (hw2 : 0 < r2.width) (hh2 : 0 < r2.height) :
    r1.intersects r2 = true ↔
      (r2.left < r1.left + r1.width ∧ r1.left < r2.left + r2.width) ∧
        (r2.top < r1.top + r1.height ∧ r1.top < r2.top + r2.height) := by
  have e1 : min r1.left (r1.left + r1.width) = r1.left := min_eq_left (by linarith)
  have e2 : max r1.left (r1.left + r1.width) = r1.left + r1.width := max_eq_right (by linarith)
  have e3 : min r1.top (r1.top + r1.height) = r1.top := min_eq_left (by linarith)
  have e4 : max r1.top (r1.top + r1.height) = r1.top + r1.height := max_eq_right (by linarith)
  have e5 : min r2.left (r2.left + r2.width) = r2.left := min_eq_left (by linarith)
  have e6 : max r2.left (r2.left + r2.width) = r2.left + r2.width := max_eq_right (by linarith)
  have e7 : min r2.top (r2.top + r2.height) = r2.top := min_eq_left (by linarith)
  have e8 : max r2.top (r2.top + r2.height) = r2.top + r2.height := max_eq_right (by linarith)
  simp only [Rect.intersects, e1, e2, e3, e4, e5, e6, e7, e8, Bool.and_eq_true,
    decide_eq_true_eq, max_lt_iff, lt_min_iff]
  constructor
  · rintro ⟨⟨⟨_, h2⟩, ⟨h3, _⟩⟩, ⟨⟨_, h6⟩, ⟨h7, _⟩⟩⟩
    exact ⟨⟨h2, h3⟩, ⟨h6, h7⟩⟩
  · rintro ⟨⟨h2, h3⟩, ⟨h6, h7⟩⟩
    exact ⟨⟨⟨by linarith, h2⟩, ⟨h3, by linarith⟩⟩, ⟨⟨by linarith, h6⟩, ⟨h7, by linarith⟩⟩⟩

/-- The collision test of an upright pipe, as inequalities. -/
theorem Terrain.CheckCollision_upright_iff (x y : ℚ) (player : Player) :
    Terrain.CheckCollision { position := { x := x, y := y }, type := 2 } player = true ↔
      player.position.x < x + 70 ∧ x < player.position.x + 45 ∧
        player.position.y < y + 425 ∧ y < player.position.y + 32 := by
  have key := Rect.intersects_iff (Rect.ofPositionSize { x := x, y := y } { x := 70, y := 425 })
    (Rect.ofPositionSize player.position { x := 45, y := 32 })
    (by norm_num [Rect.ofPositionSize]) (by norm_num [Rect.ofPositionSize])
    (by norm_num [Rect.ofPositionSize]) (by norm_num [Rect.ofPositionSize])
  simp only [Rect.ofPositionSize] at key
  simp only [Terrain.CheckCollision, Rect.ofPositionSize, if_true, Bool.if_true_left,
    Bool.or_false, decide_eq_true_eq, key]
  tauto

/-- The collision test of a rotated pipe, as inequalities. -/
theorem Terrain.CheckCollision_inverted_iff (x y : ℚ) (player : Player) :
    Terrain.CheckCollision { position := { x := x, y := y }, type := 3 } player = true ↔
      player.position.x < x ∧ x - 70 < player.position.x + 45 ∧
        player.position.y < y ∧ y - 425 < player.position.y + 32 := by
  have h32 : ¬ ((3 : Int) = 2) := by decide
  have key := Rect.intersects_iff
    { left := x - 70, top := y - 425, width := 70, height := 425 }
    (Rect.ofPositionSize player.position { x := 45, y := 32 })
    (by norm_num) (by norm_num)
    (by norm_num [Rect.ofPositionSize]) (by norm_num [Rect.ofPositionSize])
  simp only [Rect.ofPositionSize, sub_add_cancel] at key
  simp only [Terrain.CheckCollision, Rect.ofPositionSize, h32, if_false, if_true,
    Bool.if_true_left, Bool.or_false, decide_eq_true_eq, key]
  tauto

/-- C3: `Terrain::CheckCollision` on an Inverted obstacle (type 3) at (x, y)
gives the same answer as on an Upright obstacle (type 2) at (x - 70, y - 425),
for every player; and for the player at (10, 10) and the anchor (0, 0) the
Upright variant collides while the Inverted variant does not. -/
theorem C3_inverted_is_shifted_upright :
    (∀ (x y : ℚ) (player : Player),
      Terrain.CheckCollision { position := { x := x, y := y }, type := 3 } player =
        Terrain.CheckCollision { position := { x := x - 70, y := y - 425 }, type := 2 } player) ∧
    (∀ force : ℚ,
      Terrain.CheckCollision { position := { x := 0, y := 0 }, type := 2 }
          { position := { x := 10, y := 10 }, force := force } = true ∧
      Terrain.CheckCollision { position := { x := 0, y := 0 }, type := 3 }
          { position := { x := 10, y := 10 }, force := force } = false) := by
  refine ⟨fun x y player => ?_, fun force => ⟨?_, ?_⟩⟩
  · rw [Bool.eq_iff_iff, Terrain.CheckCollision_inverted_iff, Terrain.CheckCollision_upright_iff]
    simp only [sub_add_cancel]
  · rw [Terrain.CheckCollision_upright_iff]
    norm_num
  · rw [← Bool.not_eq_true, Terrain.CheckCollision_inverted_iff]
    norm_num

/-- For a pipe or a rotated pipe `Terrain::CheckCollision` is the overlap test
of `Terrain.hitbox` and `Player.hitbox`. -/
theorem Terrain.CheckCollision_eq_hitbox (t : Terrain) (player : Player)
    (ht : t.type = 2 ∨ t.type = 3) :
    t.CheckCollision player = t.hitbox.intersects player.hitbox := by
  have h32 : ¬ ((3 : Int) = 2) := by decide
  have h23 : ¬ ((2 : Int) = 3) := by decide
  rcases ht with ht | ht <;>
    simp [Terrain.CheckCollision, Terrain.hitbox, Player.hitbox, ht, h32, h23]

/-! ## Spawning and purging -/

/-- The obstacle collection after `SpawnPipes`: the purge applied to the old
collection followed by the two new pipes. -/
theorem Application.SpawnPipes_pipes (app : Application)
    (drawn : UniformIntDistribution.Draw { a := 210, b := 450 }) :
    (app.SpawnPipes drawn).pipes =
      remove_if (fun pipe => decide (pipe.position.x < -500))
        (app.pipes ++
          [{ position := { x := 400, y := (drawn.value : ℚ) }, type := 2 },
           { position := { x := 469, y := (drawn.value : ℚ) - 200 }, type := 3 }]) := by
  simp [Application.SpawnPipes]

/-- The purge keeps the two pipes that were just spawned. -/
theorem Application.SpawnPipes_pipes_append (app : Application)
    (drawn : UniformIntDistribution.Draw { a := 210, b := 450 }) :
    (app.SpawnPipes drawn).pipes =
      remove_if (fun pipe => decide (pipe.position.x < -500)) app.pipes ++
        [{ position := { x := 400, y := (drawn.value : ℚ) }, type := 2 },
         { position := { x := 469, y := (drawn.value : ℚ) - 200 }, type := 3 }] := by
  rw [Application.SpawnPipes_pipes]
  simp only [remove_if, List.filter_append]
  norm_num [List.filter]

/-- C4: at every spawn event the drawn anchor a is an integer with
210 <= a <= 450, and `Application::SpawnPipes` appends to the end of the
obstacle collection an Upright obstacle (type 2) at (400, a) and then an
Inverted obstacle (type 3) at (469, a - 200); the purge pass runs on the
collection so extended, and leaves the two new obstacles at its end. -/
theorem C4_spawn_appends_pair (app : Application)
    (drawn : UniformIntDistribution.Draw { a := 210, b := 450 }) :
    (210 ≤ drawn.value ∧ drawn.value ≤ 450) ∧
    (app.SpawnPipes drawn).pipes =
      remove_if (fun pipe => decide (pipe.position.x < -500))
        (app.pipes ++
          [{ position := { x := 400, y := (drawn.value : ℚ) }, type := 2 },
           { position := { x := 469, y := (drawn.value : ℚ) - 200 }, type := 3 }]) ∧
    (app.SpawnPipes drawn).pipes =
      remove_if (fun pipe => decide (pipe.position.x < -500)) app.pipes ++
        [{ position := { x := 400, y := (drawn.value : ℚ) }, type := 2 },
         { position := { x := 469, y := (drawn.value : ℚ) - 200 }, type := 3 }] :=
  ⟨⟨drawn.lower, drawn.upper⟩, Application.SpawnPipes_pipes app drawn,
    Application.SpawnPipes_pipes_append app drawn⟩

/-- C5: for every drawn anchor a (an integer in [210, 450]) the pair spawned by
`Application::SpawnPipes` satisfies the gap invariant: the hitbox tested for the
Inverted obstacle is the 70x425 rectangle with top-left (469 - 70, a - 200 - 425),
the hitbox tested for the Upright obstacle is the 70x425 rectangle with top-left
(400, a), the two do not overlap, and the top of the upright hitbox lies exactly
200 below the bottom of the inverted hitbox. -/
theorem C5_spawn_gap_invariant (app : Application)
    (drawn : UniformIntDistribution.Draw { a := 210, b := 450 }) :
    ∃ upright inverted : Terrain,
      upright = { position := { x := 400, y := (drawn.value : ℚ) }, type := 2 } ∧
      inverted = { position := { x := 469, y := (drawn.value : ℚ) - 200 }, type := 3 } ∧
      (app.SpawnPipes drawn).pipes =
        remove_if (fun pipe => decide (pipe.position.x < -500)) app.pipes ++
          [upright, inverted] ∧
      (∀ player : Player,
        upright.CheckCollision player = upright.hitbox.intersects player.hitbox ∧
        inverted.CheckCollision player = inverted.hitbox.intersects player.hitbox) ∧
      upright.hitbox =
        { left := 400, top := (drawn.value : ℚ), width := 70, height := 425 } ∧
      inverted.hitbox =
        { left := 469 - 70, top := (drawn.value : ℚ) - 200 - 425, width := 70, height := 425 } ∧
      inverted.hitbox.intersects upright.hitbox = false ∧
      upright.hitbox.intersects inverted.hitbox = false ∧
      upright.hitbox.top - (inverted.hitbox.top + inverted.hitbox.height) = 200 := by
  have hup : Terrain.hitbox { position := { x := 400, y := (drawn.value : ℚ) }, type := 2 } =
      { left := 400, top := (drawn.value : ℚ), width := 70, height := 425 } := by
    have h23 : ¬ ((2 : Int) = 3) := by decide
    simp [Terrain.hitbox, Rect.ofPositionSize, h23]
  have hinv : Terrain.hitbox
      { position := { x := 469, y := (drawn.value : ℚ) - 200 }, type := 3 } =
      { left := 469 - 70, top := (drawn.value : ℚ) - 200 - 425, width := 70, height := 425 } := by
    simp [Terrain.hitbox, Rect.ofPositionSize]
  refine ⟨{ position := { x := 400, y := (drawn.value : ℚ) }, type := 2 },
    { position := { x := 469, y := (drawn.value : ℚ) - 200 }, type := 3 }, rfl, rfl,
    Application.SpawnPipes_pipes_append app drawn, fun player => ⟨?_, ?_⟩, hup, hinv, ?_, ?_, ?_⟩
  · exact Terrain.CheckCollision_eq_hitbox _ player (Or.inl rfl)
  · exact Terrain.CheckCollision_eq_hitbox _ player (Or.inr rfl)
  · rw [hup, hinv, ← Bool.not_eq_true, Rect.intersects_iff _ _ (by norm_num) (by norm_num)
      (by norm_num) (by norm_num)]
    rintro ⟨-, h, -⟩
    simp only at h
    linarith
  · rw [hup, hinv, ← Bool.not_eq_true, Rect.intersects_iff _ _ (by norm_num) (by norm_num)
      (by norm_num) (by norm_num)]
    rintro ⟨-, -, h⟩
    simp only at h
    linarith
  · rw [hup, hinv]
    simp only
    ring

/-- C7: the purge invariant. After `Application::SpawnPipes` no entity of the
obstacle collection and none of the ground collection has x < -500, and the
entities that had x >= -500 before the call are still there in their original
relative order, the obstacles followed by the two newly spawned ones. -/
theorem C7_purge_invariant (app : Application)
    (drawn : UniformIntDistribution.Draw { a := 210, b := 450 }) :
    (∀ t ∈ (app.SpawnPipes drawn).pipes, ¬ t.position.x < -500) ∧
    (∀ t ∈ (app.SpawnPipes drawn).grounds, ¬ t.position.x < -500) ∧
    (app.SpawnPipes drawn).pipes =
      app.pipes.filter (fun t => decide (-500 ≤ t.position.x)) ++
        [{ position := { x := 400, y := (drawn.value : ℚ) }, type := 2 },
         { position := { x := 469, y := (drawn.value : ℚ) - 200 }, type := 3 }] ∧
    (app.SpawnPipes drawn).grounds =
      app.grounds.filter (fun t => decide (-500 ≤ t.position.x)) := by
  have hfilter : ∀ l : List Terrain,
      remove_if (fun t => decide (t.position.x < -500)) l =
        l.filter (fun t => decide (-500 ≤ t.position.x)) := by
    intro l
    unfold remove_if
    congr 1
    funext t
    simp only [← not_le, decide_not, Bool.not_not]
  have hg : (app.SpawnPipes drawn).grounds =
      remove_if (fun ground => decide (ground.position.x < -500)) app.grounds := by
    simp [Application.SpawnPipes]
  refine ⟨?_, ?_, ?_, ?_⟩
  · intro t ht
    rw [Application.SpawnPipes_pipes, hfilter] at ht
    have := (List.mem_filter.mp ht).2
    simp only [decide_eq_true_eq] at this
    exact not_lt.mpr this
  · intro t ht
    rw [hg, hfilter] at ht
    have := (List.mem_filter.mp ht).2
    simp only [decide_eq_true_eq] at this
    exact not_lt.mpr this
  · rw [Application.SpawnPipes_pipes_append, hfilter]
  · rw [hg, hfilter]

/-! ## Player physics -/

/-- The height after `Player::Update`. -/
theorem Player.Update_y (p : Player) (deltaTime : ℚ) :
    (p.Update deltaTime).position.y = p.position.y - (p.force - deltaTime / 100) := by
  simp only [Player.Update]
  norm_num
  ring

/-- The loop over the pipes sets the flag when it was set before or some pipe
reports a collision. -/
theorem Run.checkPipes_fold (player : Player) (pipes : List Terrain) (gameLost : Bool) :
    pipes.foldl (fun gameLost pipe => if pipe.CheckCollision player then true else gameLost)
        gameLost =
      (gameLost || pipes.any (fun pipe => pipe.CheckCollision player)) := by
  induction pipes generalizing gameLost with
  | nil => simp
  | cons pipe rest ih =>
    rw [List.foldl_cons, ih, List.any_cons]
    cases pipe.CheckCollision player <;> cases gameLost <;> simp

/-- The flag `gameLost` after the collision loop. -/
theorem Run.checkPipes_gameLost (s : RunState) :
    (Run.checkPipes s).gameLost =
      (s.gameLost || s.app.pipes.any (fun pipe => pipe.CheckCollision s.player)) := by
  simp only [Run.checkPipes]
  exact Run.checkPipes_fold s.player s.app.pipes s.gameLost

/-- The flag `gameLost` is false after the reset statement. -/
theorem Run.resetIfLost_gameLost (s : RunState) (i : FrameInput) :
    (Run.resetIfLost s i).gameLost = false := by
  unfold Run.resetIfLost
  split
  · rfl
  · rename_i h
    simp only [Run.resetCondition, Bool.or_eq_true, not_or, Bool.not_eq_true] at h
    exact h.1.1

/-- The ground step does not write the flag `gameLost`. -/
theorem Run.createGround_gameLost (s s' : RunState) (h : Run.createGround s = some s') :
    s'.gameLost = s.gameLost := by
  unfold Run.createGround at h
  split at h
  · exact absurd h (by simp)
  · split at h
    · rw [Option.some.injEq] at h
      rw [← h]
    · rw [Option.some.injEq] at h
      rw [← h]

/-- The spawn step does not write the flag `gameLost`. -/
theorem Run.spawnAndScore_gameLost (s : RunState) (i : FrameInput) :
    (Run.spawnAndScore s i).gameLost = s.gameLost := by
  unfold Run.spawnAndScore
  split <;> rfl

/-- The flag `gameLost` is false at the end of every iteration. -/
theorem Run.frame_gameLost (s s' : RunState) (i : FrameInput) (h : Run.frame s i = some s') :
    s'.gameLost = false := by
  unfold Run.frame at h
  simp only at h
  split at h
  · exact absurd h (by simp)
  · rename_i s5 h5
    rw [Option.some.injEq] at h
    rw [← h, Run.spawnAndScore_gameLost]
    have := Run.createGround_gameLost _ _ h5
    simp only [Run.updatePipes, this, Run.updateGrounds]
    exact Run.resetIfLost_gameLost _ i

/-- The flag `gameLost` is false at the start of every iteration. -/
theorem Run.Reachable.gameLost (s : RunState) (h : Run.Reachable s) : s.gameLost = false := by
  cases h with
  | init a b => rfl
  | frame s0 _ i _ hf => exact Run.frame_gameLost s0 s i hf

/-- C1: in a frame of `Application::Run`, started in a state `s` of the loop
with input `i`, let `u` be the state right after `Player::Update` and `b` the
state after the collision loop. The reset branch is taken exactly when some
obstacle of the collection reports `CheckCollision(player) = true`, or the
player's y is greater than 520, or it is less than -100. When it is taken, the
player is then at (100, 100) with lift force 3, the obstacle collection is
empty, the score is 0 and the spawn and score timers are restarted (at the
instants of the two calls); when it is not taken the state is left as it is:
the player keeps its updated position and force, and the obstacle collection
and the score are those before the step. -/
theorem C1_reset_branch (s : RunState) (hs : Run.Reachable s) (i : FrameInput) :
    (Run.resetCondition (Run.beforeReset s i) = true ↔
      ((∃ pipe ∈ (Run.updatePlayer (Run.keyboardInput s i.spacePressed)
            (i.elapsedTime : ℚ)).app.pipes,
          pipe.CheckCollision (Run.updatePlayer (Run.keyboardInput s i.spacePressed)
            (i.elapsedTime : ℚ)).player = true) ∨
        (Run.updatePlayer (Run.keyboardInput s i.spacePressed)
          (i.elapsedTime : ℚ)).player.position.y > 520 ∨
        (Run.updatePlayer (Run.keyboardInput s i.spacePressed)
          (i.elapsedTime : ℚ)).player.position.y < -100)) ∧
    (Run.resetCondition (Run.beforeReset s i) = true →
      (Run.resetIfLost (Run.beforeReset s i) i).player =
          { position := { x := 100, y := 100 }, force := 3 } ∧
      (Run.resetIfLost (Run.beforeReset s i) i).app.pipes = [] ∧
      (Run.resetIfLost (Run.beforeReset s i) i).app.score = 0 ∧
      (Run.resetIfLost (Run.beforeReset s i) i).pipeSpawnClock =
          { startTime := i.resetSpawnInstant } ∧
      (Run.resetIfLost (Run.beforeReset s i) i).scoreClock =
          { startTime := i.resetScoreInstant } ∧
      (Run.resetIfLost (Run.beforeReset s i) i).pipeSpawnClock.getElapsedTime
          i.resetSpawnInstant = 0 ∧
      (Run.resetIfLost (Run.beforeReset s i) i).scoreClock.getElapsedTime
          i.resetScoreInstant = 0) ∧
    (Run.resetCondition (Run.beforeReset s i) = false →
      Run.resetIfLost (Run.beforeReset s i) i = Run.beforeReset s i ∧
      (Run.resetIfLost (Run.beforeReset s i) i).player =
          (Run.updatePlayer (Run.keyboardInput s i.spacePressed) (i.elapsedTime : ℚ)).player ∧
      (Run.resetIfLost (Run.beforeReset s i) i).app.pipes =
          (Run.updatePlayer (Run.keyboardInput s i.spacePressed) (i.elapsedTime : ℚ)).app.pipes ∧
      (Run.resetIfLost (Run.beforeReset s i) i).app.score =
          (Run.updatePlayer (Run.keyboardInput s i.spacePressed)
            (i.elapsedTime : ℚ)).app.score) := by
  have hlost : (Run.updatePlayer (Run.keyboardInput s i.spacePressed)
      (i.elapsedTime : ℚ)).gameLost = false := by
    have h0 := Run.Reachable.gameLost s hs
    unfold Run.updatePlayer Run.keyboardInput
    split
    · split <;> exact h0
    · exact h0
  refine ⟨?_, ?_, ?_⟩
  · unfold Run.beforeReset
    simp only [Run.resetCondition, Run.checkPipes_gameLost, hlost, Bool.false_or,
      Bool.or_eq_true, List.any_eq_true, decide_eq_true_eq]
    simp only [Run.checkPipes, or_assoc]
  · intro h
    simp only [Run.resetIfLost, h, if_true, Run.reset, Player.ResetPosition, Clock.restart,
      Clock.getElapsedTime, sub_self, and_self]
  · intro h
    have hne : ¬ (Run.resetCondition (Run.beforeReset s i) = true) := by
      rw [h]
      exact Bool.false_ne_true
    have e : Run.resetIfLost (Run.beforeReset s i) i = Run.beforeReset s i := by
      unfold Run.resetIfLost
      rw [if_neg hne]
    rw [e]
    exact ⟨rfl, rfl, rfl, rfl⟩

/-- C1 in the first frame of a run, with the key not pressed and 16 ms elapsed:
no pipe exists and the player is at height 97.16, so the branch is not taken. -/
theorem C1_reset_branch_witness :
    Run.resetCondition (Run.beforeReset (Run.init 0 0)
        { elapsedTime := 16, spacePressed := false, resetSpawnInstant := 16000,
          resetScoreInstant := 16000, spawnReadInstant := 16000, spawnRestartInstant := 16000,
          scoreReadInstant := 16000,
          drawn := { value := 300, lower := by decide, upper := by decide } }) = true ↔
      ((∃ pipe ∈ (Run.updatePlayer (Run.keyboardInput (Run.init 0 0) false)
            ((16 : Int) : ℚ)).app.pipes,
          pipe.CheckCollision (Run.updatePlayer (Run.keyboardInput (Run.init 0 0) false)
            ((16 : Int) : ℚ)).player = true) ∨
        (Run.updatePlayer (Run.keyboardInput (Run.init 0 0) false)
          ((16 : Int) : ℚ)).player.position.y > 520 ∨
        (Run.updatePlayer (Run.keyboardInput (Run.init 0 0) false)
          ((16 : Int) : ℚ)).player.position.y < -100) :=
  (C1_reset_branch (Run.init 0 0) (Run.Reachable.init 0 0)
    { elapsedTime := 16, spacePressed := false, resetSpawnInstant := 16000,
      resetScoreInstant := 16000, spawnReadInstant := 16000, spawnRestartInstant := 16000,
      scoreReadInstant := 16000,
      drawn := { value := 300, lower := by decide, upper := by decide } }).1

/-! ## Ground entities -/

/-- C11: `Terrain::CheckCollision` returns false for every Ground entity
(type 1), wherever the ground and the player are; for instance for the ground
at (0, 550) and the player at (10, 560), where the player's 45x32 rectangle
overlaps the 70x425 rectangle at the ground's position. -/
theorem C11_ground_never_collides :
    (∀ (x y : ℚ) (player : Player),
      Terrain.CheckCollision { position := { x := x, y := y }, type := 1 } player = false) ∧
    ((Rect.ofPositionSize { x := 0, y := 550 } { x := 70, y := 425 }).intersects
        (Player.hitbox { position := { x := 10, y := 560 }, force := 0 }) = true ∧
      Terrain.CheckCollision { position := { x := 0, y := 550 }, type := 1 }
        { position := { x := 10, y := 560 }, force := 0 } = false) := by
  have h12 : ¬ ((1 : Int) = 2) := by decide
  have h13 : ¬ ((1 : Int) = 3) := by decide
  have hfalse : ∀ (x y : ℚ) (player : Player),
      Terrain.CheckCollision { position := { x := x, y := y }, type := 1 } player = false := by
    intro x y player
    simp only [Terrain.CheckCollision, h12, h13, if_false]
  refine ⟨hfalse, ?_, hfalse 0 550 _⟩
  rw [Rect.intersects_iff _ _ (by norm_num [Rect.ofPositionSize])
    (by norm_num [Rect.ofPositionSize]) (by norm_num [Player.hitbox, Rect.ofPositionSize])
    (by norm_num [Player.hitbox, Rect.ofPositionSize])]
  norm_num [Player.hitbox, Rect.ofPositionSize]

/-! ## The steps of a frame, field by field -/

/-- The keyboard step stores the key sample in `holdingSpaceButton` and calls
`Jump` when the key is pressed and was not held; nothing else changes. -/
theorem Run.keyboardInput_eq (s : RunState) (spacePressed : Bool) :
    Run.keyboardInput s spacePressed =
      { s with
        holdingSpaceButton := spacePressed
        player := if (spacePressed && !s.holdingSpaceButton) = true then s.player.Jump
          else s.player } := by
  cases s with
  | mk app player ground pipeSpawnClock scoreClock holdingSpaceButton gameLost =>
    cases spacePressed <;> cases holdingSpaceButton <;> simp [Run.keyboardInput]

/-- The state before the reset statement: what the first three steps leave of
the fields of the state. -/
theorem Run.beforeReset_fields (s : RunState) (i : FrameInput) :
    (Run.beforeReset s i).app = s.app ∧
    (Run.beforeReset s i).ground = s.ground ∧
    (Run.beforeReset s i).pipeSpawnClock = s.pipeSpawnClock ∧
    (Run.beforeReset s i).scoreClock = s.scoreClock ∧
    (Run.beforeReset s i).holdingSpaceButton = i.spacePressed ∧
    (Run.beforeReset s i).player =
      Player.Update (if (i.spacePressed && !s.holdingSpaceButton) = true then s.player.Jump
        else s.player) (i.elapsedTime : ℚ) := by
  simp only [Run.beforeReset, Run.checkPipes, Run.updatePlayer, Run.keyboardInput_eq, and_self]

/-- The state after the reset statement: the fields the reset never writes. -/
theorem Run.afterReset_fields (s : RunState) (i : FrameInput) :
    (Run.afterReset s i).app.grounds = s.app.grounds ∧
    (Run.afterReset s i).ground = s.ground ∧
    (Run.afterReset s i).holdingSpaceButton = i.spacePressed ∧
    (Run.afterReset s i).gameLost = false := by
  obtain ⟨ha, hg, -, -, hh, -⟩ := Run.beforeReset_fields s i
  refine ⟨?_, ?_, ?_, Run.resetIfLost_gameLost _ i⟩
  · unfold Run.afterReset Run.resetIfLost
    split
    · simp only [Run.reset, ha]
    · rw [ha]
  · unfold Run.afterReset Run.resetIfLost
    split
    · simp only [Run.reset, hg]
    · rw [hg]
  · unfold Run.afterReset Run.resetIfLost
    split
    · simp only [Run.reset, hh]
    · rw [hh]

/-- The state after the reset statement when the branch is not taken. -/
theorem Run.afterReset_of_not_lost (s : RunState) (i : FrameInput)
    (h : Run.resetCondition (Run.beforeReset s i) = false) :
    Run.afterReset s i = Run.beforeReset s i := by
  unfold Run.afterReset Run.resetIfLost
  rw [h]
  simp

/-- The state after the reset statement when the branch is taken. -/
theorem Run.afterReset_of_lost (s : RunState) (i : FrameInput)
    (h : Run.resetCondition (Run.beforeReset s i) = true) :
    Run.afterReset s i = Run.reset (Run.beforeReset s i) i := by
  unfold Run.afterReset Run.resetIfLost
  rw [h]
  simp

/-- The step that creates a ground, on a collection that is not empty: it has
a result, which differs from the state before it at most in the ground
collection and the position of the local `ground`. -/
theorem Run.createGround_spec (s : RunState) (h : s.app.grounds ≠ []) :
    ∃ (s5 : RunState) (lastGround : Terrain),
      Run.createGround s = some s5 ∧
      s.app.grounds.getLast? = some lastGround ∧
      s5.app.grounds =
        (if lastGround.position.x < -48 then
          s.app.grounds ++ [{ position := { x := 336, y := 550 }, type := s.ground.type }]
        else s.app.grounds) ∧
      s5.ground.type = s.ground.type ∧
      s5.app.pipes = s.app.pipes ∧ s5.app.score = s.app.score ∧
      s5.player = s.player ∧ s5.pipeSpawnClock = s.pipeSpawnClock ∧
      s5.scoreClock = s.scoreClock ∧ s5.holdingSpaceButton = s.holdingSpaceButton ∧
      s5.gameLost = s.gameLost := by
  obtain ⟨lastGround, hl⟩ : ∃ g, s.app.grounds.getLast? = some g := by
    cases hg : s.app.grounds.getLast? with
    | none => exact absurd (List.getLast?_eq_none_iff.mp hg) h
    | some g => exact ⟨g, rfl⟩
  by_cases hx : lastGround.position.x < -48
  · refine ⟨{ s with
        ground := { s.ground with position := { x := 336, y := 550 } }
        app := { s.app with
          grounds := s.app.grounds ++ [{ s.ground with position := { x := 336, y := 550 } }] } },
      lastGround, ?_, hl, ?_⟩
    · unfold Run.createGround
      rw [hl]
      simp only [hx, if_true]
    · simp only [hx, if_true, and_self]
  · refine ⟨s, lastGround, ?_, hl, ?_⟩
    · unfold Run.createGround
      rw [hl]
      simp only [hx, if_false]
    · simp only [hx, if_false, and_self]

/-- The spawn step, field by field. -/
theorem Run.spawnAndScore_fields (s : RunState) (i : FrameInput) :
    (Run.spawnAndScore s i).player = s.player ∧
    (Run.spawnAndScore s i).ground = s.ground ∧
    (Run.spawnAndScore s i).holdingSpaceButton = s.holdingSpaceButton ∧
    (Run.spawnAndScore s i).scoreClock = s.scoreClock ∧
    (Run.spawnAndScore s i).pipeSpawnClock =
      (if asSeconds (s.pipeSpawnClock.getElapsedTime i.spawnReadInstant) > 3 then
        { startTime := i.spawnRestartInstant } else s.pipeSpawnClock) ∧
    (Run.spawnAndScore s i).app.grounds =
      (if asSeconds (s.pipeSpawnClock.getElapsedTime i.spawnReadInstant) > 3 then
        remove_if (fun ground => decide (ground.position.x < -500)) s.app.grounds
      else s.app.grounds) ∧
    (Run.spawnAndScore s i).app.pipes =
      (if asSeconds (s.pipeSpawnClock.getElapsedTime i.spawnReadInstant) > 3 then
        (s.app.SpawnPipes i.drawn).pipes
      else s.app.pipes) ∧
    (Run.spawnAndScore s i).app.score =
      (if asSeconds (s.pipeSpawnClock.getElapsedTime i.spawnReadInstant) > 3 ∧
          asSeconds (s.scoreClock.getElapsedTime i.scoreReadInstant) > 5 then
        s.app.score + 1
      else s.app.score) := by
  unfold Run.spawnAndScore
  by_cases h3 : asSeconds (s.pipeSpawnClock.getElapsedTime i.spawnReadInstant) > 3
  · by_cases h5 : asSeconds (s.scoreClock.getElapsedTime i.scoreReadInstant) > 5
    · simp [h3, h5, Application.SpawnPipes, Clock.restart]
    · simp [h3, h5, Application.SpawnPipes, Clock.restart]
  · simp [h3]

/-- One iteration of the loop from a state whose ground collection is not
empty: it has a result, given by the ground step and the spawn step. -/
theorem Run.frame_spec (s : RunState) (i : FrameInput) (h : s.app.grounds ≠ []) :
    ∃ (s5 : RunState) (lastGround : Terrain),
      Run.createGround (Run.updateGrounds (Run.afterReset s i) (i.elapsedTime : ℚ)) = some s5 ∧
      Run.frame s i = some (Run.spawnAndScore (Run.updatePipes s5 (i.elapsedTime : ℚ)) i) ∧
      (s.app.grounds.map (fun g => g.Update (i.elapsedTime : ℚ))).getLast? = some lastGround ∧
      s5.app.grounds =
        (if lastGround.position.x < -48 then
          s.app.grounds.map (fun g => g.Update (i.elapsedTime : ℚ)) ++
            [{ position := { x := 336, y := 550 }, type := s.ground.type }]
        else s.app.grounds.map (fun g => g.Update (i.elapsedTime : ℚ))) ∧
      s5.ground.type = s.ground.type ∧
      s5.app.pipes = (Run.afterReset s i).app.pipes ∧
      s5.app.score = (Run.afterReset s i).app.score ∧
      s5.player = (Run.afterReset s i).player ∧
      s5.pipeSpawnClock = (Run.afterReset s i).pipeSpawnClock ∧
      s5.scoreClock = (Run.afterReset s i).scoreClock ∧
      s5.holdingSpaceButton = i.spacePressed ∧
      s5.gameLost = false := by
  obtain ⟨hg, hgr, hh, hl⟩ := Run.afterReset_fields s i
  have hne : (Run.updateGrounds (Run.afterReset s i) (i.elapsedTime : ℚ)).app.grounds ≠ [] := by
    simp only [Run.updateGrounds, hg, ne_eq, List.map_eq_nil_iff]
    exact h
  obtain ⟨s5, lastGround, h1, h2, h3, h4, h5, h6, h7, h8, h9, h10, h11⟩ :=
    Run.createGround_spec _ hne
  refine ⟨s5, lastGround, h1, ?_, ?_, ?_, ?_, h5, h6, h7, h8, h9, ?_, ?_⟩
  · have : Run.frame s i =
        match Run.createGround (Run.updateGrounds (Run.afterReset s i) (i.elapsedTime : ℚ)) with
        | none => none
        | some s => some (Run.spawnAndScore (Run.updatePipes s (i.elapsedTime : ℚ)) i) := rfl
    rw [this, h1]
  · simpa only [Run.updateGrounds, hg] using h2
  · simpa only [Run.updateGrounds, hg, hgr] using h3
  · simpa only [Run.updateGrounds, hgr] using h4
  · simpa only [Run.updateGrounds, hh] using h10
  · simpa only [Run.updateGrounds, hl] using h11

/-- The purge keeps the last element of a collection when that element is not
purged. -/
theorem remove_if_getLast? (pred : Terrain → Bool) (l : List Terrain) (g : Terrain)
    (h : l.getLast? = some g) (hg : pred g = false) :
    (remove_if pred l).getLast? = some g := by
  obtain ⟨ys, rfl⟩ := List.getLast?_eq_some_iff.mp h
  have : remove_if pred (ys ++ [g]) = remove_if pred ys ++ [g] := by
    simp [remove_if, List.filter_append, List.filter, hg]
  rw [this, List.getLast?_concat]

/-- At the start of every iteration the ground collection has a last element,
with x >= -48, and the local `ground` has the tag of a ground. -/
theorem Run.Reachable.grounds (s : RunState) (hs : Run.Reachable s) :
    (∃ g, s.app.grounds.getLast? = some g ∧ -48 ≤ g.position.x) ∧ s.ground.type = 1 := by
  induction hs with
  | init a b =>
    refine ⟨⟨{ position := { x := 0, y := 550 }, type := 1 }, rfl, ?_⟩, rfl⟩
    norm_num
  | frame s s' i _ hf ih =>
    obtain ⟨⟨g, hg, _⟩, ht⟩ := ih
    have hne : s.app.grounds ≠ [] := by
      intro h0
      rw [h0] at hg
      exact absurd hg (by simp)
    obtain ⟨s5, lastGround, -, h2, h3, h4, h5, -⟩ := Run.frame_spec s i hne
    rw [h2, Option.some.injEq] at hf
    obtain ⟨-, hgr, -, -, -, hgrounds, -, -⟩ :=
      Run.spawnAndScore_fields (Run.updatePipes s5 (i.elapsedTime : ℚ)) i
    have hlast : ∃ g5, s5.app.grounds.getLast? = some g5 ∧ -48 ≤ g5.position.x := by
      by_cases hx : lastGround.position.x < -48
      · rw [if_pos hx] at h4
        refine ⟨_, by rw [h4, List.getLast?_concat], ?_⟩
        norm_num
      · rw [if_neg hx] at h4
        exact ⟨lastGround, by rw [h4]; exact h3, not_lt.mp hx⟩
    obtain ⟨g5, hg5, hx5⟩ := hlast
    refine ⟨⟨g5, ?_, hx5⟩, ?_⟩
    · rw [← hf, hgrounds]
      simp only [Run.updatePipes]
      split
      · refine remove_if_getLast? _ _ g5 hg5 ?_
        simp only [decide_eq_false_iff_not, not_lt]
        linarith
      · exact hg5
    · rw [← hf, hgr]
      simp only [Run.updatePipes]
      rw [h5, ht]

/-- At the start of every iteration the ground collection is not empty. -/
theorem Run.Reachable.ne_nil (s : RunState) (hs : Run.Reachable s) : s.app.grounds ≠ [] := by
  obtain ⟨⟨g, hg, -⟩, -⟩ := Run.Reachable.grounds s hs
  intro h0
  rw [h0] at hg
  exact absurd hg (by simp)

/-- C17: the ground collection is never empty. In every state at the start of
an iteration of `Application::Run` the ground collection has a last element,
whose x is at least -48, so that the purge of the entities with x < -500 keeps
it; in the frame started there the collection read by `grounds.back()` is not
empty, the frame has a result, and in the state at its end the last ground
entity again has x >= -48. -/
theorem C17_grounds_never_empty (s : RunState) (hs : Run.Reachable s) :
    s.app.grounds ≠ [] ∧
    (∃ g, s.app.grounds.getLast? = some g ∧ -48 ≤ g.position.x ∧
      (remove_if (fun ground => decide (ground.position.x < -500)) s.app.grounds).getLast? =
        some g) ∧
    (∀ i : FrameInput,
      (Run.updateGrounds (Run.afterReset s i) (i.elapsedTime : ℚ)).app.grounds ≠ [] ∧
      ∃ s', Run.frame s i = some s' ∧ s'.app.grounds ≠ [] ∧
        ∃ g', s'.app.grounds.getLast? = some g' ∧ -48 ≤ g'.position.x) := by
  have hne := Run.Reachable.ne_nil s hs
  obtain ⟨⟨g, hg, hx⟩, -⟩ := Run.Reachable.grounds s hs
  refine ⟨hne, ⟨g, hg, hx, ?_⟩, fun i => ⟨?_, ?_⟩⟩
  · refine remove_if_getLast? _ _ g hg ?_
    simp only [decide_eq_false_iff_not, not_lt]
    linarith
  · simp only [Run.updateGrounds, (Run.afterReset_fields s i).1, ne_eq, List.map_eq_nil_iff]
    exact hne
  · obtain ⟨s5, lastGround, -, h2, -⟩ := Run.frame_spec s i hne
    have hs' := Run.Reachable.frame s _ i hs h2
    exact ⟨_, h2, Run.Reachable.ne_nil _ hs', (Run.Reachable.grounds _ hs').1⟩

/-- C17 at the start of a run. -/
theorem C17_grounds_never_empty_witness : (Run.init 0 0).app.grounds ≠ [] :=
  (C17_grounds_never_empty (Run.init 0 0) (Run.Reachable.init 0 0)).1

/-- The ground step reads only the ground collection and the local `ground`. -/
theorem Run.createGround_congr (s1 s2 : RunState) (hg : s1.app.grounds = s2.app.grounds)
    (hl : s1.ground = s2.ground) :
    (Run.createGround s1).map (fun t => (t.app.grounds, t.ground)) =
      (Run.createGround s2).map (fun t => (t.app.grounds, t.ground)) := by
  unfold Run.createGround
  rw [hg, hl]
  cases s2.app.grounds.getLast? with
  | none => rfl
  | some lastGround =>
    simp only
    split <;> simp [hg, hl]

/-- C18: the failure reset does not touch the ground collection. In a frame in
which the player fails, the ground collection (and the local `ground`) right
after the reset step is the one right before it, entity by entity and in the
same order, and the ground drift/append step of that frame produces from it
the collection it would produce had the reset branch not run. -/
theorem C18_reset_keeps_grounds (s : RunState) (i : FrameInput)
    (hfail : Run.resetCondition (Run.beforeReset s i) = true) :
    Run.afterReset s i = Run.reset (Run.beforeReset s i) i ∧
    (Run.afterReset s i).app.grounds = (Run.beforeReset s i).app.grounds ∧
    (Run.afterReset s i).ground = (Run.beforeReset s i).ground ∧
    (Run.updateGrounds (Run.afterReset s i) (i.elapsedTime : ℚ)).app.grounds =
      (Run.updateGrounds (Run.beforeReset s i) (i.elapsedTime : ℚ)).app.grounds ∧
    (Run.createGround (Run.updateGrounds (Run.afterReset s i) (i.elapsedTime : ℚ))).map
        (fun t => (t.app.grounds, t.ground)) =
      (Run.createGround (Run.updateGrounds (Run.beforeReset s i) (i.elapsedTime : ℚ))).map
        (fun t => (t.app.grounds, t.ground)) := by
  have h1 : (Run.afterReset s i).app.grounds = (Run.beforeReset s i).app.grounds := by
    rw [Run.afterReset_of_lost s i hfail]
    rfl
  have h2 : (Run.afterReset s i).ground = (Run.beforeReset s i).ground := by
    rw [Run.afterReset_of_lost s i hfail]
    rfl
  have h3 : (Run.updateGrounds (Run.afterReset s i) (i.elapsedTime : ℚ)).app.grounds =
      (Run.updateGrounds (Run.beforeReset s i) (i.elapsedTime : ℚ)).app.grounds := by
    simp only [Run.updateGrounds, h1]
  refine ⟨Run.afterReset_of_lost s i hfail, h1, h2, h3, ?_⟩
  exact Run.createGround_congr _ _ h3 (by simp only [Run.updateGrounds, h2])

/-- The reset branch is taken when the updated player is below the field. -/
theorem Run.resetCondition_of_low (s : RunState) (h : s.player.position.y > 520) :
    Run.resetCondition s = true := by
  simp only [Run.resetCondition, Bool.or_eq_true, decide_eq_true_eq]
  exact Or.inl (Or.inr h)

/-- C18 in a first frame that took 100 seconds: the player falls to y = 1097
and fails, and the ground collection after the reset is the one before it. -/
theorem C18_reset_keeps_grounds_witness :
    (Run.afterReset (Run.init 0 0)
        { elapsedTime := 100000, spacePressed := false, resetSpawnInstant := 100000000,
          resetScoreInstant := 100000000, spawnReadInstant := 100000000,
          spawnRestartInstant := 100000000, scoreReadInstant := 100000000,
          drawn := { value := 300, lower := by decide, upper := by decide } }).app.grounds =
      (Run.beforeReset (Run.init 0 0)
        { elapsedTime := 100000, spacePressed := false, resetSpawnInstant := 100000000,
          resetScoreInstant := 100000000, spawnReadInstant := 100000000,
          spawnRestartInstant := 100000000, scoreReadInstant := 100000000,
          drawn := { value := 300, lower := by decide, upper := by decide } }).app.grounds :=
  (C18_reset_keeps_grounds (Run.init 0 0) _
    (by
      apply Run.resetCondition_of_low
      rw [(Run.beforeReset_fields _ _).2.2.2.2.2, Player.Update_y]
      norm_num [Run.init, Player.ResetPosition])).2.1

/-! ## Spawning and scoring in a frame -/

/-- The state after the reset statement, in the two cases of its condition. -/
theorem Run.afterReset_cases (s : RunState) (i : FrameInput) :
    (Run.resetCondition (Run.beforeReset s i) = true →
      (Run.afterReset s i).player = { position := { x := 100, y := 100 }, force := 3 } ∧
      (Run.afterReset s i).app.pipes = [] ∧
      (Run.afterReset s i).app.score = 0 ∧
      (Run.afterReset s i).pipeSpawnClock = { startTime := i.resetSpawnInstant } ∧
      (Run.afterReset s i).scoreClock = { startTime := i.resetScoreInstant }) ∧
    (Run.resetCondition (Run.beforeReset s i) = false →
      (Run.afterReset s i).player = (Run.beforeReset s i).player ∧
      (Run.afterReset s i).app.pipes = s.app.pipes ∧
      (Run.afterReset s i).app.score = s.app.score ∧
      (Run.afterReset s i).pipeSpawnClock = s.pipeSpawnClock ∧
      (Run.afterReset s i).scoreClock = s.scoreClock) := by
  obtain ⟨ha, -, hp, hc, -, -⟩ := Run.beforeReset_fields s i
  constructor
  · intro h
    rw [Run.afterReset_of_lost s i h]
    exact ⟨rfl, rfl, rfl, rfl, rfl⟩
  · intro h
    rw [Run.afterReset_of_not_lost s i h, ha, hp, hc]
    exact ⟨rfl, rfl, rfl, rfl, rfl⟩

/-- The result of one iteration of the loop from a state whose ground
collection is not empty, in terms of the state after the reset statement. -/
theorem Run.frame_result (s : RunState) (i : FrameInput) (h : s.app.grounds ≠ []) :
    ∃ s' : RunState,
      Run.frame s i = some s' ∧
      s'.player = (Run.afterReset s i).player ∧
      s'.holdingSpaceButton = i.spacePressed ∧
      s'.scoreClock = (Run.afterReset s i).scoreClock ∧
      s'.pipeSpawnClock =
        (if asSeconds ((Run.afterReset s i).pipeSpawnClock.getElapsedTime i.spawnReadInstant) > 3
          then { startTime := i.spawnRestartInstant }
          else (Run.afterReset s i).pipeSpawnClock) ∧
      s'.app.score =
        (if asSeconds ((Run.afterReset s i).pipeSpawnClock.getElapsedTime i.spawnReadInstant) > 3 ∧
            asSeconds ((Run.afterReset s i).scoreClock.getElapsedTime i.scoreReadInstant) > 5
          then (Run.afterReset s i).app.score + 1
          else (Run.afterReset s i).app.score) ∧
      s'.app.pipes =
        (if asSeconds ((Run.afterReset s i).pipeSpawnClock.getElapsedTime i.spawnReadInstant) > 3
          then
            remove_if (fun pipe => decide (pipe.position.x < -500))
                ((Run.afterReset s i).app.pipes.map (fun p => p.Update (i.elapsedTime : ℚ))) ++
              [{ position := { x := 400, y := (i.drawn.value : ℚ) }, type := 2 },
               { position := { x := 469, y := (i.drawn.value : ℚ) - 200 }, type := 3 }]
          else (Run.afterReset s i).app.pipes.map (fun p => p.Update (i.elapsedTime : ℚ))) := by
  obtain ⟨s5, lastGround, -, h2, -, -, -, h6, h7, h8, h9, h10, h11, -⟩ := Run.frame_spec s i h
  obtain ⟨f1, -, f3, f4, f5, -, f7, f8⟩ :=
    Run.spawnAndScore_fields (Run.updatePipes s5 (i.elapsedTime : ℚ)) i
  have u1 : (Run.updatePipes s5 (i.elapsedTime : ℚ)).player = s5.player := rfl
  have u2 : (Run.updatePipes s5 (i.elapsedTime : ℚ)).holdingSpaceButton =
      s5.holdingSpaceButton := rfl
  have u3 : (Run.updatePipes s5 (i.elapsedTime : ℚ)).scoreClock = s5.scoreClock := rfl
  have u4 : (Run.updatePipes s5 (i.elapsedTime : ℚ)).pipeSpawnClock = s5.pipeSpawnClock := rfl
  have u5 : (Run.updatePipes s5 (i.elapsedTime : ℚ)).app.score = s5.app.score := rfl
  have u6 : (Run.updatePipes s5 (i.elapsedTime : ℚ)).app.pipes =
      s5.app.pipes.map (fun p => p.Update (i.elapsedTime : ℚ)) := rfl
  refine ⟨_, h2, ?_, ?_, ?_, ?_, ?_, ?_⟩
  · rw [f1, u1, h8]
  · rw [f3, u2, h11]
  · rw [f4, u3, h10]
  · rw [f5, u4, h9]
  · rw [f8, u4, u3, u5, h9, h10, h7]
  · rw [f7, u4, h9, Application.SpawnPipes_pipes_append, u6, h6]

/-- The condition of the reset branch in a frame started with the flag
`gameLost` not set. -/
theorem Run.resetCondition_beforeReset (s : RunState) (i : FrameInput)
    (hl : s.gameLost = false) :
    Run.resetCondition (Run.beforeReset s i) =
      (s.app.pipes.any (fun pipe => pipe.CheckCollision (Run.beforeReset s i).player) ||
        decide ((Run.beforeReset s i).player.position.y > 520) ||
        decide ((Run.beforeReset s i).player.position.y < -100)) := by
  have h1 : (Run.beforeReset s i).gameLost =
      (s.gameLost || s.app.pipes.any
        (fun pipe => pipe.CheckCollision (Run.beforeReset s i).player)) := by
    simp only [Run.beforeReset, Run.checkPipes_gameLost]
    simp only [Run.checkPipes, Run.updatePlayer, Run.keyboardInput_eq]
  simp only [Run.resetCondition, h1, hl, Bool.false_or]

/-- A pair of pipes at its spawn positions (400 and 469) does not collide with
a player whose x is at most 100. -/
theorem Terrain.CheckCollision_at_spawn (a : ℚ) (player : Player)
    (hx : player.position.x ≤ 100) :
    Terrain.CheckCollision { position := { x := 400, y := a }, type := 2 } player = false ∧
    Terrain.CheckCollision { position := { x := 469, y := a - 200 }, type := 3 } player =
      false := by
  constructor
  · rw [← Bool.not_eq_true, Terrain.CheckCollision_upright_iff]
    rintro ⟨-, h, -⟩
    linarith
  · rw [← Bool.not_eq_true, Terrain.CheckCollision_inverted_iff]
    rintro ⟨-, h, -⟩
    linarith

/-- The first frame of a run when it starts 3001 ms after the timers: the
player has fallen to y = 127.01, the first pair of pipes is spawned, the spawn
timer is restarted and the score stays 0. -/
theorem Run.first_frame_spawns :
    ∃ s : RunState,
      Run.frame (Run.init 0 0) (FrameInput.atInstant 3001 false 3001000) = some s ∧
      Run.Reachable s ∧
      s.player = { position := { x := 100, y := 12701 / 100 }, force := -2701 / 100 } ∧
      s.app.pipes =
        [{ position := { x := 400, y := 300 }, type := 2 },
         { position := { x := 469, y := 100 }, type := 3 }] ∧
      s.app.score = 0 ∧
      s.pipeSpawnClock = { startTime := 3001000 } ∧
      s.scoreClock = { startTime := 0 } := by
  have hne := Run.Reachable.ne_nil _ (Run.Reachable.init 0 0)
  obtain ⟨s, h1, hp, -, hsc, hpc, hscore, hpipes⟩ :=
    Run.frame_result (Run.init 0 0) (FrameInput.atInstant 3001 false 3001000) hne
  have hplayer : (Run.beforeReset (Run.init 0 0)
      (FrameInput.atInstant 3001 false 3001000)).player =
      { position := { x := 100, y := 12701 / 100 }, force := -2701 / 100 } := by
    rw [(Run.beforeReset_fields _ _).2.2.2.2.2]
    norm_num [FrameInput.atInstant, Run.init, Player.ResetPosition, Player.Update]
  have hc : Run.resetCondition (Run.beforeReset (Run.init 0 0)
      (FrameInput.atInstant 3001 false 3001000)) = false := by
    rw [Run.resetCondition_beforeReset _ _ rfl, hplayer]
    norm_num [Run.init]
  obtain ⟨a1, a2, a3, a4, a5⟩ := (Run.afterReset_cases _ _).2 hc
  rw [a4, a5, a3] at hscore
  rw [a4] at hpc
  rw [a4, a2] at hpipes
  rw [a5] at hsc
  rw [a1, hplayer] at hp
  have h3 : asSeconds ((Run.init 0 0).pipeSpawnClock.getElapsedTime
      (FrameInput.atInstant 3001 false 3001000).spawnReadInstant) > 3 := by
    norm_num [asSeconds, Clock.getElapsedTime, Run.init, FrameInput.atInstant]
  have h5 : ¬ asSeconds ((Run.init 0 0).scoreClock.getElapsedTime
      (FrameInput.atInstant 3001 false 3001000).scoreReadInstant) > 5 := by
    norm_num [asSeconds, Clock.getElapsedTime, Run.init, FrameInput.atInstant]
  rw [if_pos h3] at hpc hpipes
  rw [if_neg (fun h => h5 h.2)] at hscore
  refine ⟨s, h1, Run.Reachable.frame _ _ _ (Run.Reachable.init 0 0) h1, hp, ?_, hscore, hpc, hsc⟩
  rw [hpipes]
  norm_num [Run.init, remove_if, FrameInput.atInstant]

/-- A frame that spawns does not always add 2 to the number of obstacles. After
the first frame of `Run.first_frame_spawns`, a frame 9001 ms later sees no
failure, a spawn timer at 9.001 s and a score timer at 12.002 s: the score
goes up by 1, and the purge removes the old upright pipe (drifted to
x = -500.1), so the collection goes from 2 to 3 entities. -/
theorem Run.spawn_purges_example :
    ∃ s s' : RunState,
      Run.frames (Run.init 0 0) [FrameInput.atInstant 3001 false 3001000] = some s ∧
      Run.frame s (FrameInput.atInstant 9001 false 12002000) = some s' ∧
      Run.resetCondition (Run.beforeReset s (FrameInput.atInstant 9001 false 12002000)) = false ∧
      asSeconds (s.pipeSpawnClock.getElapsedTime
        (FrameInput.atInstant 9001 false 12002000).spawnReadInstant) > 3 ∧
      asSeconds (s.scoreClock.getElapsedTime
        (FrameInput.atInstant 9001 false 12002000).scoreReadInstant) > 5 ∧
      s'.app.score = s.app.score + 1 ∧
      s.app.pipes.length = 2 ∧ s'.app.pipes.length = 3 := by
  obtain ⟨s, h1, hs, hp, hpipes, hscore, hpc, hsc⟩ := Run.first_frame_spawns
  obtain ⟨s', g1, -, -, -, -, gscore, gpipes⟩ :=
    Run.frame_result s (FrameInput.atInstant 9001 false 12002000) (Run.Reachable.ne_nil s hs)
  have hplayer : (Run.beforeReset s (FrameInput.atInstant 9001 false 12002000)).player =
      { position := { x := 100, y := 24403 / 100 }, force := -11702 / 100 } := by
    rw [(Run.beforeReset_fields _ _).2.2.2.2.2, hp]
    norm_num [FrameInput.atInstant, Player.Update]
  have hc : Run.resetCondition
      (Run.beforeReset s (FrameInput.atInstant 9001 false 12002000)) = false := by
    obtain ⟨hu, hi⟩ := Terrain.CheckCollision_at_spawn 300
      (Run.beforeReset s (FrameInput.atInstant 9001 false 12002000)).player (by rw [hplayer])
    norm_num at hi
    rw [Run.resetCondition_beforeReset _ _ (Run.Reachable.gameLost s hs), hpipes]
    simp only [List.any_cons, List.any_nil, Bool.or_false]
    rw [hu, hi, hplayer]
    norm_num
  obtain ⟨-, a2, a3, a4, a5⟩ := (Run.afterReset_cases _ _).2 hc
  rw [a4, a5, a3] at gscore
  rw [a4, a2] at gpipes
  have h3 : asSeconds (s.pipeSpawnClock.getElapsedTime
      (FrameInput.atInstant 9001 false 12002000).spawnReadInstant) > 3 := by
    rw [hpc]
    norm_num [asSeconds, Clock.getElapsedTime, FrameInput.atInstant]
  have h5 : asSeconds (s.scoreClock.getElapsedTime
      (FrameInput.atInstant 9001 false 12002000).scoreReadInstant) > 5 := by
    rw [hsc]
    norm_num [asSeconds, Clock.getElapsedTime, FrameInput.atInstant]
  rw [if_pos ⟨h3, h5⟩] at gscore
  rw [if_pos h3] at gpipes
  refine ⟨s, s', ?_, g1, hc, h3, h5, gscore, ?_, ?_⟩
  · simp only [Run.frames, h1]
  · rw [hpipes]
    rfl
  · rw [gpipes, hpipes]
    norm_num [remove_if, List.filter, Terrain.Update, FrameInput.atInstant]

/-! ## Runs of several frames -/

/-- From a state at the start of an iteration, the loop has a result for every
list of inputs, and that result is again such a state. -/
theorem Run.frames_total (s : RunState) (hs : Run.Reachable s) (inputs : List FrameInput) :
    ∃ s' : RunState, Run.frames s inputs = some s' ∧ Run.Reachable s' := by
  induction inputs generalizing s with
  | nil => exact ⟨s, rfl, hs⟩
  | cons i rest ih =>
    obtain ⟨s1, h1, -⟩ := Run.frame_result s i (Run.Reachable.ne_nil s hs)
    obtain ⟨s', h2, hs'⟩ := ih s1 (Run.Reachable.frame s s1 i hs h1)
    refine ⟨s', ?_, hs'⟩
    simp only [Run.frames, h1, h2]

/-- After a run of several frames the flag `holdingSpaceButton` is the key
sample of the last frame (the flag of the start when there was no frame). -/
theorem Run.frames_holding (s : RunState) (hs : Run.Reachable s) (inputs : List FrameInput)
    (s' : RunState) (h : Run.frames s inputs = some s') :
    s'.holdingSpaceButton =
      (inputs.getLast?.map FrameInput.spacePressed).getD s.holdingSpaceButton := by
  induction inputs generalizing s with
  | nil =>
    simp only [Run.frames, Option.some.injEq] at h
    rw [← h]
    rfl
  | cons i rest ih =>
    obtain ⟨s1, h1, -, hh, -⟩ := Run.frame_result s i (Run.Reachable.ne_nil s hs)
    simp only [Run.frames, h1] at h
    rw [ih s1 (Run.Reachable.frame s s1 i hs h1) h, hh, List.getLast?_cons]
    cases rest.getLast? <;> rfl

/-- C14: the jump input is edge-triggered. After any sequence of frames from
the start of a run, the flag `holdingSpaceButton` equals the key sample of the
last frame (false before the first frame). In the next frame `Player::Jump` is
invoked exactly when the key is held in that frame and was not held in the
previous one, so not while the key stays held; the keyboard step changes
nothing else, and at the end of the frame the flag equals that frame's key
sample. -/
theorem C14_jump_edge_triggered (a b : Int) (inputs : List FrameInput) (i : FrameInput) :
    ∃ s s' : RunState,
      Run.frames (Run.init a b) inputs = some s ∧ Run.frame s i = some s' ∧
      s.holdingSpaceButton = (inputs.getLast?.map FrameInput.spacePressed).getD false ∧
      (Run.jumpInvoked s i.spacePressed = true ↔
        i.spacePressed = true ∧
          (inputs.getLast?.map FrameInput.spacePressed).getD false = false) ∧
      ((inputs.getLast?.map FrameInput.spacePressed).getD false = true →
        Run.jumpInvoked s i.spacePressed = false) ∧
      Run.keyboardInput s i.spacePressed =
        { s with
          holdingSpaceButton := i.spacePressed
          player := if Run.jumpInvoked s i.spacePressed = true then s.player.Jump
            else s.player } ∧
      s'.holdingSpaceButton = i.spacePressed := by
  obtain ⟨s, h1, hs⟩ := Run.frames_total (Run.init a b) (Run.Reachable.init a b) inputs
  obtain ⟨s', h2, -, hh, -⟩ := Run.frame_result s i (Run.Reachable.ne_nil s hs)
  have hprev := Run.frames_holding (Run.init a b) (Run.Reachable.init a b) inputs s h1
  have hinit : (Run.init a b).holdingSpaceButton = false := rfl
  rw [hinit] at hprev
  refine ⟨s, s', h1, h2, hprev, ?_, ?_, Run.keyboardInput_eq s i.spacePressed, hh⟩
  · rw [← hprev]
    simp only [Run.jumpInvoked, Bool.and_eq_true, Bool.not_eq_true']
  · intro hheld
    rw [← hprev] at hheld
    simp only [Run.jumpInvoked, hheld, Bool.not_true, Bool.and_false]

/-! ## Bounds on the player -/

/-- The nearest integer is the floor or the floor plus one. -/
theorem Binary32.roundHalfEven_bounds (t : ℚ) :
    ⌊t⌋ ≤ Binary32.roundHalfEven t ∧ Binary32.roundHalfEven t ≤ ⌊t⌋ + 1 := by
  unfold Binary32.roundHalfEven
  simp only
  split_ifs <;> constructor <;> omega

/-- The nearest integer is at most one half away. -/
theorem Binary32.roundHalfEven_abs (t : ℚ) :
    |t - (Binary32.roundHalfEven t : ℚ)| ≤ 1 / 2 := by
  have h1 := Int.floor_le t
  have h2 := Int.lt_floor_add_one t
  unfold Binary32.roundHalfEven
  simp only
  split_ifs with ha hb hc
  · rw [abs_le]; constructor <;> linarith
  · rw [abs_le]; push_cast; constructor <;> linarith
  · rw [abs_le]; constructor <;> linarith
  · rw [abs_le]; push_cast; constructor <;> linarith

/-- No integer is nearer than the nearest integer. -/
theorem Binary32.roundHalfEven_nearest (t : ℚ) (j : ℤ) :
    |t - (Binary32.roundHalfEven t : ℚ)| ≤ |t - (j : ℚ)| := by
  by_cases h : Binary32.roundHalfEven t = j
  · rw [h]
  · have h1 := Binary32.roundHalfEven_abs t
    have h2 : (1 : ℚ) ≤ |((Binary32.roundHalfEven t - j : ℤ) : ℚ)| := by
      rw [← Int.cast_abs]
      have : (1 : ℤ) ≤ |Binary32.roundHalfEven t - j| := Int.one_le_abs (sub_ne_zero.mpr h)
      exact_mod_cast this
    have h3 : |((Binary32.roundHalfEven t - j : ℤ) : ℚ)| ≤
        |t - (Binary32.roundHalfEven t : ℚ)| + |t - (j : ℚ)| := by
      have e : ((Binary32.roundHalfEven t - j : ℤ) : ℚ) =
          (t - (j : ℚ)) - (t - (Binary32.roundHalfEven t : ℚ)) := by push_cast; ring
      rw [e]
      calc |(t - (j : ℚ)) - (t - (Binary32.roundHalfEven t : ℚ))|
          ≤ |t - (j : ℚ)| + |t - (Binary32.roundHalfEven t : ℚ)| := abs_sub _ _
        _ = _ := add_comm _ _
    linarith

/-- An integer less than one half away is the nearest integer. -/
theorem Binary32.roundHalfEven_eq_of_lt (t : ℚ) (n : ℤ) (h : |t - (n : ℚ)| < 1 / 2) :
    Binary32.roundHalfEven t = n := by
  by_contra hne
  have h1 := Binary32.roundHalfEven_abs t
  have h2 : (1 : ℚ) ≤ |((Binary32.roundHalfEven t - n : ℤ) : ℚ)| := by
    rw [← Int.cast_abs]
    have : (1 : ℤ) ≤ |Binary32.roundHalfEven t - n| := Int.one_le_abs (sub_ne_zero.mpr hne)
    exact_mod_cast this
  have h3 : |((Binary32.roundHalfEven t - n : ℤ) : ℚ)| ≤
      |t - (Binary32.roundHalfEven t : ℚ)| + |t - (n : ℚ)| := by
    have e : ((Binary32.roundHalfEven t - n : ℤ) : ℚ) =
        (t - (n : ℚ)) - (t - (Binary32.roundHalfEven t : ℚ)) := by push_cast; ring
    rw [e]
    calc |(t - (n : ℚ)) - (t - (Binary32.roundHalfEven t : ℚ))|
        ≤ |t - (n : ℚ)| + |t - (Binary32.roundHalfEven t : ℚ)| := abs_sub _ _
      _ = _ := add_comm _ _
  linarith

/-- Halfway between an even integer and its successor the even one is taken. -/
theorem Binary32.roundHalfEven_tie (n : ℤ) (h : n % 2 = 0) :
    Binary32.roundHalfEven ((n : ℚ) + 1 / 2) = n := by
  have hf : ⌊(n : ℚ) + 1 / 2⌋ = n := by
    rw [Int.floor_eq_iff]
    constructor <;> linarith
  unfold Binary32.roundHalfEven
  simp only [hf]
  have e : (n : ℚ) + 1 / 2 - (n : ℚ) = 1 / 2 := by ring
  rw [e]
  simp [h]

/-- The unit in the last place is at least 2^(-149). -/
theorem Binary32.ulpExponent_ge (q : ℚ) : -149 ≤ Binary32.ulpExponent q :=
  le_max_right _ _

/-- A rational is less than 2^24 units in the last place. -/
theorem Binary32.ulpExponent_upper (q : ℚ) : q < 2 ^ (Binary32.ulpExponent q + 24) := by
  have h1 := Int.lt_zpow_succ_log_self (R := ℚ) (b := 2) (by norm_num) q
  have h2 : Int.log 2 q + 1 ≤ Binary32.ulpExponent q + 24 := by
    have := le_max_left (Int.log 2 q - 23) (-149)
    unfold Binary32.ulpExponent
    omega
  have h3 : ((2 : ℕ) : ℚ) ^ (Int.log 2 q + 1) ≤ ((2 : ℕ) : ℚ) ^ (Binary32.ulpExponent q + 24) :=
    zpow_le_zpow_right₀ (by norm_num) h2
  have h4 := lt_of_lt_of_le h1 h3
  simpa using h4

/-- Above the subnormal range a positive rational is at least 2^23 units in the
last place. -/
theorem Binary32.ulpExponent_lower (q : ℚ) (hq : 0 < q) :
    Binary32.ulpExponent q = -149 ∨ 2 ^ (Binary32.ulpExponent q + 23) ≤ q := by
  by_cases h : Int.log 2 q - 23 ≤ -149
  · left
    unfold Binary32.ulpExponent
    exact max_eq_right h
  · right
    have e : Binary32.ulpExponent q = Int.log 2 q - 23 := by
      unfold Binary32.ulpExponent
      exact max_eq_left (by omega)
    rw [e, sub_add_cancel]
    have := Int.zpow_log_le_self (R := ℚ) (b := 2) (by norm_num) hq
    simpa using this

/-- The unit in the last place of a positive rational, from bounds on it. -/
theorem Binary32.ulpExponent_eq (q : ℚ) (E : ℤ) (hq : 0 < q) (hE : -149 ≤ E)
    (hlo : E = -149 ∨ 2 ^ (E + 23) ≤ q) (hhi : q < 2 ^ (E + 24)) :
    Binary32.ulpExponent q = E := by
  have h1 : Int.log 2 q < E + 24 := by
    rw [← Int.lt_zpow_iff_log_lt (by norm_num) hq]
    simpa using hhi
  unfold Binary32.ulpExponent
  rcases hlo with h | h
  · rw [h] at h1 ⊢
    exact max_eq_right (by omega)
  · have h2 : E + 23 ≤ Int.log 2 q := by
      rw [← Int.zpow_le_iff_le_log (by norm_num) hq]
      simpa using h
    have : Int.log 2 q - 23 = E := by omega
    rw [this]
    exact max_eq_left hE

/-- The value of a rounding, given its exponent and a nearest integer. -/
theorem Binary32.roundNonneg_eq (q : ℚ) (E n : ℤ) (hq : 0 < q) (hE : -149 ≤ E)
    (hlo : E = -149 ∨ 2 ^ (E + 23) ≤ q) (hhi : q < 2 ^ (E + 24))
    (hn : |q / 2 ^ E - (n : ℚ)| < 1 / 2) :
    Binary32.roundNonneg q = (n : ℚ) * 2 ^ E := by
  unfold Binary32.roundNonneg
  rw [Binary32.ulpExponent_eq q E hq hE hlo hhi, Binary32.roundHalfEven_eq_of_lt _ n hn]

/-- Zero rounds to zero. -/
theorem Binary32.roundNonneg_zero : Binary32.roundNonneg 0 = 0 := by
  unfold Binary32.roundNonneg
  have : Binary32.roundHalfEven (0 / 2 ^ Binary32.ulpExponent 0) = 0 := by
    apply Binary32.roundHalfEven_eq_of_lt
    norm_num
  rw [this]
  simp

/-- The rounding of a non-negative rational is not negative. -/
theorem Binary32.roundNonneg_nonneg (q : ℚ) (hq : 0 ≤ q) : 0 ≤ Binary32.roundNonneg q := by
  unfold Binary32.roundNonneg
  have hp : (0 : ℚ) < 2 ^ Binary32.ulpExponent q := zpow_pos (by norm_num) _
  have h1 := (Binary32.roundHalfEven_bounds (q / 2 ^ Binary32.ulpExponent q)).1
  have h2 : (0 : ℤ) ≤ ⌊q / 2 ^ Binary32.ulpExponent q⌋ := Int.floor_nonneg.mpr (div_nonneg hq hp.le)
  have h3 : (0 : ℚ) ≤ (Binary32.roundHalfEven (q / 2 ^ Binary32.ulpExponent q) : ℚ) := by
    exact_mod_cast le_trans h2 h1
  exact mul_nonneg h3 hp.le

/-- The rounding of a non-negative number has the form of a binary32 value. -/
theorem Binary32.roundNonneg_form (q : ℚ) (hq : 0 ≤ q) :
    ∃ m e : ℤ, -149 ≤ e ∧ |m| < 2 ^ 24 ∧ Binary32.roundNonneg q = (m : ℚ) * 2 ^ e := by
  rcases eq_or_lt_of_le hq with h0 | hpos
  · refine ⟨0, 0, by norm_num, by norm_num, ?_⟩
    rw [← h0, Binary32.roundNonneg_zero]
    simp
  have hp : (0 : ℚ) < 2 ^ Binary32.ulpExponent q := zpow_pos (by norm_num) _
  have hb := Binary32.roundHalfEven_bounds (q / 2 ^ Binary32.ulpExponent q)
  have h2 : (0 : ℤ) ≤ ⌊q / 2 ^ Binary32.ulpExponent q⌋ := Int.floor_nonneg.mpr (div_nonneg hq hp.le)
  have hlt : q / 2 ^ Binary32.ulpExponent q < 2 ^ 24 := by
    rw [div_lt_iff₀ hp]
    have := Binary32.ulpExponent_upper q
    rw [zpow_add₀ (by norm_num : (2 : ℚ) ≠ 0)] at this
    have e : (2 : ℚ) ^ (24 : ℤ) = 2 ^ 24 := by norm_num
    rw [e, mul_comm] at this
    exact this
  have h3 : ⌊q / 2 ^ Binary32.ulpExponent q⌋ < 2 ^ 24 := by
    rw [Int.floor_lt]
    exact_mod_cast hlt
  by_cases htop : Binary32.roundHalfEven (q / 2 ^ Binary32.ulpExponent q) = 2 ^ 24
  · refine ⟨1, Binary32.ulpExponent q + 24, ?_, by norm_num, ?_⟩
    · have := Binary32.ulpExponent_ge q
      omega
    · unfold Binary32.roundNonneg
      rw [htop, zpow_add₀ (by norm_num : (2 : ℚ) ≠ 0)]
      norm_num
      ring
  · refine ⟨Binary32.roundHalfEven (q / 2 ^ Binary32.ulpExponent q), Binary32.ulpExponent q,
      Binary32.ulpExponent_ge q, ?_, rfl⟩
    rw [abs_lt]
    constructor
    · omega
    · omega

/-- The rounding of a non-negative number is nearest to it among the numbers
of the form of a binary32 value. -/
theorem Binary32.roundNonneg_nearest (q : ℚ) (hq : 0 ≤ q) (m e : ℤ) (he : -149 ≤ e)
    (hm : |m| < 2 ^ 24) :
    |q - Binary32.roundNonneg q| ≤ |q - (m : ℚ) * 2 ^ e| := by
  rcases eq_or_lt_of_le hq with h0 | hpos
  · rw [← h0, Binary32.roundNonneg_zero]
    simp
  have hp : (0 : ℚ) < 2 ^ Binary32.ulpExponent q := zpow_pos (by norm_num) _
  have key : ∀ j : ℤ, |q - Binary32.roundNonneg q| ≤ |q - (j : ℚ) * 2 ^ Binary32.ulpExponent q| := by
    intro j
    have h := Binary32.roundHalfEven_nearest (q / 2 ^ Binary32.ulpExponent q) j
    have e1 : q - Binary32.roundNonneg q =
        (q / 2 ^ Binary32.ulpExponent q -
          (Binary32.roundHalfEven (q / 2 ^ Binary32.ulpExponent q) : ℚ)) *
          2 ^ Binary32.ulpExponent q := by
      unfold Binary32.roundNonneg
      rw [sub_mul, div_mul_cancel₀ q hp.ne']
    have e2 : q - (j : ℚ) * 2 ^ Binary32.ulpExponent q =
        (q / 2 ^ Binary32.ulpExponent q - (j : ℚ)) * 2 ^ Binary32.ulpExponent q := by
      rw [sub_mul, div_mul_cancel₀ q hp.ne']
    rw [e1, e2, abs_mul, abs_mul]
    exact mul_le_mul_of_nonneg_right h (abs_nonneg _)
  by_cases hcase : Binary32.ulpExponent q ≤ e
  · -- the number is a multiple of the unit in the last place
    obtain ⟨k, hk⟩ : ∃ k : ℕ, e = Binary32.ulpExponent q + k :=
      ⟨(e - Binary32.ulpExponent q).toNat, by omega⟩
    have hform : (m : ℚ) * 2 ^ e = ((m * 2 ^ k : ℤ) : ℚ) * 2 ^ Binary32.ulpExponent q := by
      rw [hk, zpow_add₀ (by norm_num : (2 : ℚ) ≠ 0), zpow_natCast]
      push_cast
      ring
    rw [hform]
    exact key _
  · -- the number is below the binade of q
    have hlt : e + 1 ≤ Binary32.ulpExponent q := by omega
    have hne : Binary32.ulpExponent q ≠ -149 := by omega
    have hlow : (2 : ℚ) ^ (Binary32.ulpExponent q + 23) ≤ q := by
      rcases Binary32.ulpExponent_lower q hpos with h | h
      · exact absurd h hne
      · exact h
    have hmq : |(m : ℚ)| < 2 ^ 24 := by
      rw [← Int.cast_abs]
      exact_mod_cast hm
    have hpe : (0 : ℚ) < 2 ^ e := zpow_pos (by norm_num) _
    have hf : |(m : ℚ) * 2 ^ e| < 2 ^ (Binary32.ulpExponent q + 23) := by
      rw [abs_mul, abs_of_pos hpe]
      calc |(m : ℚ)| * 2 ^ e < 2 ^ 24 * 2 ^ e := mul_lt_mul_of_pos_right hmq hpe
        _ = 2 ^ (e + 24) := by
          rw [zpow_add₀ (by norm_num : (2 : ℚ) ≠ 0)]
          norm_num
          ring
        _ ≤ 2 ^ (Binary32.ulpExponent q + 23) := zpow_le_zpow_right₀ (by norm_num) (by omega)
    have hg := key (2 ^ 23)
    have eg : ((2 ^ 23 : ℤ) : ℚ) * 2 ^ Binary32.ulpExponent q =
        2 ^ (Binary32.ulpExponent q + 23) := by
      rw [zpow_add₀ (by norm_num : (2 : ℚ) ≠ 0)]
      norm_num
      ring
    rw [eg] at hg
    have hf' := abs_lt.mp hf
    rw [abs_of_nonneg (by linarith : 0 ≤ q - 2 ^ (Binary32.ulpExponent q + 23))] at hg
    rw [abs_of_nonneg (by linarith : 0 ≤ q - (m : ℚ) * 2 ^ e)]
    linarith

/-- Rounding is symmetric about zero. -/
theorem Binary32.round_neg (q : ℚ) : Binary32.round (-q) = -Binary32.round q := by
  unfold Binary32.round
  rcases lt_trichotomy q 0 with h | h | h
  · rw [if_neg (by linarith : ¬ -q < 0), if_pos h, neg_neg]
  · rw [h]
    simp [Binary32.roundNonneg_zero]
  · rw [if_pos (by linarith : -q < 0), if_neg (by linarith : ¬ q < 0), neg_neg]

/-- Zero is a binary32 value. -/
theorem Binary32.round_zero : Binary32.round 0 = 0 := by
  unfold Binary32.round
  simp [Binary32.roundNonneg_zero]

/-- The rounding of a number has the form of a binary32 value. -/
theorem Binary32.round_form (q : ℚ) :
    ∃ m e : ℤ, -149 ≤ e ∧ |m| < 2 ^ 24 ∧ Binary32.round q = (m : ℚ) * 2 ^ e := by
  unfold Binary32.round
  split
  · rename_i h
    obtain ⟨m, e, he, hm, hf⟩ := Binary32.roundNonneg_form (-q) (by linarith)
    refine ⟨-m, e, he, by rw [abs_neg]; exact hm, ?_⟩
    rw [hf]
    push_cast
    ring
  · rename_i h
    exact Binary32.roundNonneg_form q (not_lt.mp h)

/-- The rounding of a number is nearest to it among the numbers of the form of
a binary32 value. -/
theorem Binary32.round_nearest (q : ℚ) (m e : ℤ) (he : -149 ≤ e) (hm : |m| < 2 ^ 24) :
    |q - Binary32.round q| ≤ |q - (m : ℚ) * 2 ^ e| := by
  unfold Binary32.round
  split
  · rename_i h
    have := Binary32.roundNonneg_nearest (-q) (by linarith) (-m) e he (by rw [abs_neg]; exact hm)
    have e1 : q - -Binary32.roundNonneg (-q) = -(-q - Binary32.roundNonneg (-q)) := by ring
    have e2 : q - (m : ℚ) * 2 ^ e = -(-q - ((-m : ℤ) : ℚ) * 2 ^ e) := by push_cast; ring
    rw [e1, e2, abs_neg, abs_neg]
    exact this
  · rename_i h
    exact Binary32.roundNonneg_nearest q (not_lt.mp h) m e he hm

/-- A number of the form of a binary32 value is a binary32 value. -/
theorem Binary32.isValue_of_form (m e : ℤ) (he : -149 ≤ e) (hm : |m| < 2 ^ 24) :
    Binary32.IsValue ((m : ℚ) * 2 ^ e) := by
  have h := Binary32.round_nearest ((m : ℚ) * 2 ^ e) m e he hm
  rw [sub_self, abs_zero] at h
  have h0 := abs_eq_zero.mp (le_antisymm h (abs_nonneg _))
  unfold Binary32.IsValue
  linarith

/-- The result of a rounding is a binary32 value. -/
theorem Binary32.isValue_round (q : ℚ) : Binary32.IsValue (Binary32.round q) := by
  obtain ⟨m, e, he, hm, hf⟩ := Binary32.round_form q
  rw [hf]
  exact Binary32.isValue_of_form m e he hm

/-- The binary32 values are the rationals m * 2^e with a significand m below
2^24 in magnitude and an exponent e of at least -149. -/
theorem Binary32.isValue_iff (q : ℚ) :
    Binary32.IsValue q ↔ ∃ m e : ℤ, -149 ≤ e ∧ |m| < 2 ^ 24 ∧ q = (m : ℚ) * 2 ^ e := by
  constructor
  · intro h
    obtain ⟨m, e, he, hm, hf⟩ := Binary32.round_form q
    exact ⟨m, e, he, hm, by rw [← hf]; exact h.symm⟩
  · rintro ⟨m, e, he, hm, rfl⟩
    exact Binary32.isValue_of_form m e he hm

/-- An integer below 2^24 in magnitude is a binary32 value. -/
theorem Binary32.isValue_int (n : ℤ) (hn : |n| < 2 ^ 24) : Binary32.IsValue (n : ℚ) := by
  have := Binary32.isValue_of_form n 0 (by norm_num) hn
  simpa using this

/-- The rounding is nearest among the binary32 values. -/
theorem Binary32.round_nearest_value (q f : ℚ) (hf : Binary32.IsValue f) :
    |q - Binary32.round q| ≤ |q - f| := by
  obtain ⟨m, e, he, hm, rfl⟩ := (Binary32.isValue_iff f).mp hf
  exact Binary32.round_nearest q m e he hm

/-- Rounding is monotone. -/
theorem Binary32.round_mono (a b : ℚ) (h : a ≤ b) : Binary32.round a ≤ Binary32.round b := by
  by_contra hcon
  rw [not_le] at hcon
  have h1 := Binary32.round_nearest_value a (Binary32.round b) (Binary32.isValue_round b)
  have h2 := Binary32.round_nearest_value b (Binary32.round a) (Binary32.isValue_round a)
  have hab : a = b := by
    rcases abs_cases (a - Binary32.round a) with ⟨e1, _⟩ | ⟨e1, _⟩ <;>
    rcases abs_cases (a - Binary32.round b) with ⟨e2, _⟩ | ⟨e2, _⟩ <;>
    rcases abs_cases (b - Binary32.round b) with ⟨e3, _⟩ | ⟨e3, _⟩ <;>
    rcases abs_cases (b - Binary32.round a) with ⟨e4, _⟩ | ⟨e4, _⟩ <;>
    rw [e1, e2] at h1 <;> rw [e3, e4] at h2 <;> linarith
  rw [hab] at hcon
  exact lt_irrefl _ hcon

/-- Rounding does not cross a binary32 value from above. -/
theorem Binary32.le_round (f q : ℚ) (hf : Binary32.IsValue f) (h : f ≤ q) :
    f ≤ Binary32.round q := by
  have := Binary32.round_mono f q h
  rwa [hf] at this

/-- Rounding does not cross a binary32 value from below. -/
theorem Binary32.round_le (f q : ℚ) (hf : Binary32.IsValue f) (h : q ≤ f) :
    Binary32.round q ≤ f := by
  have := Binary32.round_mono q f h
  rwa [hf] at this

/-- The value of the rounding of a positive number, given its exponent and the
nearest integer multiple of the unit in the last place. -/
theorem Binary32.round_eq (q : ℚ) (E n : ℤ) (hq : 0 < q) (hE : -149 ≤ E)
    (hlo : E = -149 ∨ 2 ^ (E + 23) ≤ q) (hhi : q < 2 ^ (E + 24))
    (hn : |q / 2 ^ E - (n : ℚ)| < 1 / 2) :
    Binary32.round q = (n : ℚ) * 2 ^ E := by
  unfold Binary32.round
  rw [if_neg (by linarith : ¬ q < 0)]
  exact Binary32.roundNonneg_eq q E n hq hE hlo hhi hn


/-- The value of the rounding of a positive number that lies half way between
two multiples of the unit in the last place, the lower one even. -/
theorem Binary32.round_eq_tie (q : ℚ) (E n : ℤ) (hq : 0 < q) (hE : -149 ≤ E)
    (hlo : E = -149 ∨ 2 ^ (E + 23) ≤ q) (hhi : q < 2 ^ (E + 24))
    (hn : q / 2 ^ E = (n : ℚ) + 1 / 2) (heven : n % 2 = 0) :
    Binary32.round q = (n : ℚ) * 2 ^ E := by
  unfold Binary32.round
  rw [if_neg (by linarith : ¬ q < 0)]
  unfold Binary32.roundNonneg
  rw [Binary32.ulpExponent_eq q E hq hE hlo hhi, hn, Binary32.roundHalfEven_tie n heven]

/-- The rounding of a non-negative rational is not negative. -/
theorem Binary32.round_nonneg (q : ℚ) (h : 0 ≤ q) : 0 ≤ Binary32.round q := by
  have := Binary32.round_mono 0 q h
  rwa [Binary32.round_zero] at this

/-- The opposite of a binary32 value is a binary32 value. -/
theorem Binary32.isValue_neg (q : ℚ) (h : Binary32.IsValue q) : Binary32.IsValue (-q) := by
  unfold Binary32.IsValue at h ⊢
  rw [Binary32.round_neg, h]

/-! ## Binary32 values used by the program -/

/-- The constant `0.01f`. -/
theorem Binary32.round_one_hundredth : Binary32.round 0.01 = 5368709 / 536870912 := by
  rw [Binary32.round_eq 0.01 (-30) 10737418 (by norm_num) (by norm_num)
    (Or.inr (by norm_num)) (by norm_num) (by norm_num [abs_lt])]
  norm_num

/-- The constant `0.1f`. -/
theorem Binary32.round_one_tenth : Binary32.round 0.1 = 13421773 / 134217728 := by
  rw [Binary32.round_eq 0.1 (-27) 13421773 (by norm_num) (by norm_num)
    (Or.inr (by norm_num)) (by norm_num) (by norm_num [abs_lt])]
  norm_num

/-- An integer literal below 2^24 is not changed by rounding. -/
theorem Binary32.round_int (n : ℤ) (hn : |n| < 2 ^ 24) : Binary32.round (n : ℚ) = (n : ℚ) :=
  Binary32.isValue_int n hn

/-- The lift force and the height after `Player::Update` in binary32. -/
theorem Machine.Player.Update_eq (p : Player) (deltaTime : ℚ) :
    (Machine.Player.Update p deltaTime).force =
      Binary32.round (p.force - Binary32.round (deltaTime * (5368709 / 536870912))) ∧
    (Machine.Player.Update p deltaTime).position.y =
      Binary32.round (p.position.y - (Machine.Player.Update p deltaTime).force) ∧
    (Machine.Player.Update p deltaTime).position.x = p.position.x := by
  refine ⟨?_, rfl, rfl⟩
  simp only [Machine.Player.Update, Binary32.round_one_hundredth]

/-- The player after the first update of 16 ms from the reset state, in
binary32. -/
theorem Machine.Player.Update_reset_16 :
    Machine.Player.Update { position := { x := 100, y := 100 }, force := 3 } 16 =
      { position := { x := 100, y := 3183739 / 32768 }, force := 11911823 / 4194304 } := by
  have h1 : Binary32.round ((16 : ℚ) * (5368709 / 536870912)) = 5368709 / 33554432 := by
    rw [Binary32.round_eq _ (-26) 10737418 (by norm_num) (by norm_num)
      (Or.inr (by norm_num)) (by norm_num) (by norm_num [abs_lt])]
    norm_num
  have h2 : Binary32.round ((3 : ℚ) - 5368709 / 33554432) = 11911823 / 4194304 := by
    rw [Binary32.round_eq _ (-22) 11911823 (by norm_num) (by norm_num)
      (Or.inr (by norm_num)) (by norm_num) (by norm_num [abs_lt])]
    norm_num
  have h3 : Binary32.round ((100 : ℚ) - 11911823 / 4194304) = 3183739 / 32768 := by
    rw [Binary32.round_eq _ (-17) 12734956 (by norm_num) (by norm_num)
      (Or.inr (by norm_num)) (by norm_num) (by norm_num [abs_lt])]
    norm_num
  simp only [Machine.Player.Update, Binary32.round_one_hundredth, h1, h2, h3]

/-! ## Player physics in binary32 -/

/-- C8 fails as stated: in the first update of 16 ms from the reset state the
code, computing in binary32, gets the lift force 11911823/4194304 and the
height 3183739/32768, not 3 - 0.01 * 16 = 71/25 and 100 - 71/25 = 2429/25. -/
theorem C8_counterexample :
    (Machine.Player.Update { position := { x := 100, y := 100 }, force := 3 } 16).force =
      11911823 / 4194304 ∧
    (Machine.Player.Update { position := { x := 100, y := 100 }, force := 3 } 16).force ≠
      3 - 0.01 * 16 ∧
    (Machine.Player.Update { position := { x := 100, y := 100 }, force := 3 } 16).position.y =
      3183739 / 32768 ∧
    (Machine.Player.Update { position := { x := 100, y := 100 }, force := 3 } 16).position.y ≠
      100 - (3 - 0.01 * 16) := by
  rw [Machine.Player.Update_reset_16]
  norm_num

/-- C8, amended: `Player::Update(deltaTime)` follows the update formula in
binary32 arithmetic. With fl the rounding to the nearest binary32 value and
0.01f = fl(0.01) = 5368709/2^29, the new lift force is
fl(force - fl(deltaTime * 0.01f)), the new y is fl(y - new lift force), with
the new (post-decay) lift force, and x is unchanged; the new lift force and the
new y are binary32 values. -/
theorem C8_update_formula_binary32 (p : Player) (deltaTime : ℚ) :
    Binary32.round 0.01 = 5368709 / 2 ^ 29 ∧
    (Machine.Player.Update p deltaTime).force =
      Binary32.round (p.force - Binary32.round (deltaTime * Binary32.round 0.01)) ∧
    (Machine.Player.Update p deltaTime).position.y =
      Binary32.round (p.position.y - (Machine.Player.Update p deltaTime).force) ∧
    (Machine.Player.Update p deltaTime).position.x = p.position.x ∧
    Binary32.IsValue (Machine.Player.Update p deltaTime).force ∧
    Binary32.IsValue (Machine.Player.Update p deltaTime).position.y := by
  refine ⟨?_, rfl, rfl, rfl, Binary32.isValue_round _, Binary32.isValue_round _⟩
  rw [Binary32.round_one_hundredth]
  norm_num

/-- The decrement of the lift force is not negative when the elapsed time is
not. -/
theorem Machine.Player.decrement_nonneg (deltaTime : ℚ) (h : 0 ≤ deltaTime) :
    0 ≤ Binary32.round (deltaTime * Binary32.round 0.01) := by
  apply Binary32.round_nonneg
  rw [Binary32.round_one_hundredth]
  positivity

/-- The decrement of the lift force is at least 2^-7 when at least one
millisecond has elapsed. -/
theorem Machine.Player.decrement_ge (deltaTime : ℚ) (h : 1 ≤ deltaTime) :
    1 / 128 ≤ Binary32.round (deltaTime * Binary32.round 0.01) := by
  have hv : Binary32.IsValue (1 / 128 : ℚ) := by
    have := Binary32.isValue_of_form 1 (-7) (by norm_num) (by norm_num)
    norm_num at this
    simpa using this
  apply Binary32.le_round _ _ hv
  rw [Binary32.round_one_hundredth]
  have : (1 : ℚ) * (5368709 / 536870912) ≤ deltaTime * (5368709 / 536870912) :=
    mul_le_mul_of_nonneg_right h (by norm_num)
  linarith

/-- In binary32 `Player::Update` does not increase the lift force. -/
theorem Machine.Player.Update_force_le (p : Player) (deltaTime : ℚ)
    (hf : Binary32.IsValue p.force) (hdt : 0 ≤ deltaTime) :
    (Machine.Player.Update p deltaTime).force ≤ p.force := by
  have hd := Machine.Player.decrement_nonneg deltaTime hdt
  exact Binary32.round_le p.force _ hf (by linarith)

/-- In binary32 `Player::Update` strictly decreases a lift force of magnitude
at most 65536 when at least one millisecond has elapsed. -/
theorem Machine.Player.Update_force_lt (p : Player) (deltaTime : ℚ)
    (hb : |p.force| ≤ 65536) (hdt : 1 ≤ deltaTime) :
    (Machine.Player.Update p deltaTime).force < p.force := by
  have hd := Machine.Player.decrement_ge deltaTime hdt
  obtain ⟨hb1, hb2⟩ := abs_le.mp hb
  -- a multiple of 2^-7 just below the force
  have hc1 := Int.le_ceil (p.force * 128)
  have hc2 := Int.ceil_lt_add_one (p.force * 128)
  have hM : |⌈p.force * 128⌉ - 1| < 2 ^ 24 := by
    have u1 : ⌈p.force * 128⌉ ≤ 8388608 := by
      rw [Int.ceil_le]
      push_cast
      linarith
    have u2 : -8388608 ≤ ⌈p.force * 128⌉ := by
      have : ((-8388608 : ℤ) : ℚ) ≤ (⌈p.force * 128⌉ : ℚ) := by
        push_cast
        linarith
      exact_mod_cast this
    rw [abs_lt]
    constructor <;> omega
  have hv := Binary32.isValue_of_form (⌈p.force * 128⌉ - 1) (-7) (by norm_num) hM
  have e : (2 : ℚ) ^ (-7 : ℤ) = 1 / 128 := by norm_num
  rw [e] at hv
  have hle : p.force - Binary32.round (deltaTime * Binary32.round 0.01) ≤
      ((⌈p.force * 128⌉ - 1 : ℤ) : ℚ) * (1 / 128) := by
    push_cast
    linarith
  have hlt : ((⌈p.force * 128⌉ - 1 : ℤ) : ℚ) * (1 / 128) < p.force := by
    push_cast
    linarith
  exact lt_of_le_of_lt (Binary32.round_le _ _ hv hle) hlt

/-- In binary32 the player does not move up in an update that ends with a lift
force that is not positive. -/
theorem Machine.Player.Update_y_ge (p : Player) (deltaTime : ℚ)
    (hy : Binary32.IsValue p.position.y)
    (hf : (Machine.Player.Update p deltaTime).force ≤ 0) :
    p.position.y ≤ (Machine.Player.Update p deltaTime).position.y := by
  have e : (Machine.Player.Update p deltaTime).position.y =
      Binary32.round (p.position.y - (Machine.Player.Update p deltaTime).force) := rfl
  rw [e]
  exact Binary32.le_round _ _ hy (by linarith)

/-- In binary32 the lift force stays non-positive in an update with a
non-negative elapsed time. -/
theorem Machine.Player.Update_force_nonpos (p : Player) (deltaTime : ℚ)
    (hf : p.force ≤ 0) (hdt : 0 ≤ deltaTime) :
    (Machine.Player.Update p deltaTime).force ≤ 0 := by
  have hd := Machine.Player.decrement_nonneg deltaTime hdt
  have h0 : Binary32.IsValue (0 : ℚ) := Binary32.round_zero
  exact Binary32.round_le 0 _ h0 (by linarith)

/-- The trajectory starts with the state it is taken from. -/
theorem Machine.Player.trajectory_head (p : Player) (deltaTimes : List ℚ) :
    (Machine.Player.trajectory p deltaTimes).head? = some p := by
  cases deltaTimes <;> rfl

/-- The value of the rounding of a number of the form m * 2^e. -/
theorem Binary32.round_form_eq (q : ℚ) (m e : ℤ) (he : -149 ≤ e) (hm : |m| < 2 ^ 24)
    (hq : q = (m : ℚ) * 2 ^ e) : Binary32.round q = q := by
  rw [hq]
  exact Binary32.isValue_of_form m e he hm

/-- An update of 10 ms in which the decrement of the height is absorbed by the
rounding: the lift force after the update is positive (21 / 2^25) and the
height is the one before. The state is the one the program is in after 29
frames of 10 ms from the reset. -/
theorem Machine.Player.Update_absorbed :
    Machine.Player.Update
        { position := { x := 100, y := 1851391 / 32768 }, force := 419433 / 4194304 } 10 =
      { position := { x := 100, y := 1851391 / 32768 }, force := 21 / 33554432 } := by
  have h1 : Binary32.round ((10 : ℚ) * (5368709 / 536870912)) = 3355443 / 33554432 := by
    rw [Binary32.round_eq_tie _ (-27) 13421772 (by norm_num) (by norm_num)
      (Or.inr (by norm_num)) (by norm_num) (by norm_num) (by decide)]
    norm_num
  have h2 : Binary32.round ((419433 : ℚ) / 4194304 - 3355443 / 33554432) = 21 / 33554432 := by
    rw [Binary32.round_form_eq _ 21 (-25) (by norm_num) (by norm_num) (by norm_num)]
    norm_num
  have h3 : Binary32.round ((1851391 : ℚ) / 32768 - 21 / 33554432) = 1851391 / 32768 := by
    rw [Binary32.round_eq _ (-18) 14811128 (by norm_num) (by norm_num)
      (Or.inr (by norm_num)) (by norm_num) (by norm_num [abs_lt])]
    norm_num
  simp only [Machine.Player.Update, Binary32.round_one_hundredth, h1, h2, h3]

/-- C9 fails as stated: from the reset state (100, 100) with lift force 3 the
code, computing in binary32, moves the player up in an update with
deltaTime = 16 (y goes from 100 to 3183739/32768), and an update with
deltaTime = 0 does not strictly decrease the lift force. -/
theorem C9_counterexample :
    ((0 : ℚ) ≤ 16 ∧
      (Machine.Player.Update { position := { x := 100, y := 100 }, force := 3 }
        16).position.y < 100) ∧
    ((0 : ℚ) ≤ 0 ∧
      ¬ (Machine.Player.Update { position := { x := 100, y := 100 }, force := 3 } 0).force <
        3) := by
  refine ⟨⟨by norm_num, ?_⟩, ⟨le_refl _, ?_⟩⟩
  · rw [Machine.Player.Update_reset_16]
    norm_num
  · have h : (Machine.Player.Update { position := { x := 100, y := 100 }, force := 3 } 0).force =
        3 := by
      simp only [Machine.Player.Update, zero_mul, Binary32.round_zero, sub_zero]
      exact Binary32.round_int 3 (by norm_num)
    rw [h]
    exact lt_irrefl _

/-- C9, amended, for the code's binary32 arithmetic. For a player state of
binary32 values and deltaTime >= 0, `Player::Update` with no jump does not
increase the lift force; it leaves it unchanged for deltaTime = 0, and strictly
decreases it when deltaTime >= 1 (a whole number of milliseconds, as the
program passes) and the force has magnitude at most 65536. The vertical
coordinate after the call is greater than or equal to the one before whenever
the post-decay lift force is at most 0, which is the case whenever the force
before the call is at most 0; it is smaller only if the post-decay force is
positive. Hence over any sequence of such updates the lift force is
non-increasing, and from a state with lift force at most 0 the vertical
coordinate is non-decreasing. -/
theorem C9_update_monotone_binary32 :
    (∀ (p : Player) (deltaTime : ℚ), Binary32.IsValue p.force → 0 ≤ deltaTime →
      (Machine.Player.Update p deltaTime).force ≤ p.force) ∧
    (∀ p : Player, Binary32.IsValue p.force → (Machine.Player.Update p 0).force = p.force) ∧
    (∀ (p : Player) (deltaTime : ℚ), |p.force| ≤ 65536 → 1 ≤ deltaTime →
      (Machine.Player.Update p deltaTime).force < p.force) ∧
    (∀ (p : Player) (deltaTime : ℚ), Binary32.IsValue p.position.y →
      (Machine.Player.Update p deltaTime).force ≤ 0 →
      p.position.y ≤ (Machine.Player.Update p deltaTime).position.y) ∧
    (∀ (p : Player) (deltaTime : ℚ), Binary32.IsValue p.position.y →
      (Machine.Player.Update p deltaTime).position.y < p.position.y →
      0 < (Machine.Player.Update p deltaTime).force) ∧
    (∀ (p : Player) (deltaTime : ℚ), Binary32.IsValue p.position.y → p.force ≤ 0 →
      0 ≤ deltaTime → p.position.y ≤ (Machine.Player.Update p deltaTime).position.y) ∧
    (∀ (p : Player) (deltaTimes : List ℚ), Binary32.IsValue p.force →
      (∀ d ∈ deltaTimes, 0 ≤ d) →
      (Machine.Player.trajectory p deltaTimes).Chain'
        (fun before after => after.force ≤ before.force)) ∧
    (∀ (p : Player) (deltaTimes : List ℚ), Binary32.IsValue p.position.y → p.force ≤ 0 →
      (∀ d ∈ deltaTimes, 0 ≤ d) →
      (Machine.Player.trajectory p deltaTimes).Chain'
        (fun before after => before.position.y ≤ after.position.y)) := by
  refine ⟨Machine.Player.Update_force_le, ?_, Machine.Player.Update_force_lt,
    Machine.Player.Update_y_ge, ?_, ?_, ?_, ?_⟩
  · intro p hf
    simp only [Machine.Player.Update, zero_mul, Binary32.round_zero, sub_zero]
    exact hf
  · intro p deltaTime hy hlt
    by_contra hcon
    have := Machine.Player.Update_y_ge p deltaTime hy (not_lt.mp hcon)
    linarith
  · intro p deltaTime hy hf hdt
    exact Machine.Player.Update_y_ge p deltaTime hy
      (Machine.Player.Update_force_nonpos p deltaTime hf hdt)
  · intro p deltaTimes
    induction deltaTimes generalizing p with
    | nil => intro _ _; exact List.chain'_singleton p
    | cons d rest ih =>
      intro hf h
      have hd : 0 ≤ d := h d (List.mem_cons_self d rest)
      rw [Machine.Player.trajectory, List.chain'_cons', Machine.Player.trajectory_head]
      refine ⟨?_, ih _ (Binary32.isValue_round _) (fun e he => h e (List.mem_cons_of_mem d he))⟩
      intro q hq
      rw [Option.mem_def, Option.some.injEq] at hq
      subst hq
      exact Machine.Player.Update_force_le p d hf hd
  · intro p deltaTimes
    induction deltaTimes generalizing p with
    | nil => intro _ _ _; exact List.chain'_singleton p
    | cons d rest ih =>
      intro hy hf h
      have hd : 0 ≤ d := h d (List.mem_cons_self d rest)
      rw [Machine.Player.trajectory, List.chain'_cons', Machine.Player.trajectory_head]
      refine ⟨?_, ih _ (Binary32.isValue_round _)
        (Machine.Player.Update_force_nonpos p d hf hd)
        (fun e he => h e (List.mem_cons_of_mem d he))⟩
      intro q hq
      rw [Option.mem_def, Option.some.injEq] at hq
      subst hq
      exact Machine.Player.Update_y_ge p d hy (Machine.Player.Update_force_nonpos p d hf hd)

/-- C9, amended, at concrete inputs: the first update of 16 ms from the reset
state strictly decreases the lift force 3, and a fall of three frames of 16 ms
from the height 100 with lift force 0 never moves up. -/
theorem C9_update_monotone_binary32_witness :
    (Machine.Player.Update { position := { x := 100, y := 100 }, force := 3 } 16).force < 3 ∧
    (Machine.Player.trajectory { position := { x := 100, y := 100 }, force := 0 }
        [16, 16, 16]).Chain' (fun before after => before.position.y ≤ after.position.y) :=
  ⟨C9_update_monotone_binary32.2.2.1 { position := { x := 100, y := 100 }, force := 3 } 16
      (by norm_num [abs_le]) (by norm_num),
    C9_update_monotone_binary32.2.2.2.2.2.2.2
      { position := { x := 100, y := 100 }, force := 0 } [16, 16, 16]
      (Binary32.round_int 100 (by norm_num)) (le_refl _)
      (by intro d hd; simp only [List.mem_cons, List.mem_singleton, List.mem_nil_iff,
            or_false, or_self] at hd; rw [hd]; norm_num)⟩

/-! ## Collision test in binary32 -/

/-- Adding at least 1 to a number of magnitude at most 2^23 gives, after
rounding, a greater number. -/
theorem Binary32.lt_round_add (v w : ℚ) (hv : |v| ≤ 2 ^ 23) (hw : 1 ≤ w) :
    v < Binary32.round (v + w) := by
  obtain ⟨hv1, hv2⟩ := abs_le.mp hv
  have h1 := Int.floor_le v
  have h2 := Int.lt_floor_add_one v
  have hg : |⌊v⌋ + 1| < 2 ^ 24 := by
    have u1 : ⌊v⌋ ≤ 2 ^ 23 := by
      have : (⌊v⌋ : ℚ) ≤ ((2 ^ 23 : ℤ) : ℚ) := by push_cast; linarith
      exact_mod_cast this
    have u2 : -2 ^ 23 ≤ ⌊v⌋ := by
      rw [Int.le_floor]
      push_cast
      linarith
    rw [abs_lt]
    constructor <;> omega
  have hval := Binary32.isValue_int (⌊v⌋ + 1) hg
  have hle : ((⌊v⌋ + 1 : ℤ) : ℚ) ≤ Binary32.round (v + w) :=
    Binary32.le_round _ _ hval (by push_cast; linarith)
  push_cast at hle
  linarith

/-- The overlap test in binary32 on two rectangles whose rounded right and
bottom edges lie beyond their left and top edges is the strict comparison of
the edges. -/
theorem Machine.Rect.intersects_iff_m (r1 r2 : Rect)
    (hw1 : r1.left < Binary32.round (r1.left + r1.width))
    (hh1 : r1.top < Binary32.round (r1.top + r1.height))
    (hw2 : r2.left < Binary32.round (r2.left + r2.width))
    (hh2 : r2.top < Binary32.round (r2.top + r2.height)) :
    Machine.Rect.intersects r1 r2 = true ↔
      (r2.left < Binary32.round (r1.left + r1.width) ∧
        r1.left < Binary32.round (r2.left + r2.width)) ∧
      (r2.top < Binary32.round (r1.top + r1.height) ∧
        r1.top < Binary32.round (r2.top + r2.height)) := by
  have e1 := min_eq_left hw1.le
  have e2 := max_eq_right hw1.le
  have e3 := min_eq_left hh1.le
  have e4 := max_eq_right hh1.le
  have e5 := min_eq_left hw2.le
  have e6 := max_eq_right hw2.le
  have e7 := min_eq_left hh2.le
  have e8 := max_eq_right hh2.le
  simp only [Machine.Rect.intersects, e1, e2, e3, e4, e5, e6, e7, e8, Bool.and_eq_true,
    decide_eq_true_eq, max_lt_iff, lt_min_iff]
  constructor
  · rintro ⟨⟨⟨_, h2⟩, ⟨h3, _⟩⟩, ⟨⟨_, h6⟩, ⟨h7, _⟩⟩⟩
    exact ⟨⟨h2, h3⟩, ⟨h6, h7⟩⟩
  · rintro ⟨⟨h2, h3⟩, ⟨h6, h7⟩⟩
    exact ⟨⟨⟨hw1, h2⟩, ⟨h3, hw2⟩⟩, ⟨⟨hh1, h6⟩, ⟨h7, hh2⟩⟩⟩

/-- The collision test of an upright pipe in binary32, as inequalities on the
rounded edges, for positions of magnitude at most 2^23. -/
theorem Machine.Terrain.CheckCollision_upright_iff_m (x y : ℚ) (player : Player)
    (hx : |x| ≤ 2 ^ 23) (hy : |y| ≤ 2 ^ 23)
    (hpx : |player.position.x| ≤ 2 ^ 23) (hpy : |player.position.y| ≤ 2 ^ 23) :
    Machine.Terrain.CheckCollision { position := { x := x, y := y }, type := 2 } player = true ↔
      player.position.x < Binary32.round (x + 70) ∧
      x < Binary32.round (player.position.x + 45) ∧
      player.position.y < Binary32.round (y + 425) ∧
      y < Binary32.round (player.position.y + 32) := by
  have key := Machine.Rect.intersects_iff_m
    (Rect.ofPositionSize { x := x, y := y } { x := 70, y := 425 })
    (Rect.ofPositionSize player.position { x := 45, y := 32 })
    (Binary32.lt_round_add x 70 hx (by norm_num))
    (Binary32.lt_round_add y 425 hy (by norm_num))
    (Binary32.lt_round_add _ 45 hpx (by norm_num))
    (Binary32.lt_round_add _ 32 hpy (by norm_num))
  simp only [Rect.ofPositionSize] at key
  simp only [Machine.Terrain.CheckCollision, Rect.ofPositionSize, if_true, Bool.if_true_left,
    Bool.or_false, decide_eq_true_eq, key]
  tauto

/-- Adding a non-negative number to a binary32 value gives, after rounding, a
number that is not smaller. -/
theorem Binary32.le_round_add (v w : ℚ) (hv : Binary32.IsValue v) (hw : 0 ≤ w) :
    v ≤ Binary32.round (v + w) :=
  Binary32.le_round v _ hv (by linarith)

/-- The overlap test in binary32 on two rectangles whose rounded right and
bottom edges do not lie before their left and top edges: the greater left edge
is less than the smaller right edge, and likewise from top to bottom. -/
theorem Machine.Rect.intersects_max_min_m (r1 r2 : Rect)
    (hw1 : r1.left ≤ Binary32.round (r1.left + r1.width))
    (hh1 : r1.top ≤ Binary32.round (r1.top + r1.height))
    (hw2 : r2.left ≤ Binary32.round (r2.left + r2.width))
    (hh2 : r2.top ≤ Binary32.round (r2.top + r2.height)) :
    Machine.Rect.intersects r1 r2 = true ↔
      max r1.left r2.left <
        min (Binary32.round (r1.left + r1.width)) (Binary32.round (r2.left + r2.width)) ∧
      max r1.top r2.top <
        min (Binary32.round (r1.top + r1.height)) (Binary32.round (r2.top + r2.height)) := by
  have e1 := min_eq_left hw1
  have e2 := max_eq_right hw1
  have e3 := min_eq_left hh1
  have e4 := max_eq_right hh1
  have e5 := min_eq_left hw2
  have e6 := max_eq_right hw2
  have e7 := min_eq_left hh2
  have e8 := max_eq_right hh2
  simp only [Machine.Rect.intersects, e1, e2, e3, e4, e5, e6, e7, e8, Bool.and_eq_true,
    decide_eq_true_eq]

/-- The collision test of an upright pipe in binary32 for positions that are
binary32 values. -/
theorem Machine.Terrain.CheckCollision_upright_max_min_m (x y : ℚ) (player : Player)
    (hx : Binary32.IsValue x) (hy : Binary32.IsValue y)
    (hpx : Binary32.IsValue player.position.x) (hpy : Binary32.IsValue player.position.y) :
    Machine.Terrain.CheckCollision { position := { x := x, y := y }, type := 2 } player = true ↔
      max x player.position.x <
        min (Binary32.round (x + 70)) (Binary32.round (player.position.x + 45)) ∧
      max y player.position.y <
        min (Binary32.round (y + 425)) (Binary32.round (player.position.y + 32)) := by
  have key := Machine.Rect.intersects_max_min_m
    (Rect.ofPositionSize { x := x, y := y } { x := 70, y := 425 })
    (Rect.ofPositionSize player.position { x := 45, y := 32 })
    (Binary32.le_round_add x 70 hx (by norm_num))
    (Binary32.le_round_add y 425 hy (by norm_num))
    (Binary32.le_round_add _ 45 hpx (by norm_num))
    (Binary32.le_round_add _ 32 hpy (by norm_num))
  simp only [Rect.ofPositionSize] at key
  simp only [Machine.Terrain.CheckCollision, Rect.ofPositionSize, if_true, Bool.if_true_left,
    Bool.or_false, decide_eq_true_eq, key]

/-- C2 fails as stated: for the Upright obstacle at (116, 270) and the player
at (100, 15597569/65536) (a binary32 height, 238 + 2^-16) the four
inequalities of the claim hold, in particular 270 < py + 32, but the code,
computing in binary32, rounds py + 32 to 270 and returns false. -/
theorem C2_counterexample :
    Binary32.IsValue (15597569 / 65536) ∧
    ((100 : ℚ) < 116 + 70 ∧ (116 : ℚ) < 100 + 45 ∧ (15597569 / 65536 : ℚ) < 270 + 425 ∧
      (270 : ℚ) < 15597569 / 65536 + 32) ∧
    Machine.Terrain.CheckCollision { position := { x := 116, y := 270 }, type := 2 }
      { position := { x := 100, y := 15597569 / 65536 }, force := 0 } = false := by
  refine ⟨?_, by norm_num, ?_⟩
  · have := Binary32.isValue_of_form 15597569 (-16) (by norm_num) (by norm_num)
    norm_num at this
    exact this
  · have htie : Binary32.round ((15597569 : ℚ) / 65536 + 32) = 270 := by
      rw [Binary32.round_eq_tie _ (-15) 8847360 (by norm_num) (by norm_num)
        (Or.inr (by norm_num)) (by norm_num) (by norm_num) (by decide)]
      norm_num
    rw [← Bool.not_eq_true, Machine.Terrain.CheckCollision_upright_iff_m _ _ _
      (by norm_num [abs_le]) (by norm_num [abs_le]) (by norm_num [abs_le])
      (by norm_num [abs_le])]
    rintro ⟨-, -, -, h⟩
    simp only at h
    rw [htie] at h
    exact lt_irrefl _ h

/-- C2, amended, for the code's binary32 arithmetic. For an Upright obstacle
(type 2) at (x, y) and a player at (px, py), all binary32 values,
`Terrain::CheckCollision` returns true exactly when
max(x, px) < min(fl(x + 70), fl(px + 45)) and
max(y, py) < min(fl(y + 425), fl(py + 32)), where fl rounds the sum to the
nearest binary32 value as the code does. For positions of magnitude at most
2^23 (binary32 values or not) this is px < fl(x + 70), x < fl(px + 45),
py < fl(y + 425) and y < fl(py + 32), and it is the overlap test of the claim
whenever the four sums are binary32 values. Rectangles whose rounded edges only
touch do not collide. -/
theorem C2_upright_collision_binary32 (x y px py force : ℚ) :
    (Binary32.IsValue x → Binary32.IsValue y → Binary32.IsValue px → Binary32.IsValue py →
      (Machine.Terrain.CheckCollision { position := { x := x, y := y }, type := 2 }
          { position := { x := px, y := py }, force := force } = true ↔
        max x px < min (Binary32.round (x + 70)) (Binary32.round (px + 45)) ∧
        max y py < min (Binary32.round (y + 425)) (Binary32.round (py + 32)))) ∧
    (|x| ≤ 2 ^ 23 → |y| ≤ 2 ^ 23 → |px| ≤ 2 ^ 23 → |py| ≤ 2 ^ 23 →
      (Machine.Terrain.CheckCollision { position := { x := x, y := y }, type := 2 }
          { position := { x := px, y := py }, force := force } = true ↔
        px < Binary32.round (x + 70) ∧ x < Binary32.round (px + 45) ∧
        py < Binary32.round (y + 425) ∧ y < Binary32.round (py + 32)) ∧
      (Binary32.IsValue (x + 70) → Binary32.IsValue (px + 45) →
        Binary32.IsValue (y + 425) → Binary32.IsValue (py + 32) →
        (Machine.Terrain.CheckCollision { position := { x := x, y := y }, type := 2 }
            { position := { x := px, y := py }, force := force } = true ↔
          px < x + 70 ∧ x < px + 45 ∧ py < y + 425 ∧ y < py + 32))) := by
  refine ⟨?_, ?_⟩
  · intro hx hy hpx hpy
    exact Machine.Terrain.CheckCollision_upright_max_min_m x y
      { position := { x := px, y := py }, force := force } hx hy hpx hpy
  · intro hx hy hpx hpy
    have h := Machine.Terrain.CheckCollision_upright_iff_m x y
      { position := { x := px, y := py }, force := force } hx hy hpx hpy
    refine ⟨h, ?_⟩
    intro v1 v2 v3 v4
    rw [h]
    unfold Binary32.IsValue at v1 v2 v3 v4
    simp only
    rw [v1, v2, v3, v4]

/-- C2, amended, for the obstacle at (116, 270) and the player at (100, 240):
all sums are integers and the test returns true. -/
theorem C2_upright_collision_binary32_witness :
    Machine.Terrain.CheckCollision { position := { x := 116, y := 270 }, type := 2 }
      { position := { x := 100, y := 240 }, force := 0 } = true := by
  have h := ((C2_upright_collision_binary32 116 270 100 240 0).2 (by norm_num [abs_le])
    (by norm_num [abs_le]) (by norm_num [abs_le]) (by norm_num [abs_le])).2
    (by norm_num; exact Binary32.isValue_int 186 (by norm_num))
    (by norm_num; exact Binary32.isValue_int 145 (by norm_num))
    (by norm_num; exact Binary32.isValue_int 695 (by norm_num))
    (by norm_num; exact Binary32.isValue_int 272 (by norm_num))
  rw [h]
  norm_num

/-! ## The frame in machine arithmetic, field by field -/

/-- The timer reading in seconds, in binary32, exceeds 3 exactly when more than
3000000 microseconds have elapsed. -/
theorem Machine.asSeconds_gt_three (n : Int) : Machine.asSeconds n > 3 ↔ n > 3000000 := by
  have hv : Binary32.IsValue (3 : ℚ) := Binary32.round_int 3 (by norm_num)
  constructor
  · intro h
    by_contra hcon
    have hle : (n : ℚ) ≤ ((3000000 : ℤ) : ℚ) := by exact_mod_cast not_lt.mp hcon
    have h1 : Binary32.round (n : ℚ) ≤ ((3000000 : ℤ) : ℚ) :=
      Binary32.round_le _ _ (Binary32.isValue_int 3000000 (by norm_num)) hle
    have h2 : Binary32.round (n : ℚ) / 1000000 ≤ 3 := by
      rw [div_le_iff₀ (by norm_num)]
      push_cast at h1
      linarith
    have h3 := Binary32.round_le 3 _ hv h2
    unfold Machine.asSeconds at h
    linarith
  · intro h
    have hle : ((3000001 : ℤ) : ℚ) ≤ (n : ℚ) := by exact_mod_cast (by omega : (3000001 : ℤ) ≤ n)
    have h1 : ((3000001 : ℤ) : ℚ) ≤ Binary32.round (n : ℚ) :=
      Binary32.le_round _ _ (Binary32.isValue_int 3000001 (by norm_num)) hle
    have h2 : (3000001 : ℚ) / 1000000 ≤ Binary32.round (n : ℚ) / 1000000 := by
      rw [div_le_div_iff_of_pos_right (by norm_num)]
      push_cast at h1
      exact h1
    have h3 := Binary32.round_mono _ _ h2
    have h4 : Binary32.round ((3000001 : ℚ) / 1000000) = 3145729 / 1048576 := by
      rw [Binary32.round_eq _ (-22) 12582916 (by norm_num) (by norm_num)
        (Or.inr (by norm_num)) (by norm_num) (by norm_num [abs_lt])]
      norm_num
    rw [h4] at h3
    unfold Machine.asSeconds
    have : (3 : ℚ) < 3145729 / 1048576 := by norm_num
    linarith

/-- The timer reading in seconds, in binary32, exceeds 5 exactly when more than
5000000 microseconds have elapsed. -/
theorem Machine.asSeconds_gt_five (n : Int) : Machine.asSeconds n > 5 ↔ n > 5000000 := by
  have hv : Binary32.IsValue (5 : ℚ) := Binary32.round_int 5 (by norm_num)
  constructor
  · intro h
    by_contra hcon
    have hle : (n : ℚ) ≤ ((5000000 : ℤ) : ℚ) := by exact_mod_cast not_lt.mp hcon
    have h1 : Binary32.round (n : ℚ) ≤ ((5000000 : ℤ) : ℚ) :=
      Binary32.round_le _ _ (Binary32.isValue_int 5000000 (by norm_num)) hle
    have h2 : Binary32.round (n : ℚ) / 1000000 ≤ 5 := by
      rw [div_le_iff₀ (by norm_num)]
      push_cast at h1
      linarith
    have h3 := Binary32.round_le 5 _ hv h2
    unfold Machine.asSeconds at h
    linarith
  · intro h
    have hle : ((5000001 : ℤ) : ℚ) ≤ (n : ℚ) := by exact_mod_cast (by omega : (5000001 : ℤ) ≤ n)
    have h1 : ((5000001 : ℤ) : ℚ) ≤ Binary32.round (n : ℚ) :=
      Binary32.le_round _ _ (Binary32.isValue_int 5000001 (by norm_num)) hle
    have h2 : (5000001 : ℚ) / 1000000 ≤ Binary32.round (n : ℚ) / 1000000 := by
      rw [div_le_div_iff_of_pos_right (by norm_num)]
      push_cast at h1
      exact h1
    have h3 := Binary32.round_mono _ _ h2
    have h4 : Binary32.round ((5000001 : ℚ) / 1000000) = 5242881 / 1048576 := by
      rw [Binary32.round_eq _ (-21) 10485762 (by norm_num) (by norm_num)
        (Or.inr (by norm_num)) (by norm_num) (by norm_num [abs_lt])]
      norm_num
    rw [h4] at h3
    unfold Machine.asSeconds
    have : (5 : ℚ) < 5242881 / 1048576 := by norm_num
    linarith

/-- In `SpawnPipes` the binary32 operations are exact: the drawn anchor and the
anchor minus 200 are small integers. -/
theorem Machine.Application.SpawnPipes_eq (app : Application)
    (drawn : UniformIntDistribution.Draw { a := 210, b := 450 }) :
    Machine.Application.SpawnPipes app drawn = FlappyBird.Application.SpawnPipes app drawn := by
  have hlo : (210 : ℤ) ≤ drawn.value := drawn.lower
  have hhi : drawn.value ≤ (450 : ℤ) := drawn.upper
  have h1 : Binary32.round (drawn.value : ℚ) = (drawn.value : ℚ) := by
    apply Binary32.round_int
    rw [abs_lt]
    constructor <;> omega
  have h2 : Binary32.round ((drawn.value : ℚ) - 200) = (drawn.value : ℚ) - 200 := by
    have : Binary32.round (((drawn.value - 200 : ℤ)) : ℚ) = ((drawn.value - 200 : ℤ) : ℚ) := by
      apply Binary32.round_int
      rw [abs_lt]
      constructor <;> omega
    push_cast at this
    exact this
  simp only [Machine.Application.SpawnPipes, FlappyBird.Application.SpawnPipes, h1, h2]

/-- The state before the reset statement in machine arithmetic: what the first
three steps leave of the fields of the state. -/
theorem Machine.Run.beforeReset_fields_m (s : RunState) (i : FrameInput) :
    (Machine.Run.beforeReset s i).app = s.app ∧
    (Machine.Run.beforeReset s i).ground = s.ground ∧
    (Machine.Run.beforeReset s i).pipeSpawnClock = s.pipeSpawnClock ∧
    (Machine.Run.beforeReset s i).scoreClock = s.scoreClock ∧
    (Machine.Run.beforeReset s i).holdingSpaceButton = i.spacePressed ∧
    (Machine.Run.beforeReset s i).player =
      Machine.Player.Update
        (if (i.spacePressed && !s.holdingSpaceButton) = true then s.player.Jump else s.player)
        (Machine.Run.elapsedTime i) := by
  simp only [Machine.Run.beforeReset, Machine.Run.checkPipes, Machine.Run.updatePlayer,
    Run.keyboardInput_eq, and_self]

/-- The loop over the pipes in machine arithmetic sets the flag when it was
set before or some pipe reports a collision. -/
theorem Machine.Run.checkPipes_fold_m (player : Player) (pipes : List Terrain)
    (gameLost : Bool) :
    pipes.foldl
        (fun gameLost pipe =>
          if Machine.Terrain.CheckCollision pipe player then true else gameLost) gameLost =
      (gameLost || pipes.any (fun pipe => Machine.Terrain.CheckCollision pipe player)) := by
  induction pipes generalizing gameLost with
  | nil => simp
  | cons pipe rest ih =>
    rw [List.foldl_cons, ih, List.any_cons]
    cases Machine.Terrain.CheckCollision pipe player <;> cases gameLost <;> simp

/-- The condition of the reset branch in machine arithmetic, in a frame started
with the flag `gameLost` not set. -/
theorem Machine.Run.resetCondition_beforeReset_m (s : RunState) (i : FrameInput)
    (hl : s.gameLost = false) :
    Run.resetCondition (Machine.Run.beforeReset s i) =
      (s.app.pipes.any
          (fun pipe => Machine.Terrain.CheckCollision pipe (Machine.Run.beforeReset s i).player) ||
        decide ((Machine.Run.beforeReset s i).player.position.y > 520) ||
        decide ((Machine.Run.beforeReset s i).player.position.y < -100)) := by
  have h1 : (Machine.Run.beforeReset s i).gameLost =
      (s.gameLost || s.app.pipes.any
        (fun pipe => Machine.Terrain.CheckCollision pipe (Machine.Run.beforeReset s i).player)) := by
    have := Machine.Run.checkPipes_fold_m
      (Machine.Run.updatePlayer (Run.keyboardInput s i.spacePressed)
        (Machine.Run.elapsedTime i)).player
      (Machine.Run.updatePlayer (Run.keyboardInput s i.spacePressed)
        (Machine.Run.elapsedTime i)).app.pipes
      (Machine.Run.updatePlayer (Run.keyboardInput s i.spacePressed)
        (Machine.Run.elapsedTime i)).gameLost
    simp only [Machine.Run.beforeReset, Machine.Run.checkPipes]
    rw [this]
    simp only [Machine.Run.updatePlayer, Run.keyboardInput_eq]
  simp only [Run.resetCondition, h1, hl, Bool.false_or]

/-- The state after the reset statement in machine arithmetic, in the two
cases of its condition. -/
theorem Machine.Run.afterReset_cases_m (s : RunState) (i : FrameInput) :
    (Run.resetCondition (Machine.Run.beforeReset s i) = true →
      (Machine.Run.afterReset s i).player = { position := { x := 100, y := 100 }, force := 3 } ∧
      (Machine.Run.afterReset s i).app.pipes = [] ∧
      (Machine.Run.afterReset s i).app.score = 0 ∧
      (Machine.Run.afterReset s i).pipeSpawnClock = { startTime := i.resetSpawnInstant } ∧
      (Machine.Run.afterReset s i).scoreClock = { startTime := i.resetScoreInstant }) ∧
    (Run.resetCondition (Machine.Run.beforeReset s i) = false →
      (Machine.Run.afterReset s i).player = (Machine.Run.beforeReset s i).player ∧
      (Machine.Run.afterReset s i).app.pipes = s.app.pipes ∧
      (Machine.Run.afterReset s i).app.score = s.app.score ∧
      (Machine.Run.afterReset s i).pipeSpawnClock = s.pipeSpawnClock ∧
      (Machine.Run.afterReset s i).scoreClock = s.scoreClock) := by
  obtain ⟨ha, -, hp, hc, -, -⟩ := Machine.Run.beforeReset_fields_m s i
  constructor
  · intro h
    have e : Machine.Run.afterReset s i = Run.reset (Machine.Run.beforeReset s i) i := by
      unfold Machine.Run.afterReset Run.resetIfLost
      rw [h]
      simp
    rw [e]
    exact ⟨rfl, rfl, rfl, rfl, rfl⟩
  · intro h
    have e : Machine.Run.afterReset s i = Machine.Run.beforeReset s i := by
      unfold Machine.Run.afterReset Run.resetIfLost
      rw [h]
      simp
    rw [e, ha, hp, hc]
    exact ⟨rfl, rfl, rfl, rfl, rfl⟩

/-- The state after the reset statement in machine arithmetic: the fields the
reset never writes. -/
theorem Machine.Run.afterReset_fields_m (s : RunState) (i : FrameInput) :
    (Machine.Run.afterReset s i).app.grounds = s.app.grounds ∧
    (Machine.Run.afterReset s i).ground = s.ground ∧
    (Machine.Run.afterReset s i).holdingSpaceButton = i.spacePressed ∧
    (Machine.Run.afterReset s i).gameLost = false := by
  obtain ⟨ha, hg, -, -, hh, -⟩ := Machine.Run.beforeReset_fields_m s i
  refine ⟨?_, ?_, ?_, Run.resetIfLost_gameLost _ i⟩
  · unfold Machine.Run.afterReset Run.resetIfLost
    split
    · simp only [Run.reset, ha]
    · rw [ha]
  · unfold Machine.Run.afterReset Run.resetIfLost
    split
    · simp only [Run.reset, hg]
    · rw [hg]
  · unfold Machine.Run.afterReset Run.resetIfLost
    split
    · simp only [Run.reset, hh]
    · rw [hh]

/-- The spawn step in machine arithmetic, field by field. -/
theorem Machine.Run.spawnAndScore_fields_m (s : RunState) (i : FrameInput) :
    (Machine.Run.spawnAndScore s i).player = s.player ∧
    (Machine.Run.spawnAndScore s i).ground = s.ground ∧
    (Machine.Run.spawnAndScore s i).holdingSpaceButton = s.holdingSpaceButton ∧
    (Machine.Run.spawnAndScore s i).gameLost = s.gameLost ∧
    (Machine.Run.spawnAndScore s i).scoreClock = s.scoreClock ∧
    (Machine.Run.spawnAndScore s i).pipeSpawnClock =
      (if Machine.asSeconds (s.pipeSpawnClock.getElapsedTime i.spawnReadInstant) > 3 then
        { startTime := i.spawnRestartInstant } else s.pipeSpawnClock) ∧
    (Machine.Run.spawnAndScore s i).app.grounds =
      (if Machine.asSeconds (s.pipeSpawnClock.getElapsedTime i.spawnReadInstant) > 3 then
        remove_if (fun ground => decide (ground.position.x < -500)) s.app.grounds
      else s.app.grounds) ∧
    (Machine.Run.spawnAndScore s i).app.pipes =
      (if Machine.asSeconds (s.pipeSpawnClock.getElapsedTime i.spawnReadInstant) > 3 then
        (s.app.SpawnPipes i.drawn).pipes
      else s.app.pipes) ∧
    (Machine.Run.spawnAndScore s i).app.score =
      (if Machine.asSeconds (s.pipeSpawnClock.getElapsedTime i.spawnReadInstant) > 3 ∧
          Machine.asSeconds (s.scoreClock.getElapsedTime i.scoreReadInstant) > 5 then
        Int32.wrap (s.app.score + 1)
      else s.app.score) := by
  unfold Machine.Run.spawnAndScore
  rw [Machine.Application.SpawnPipes_eq]
  by_cases h3 : Machine.asSeconds (s.pipeSpawnClock.getElapsedTime i.spawnReadInstant) > 3
  · by_cases h5 : Machine.asSeconds (s.scoreClock.getElapsedTime i.scoreReadInstant) > 5
    · simp [h3, h5, FlappyBird.Application.SpawnPipes, Clock.restart]
    · simp [h3, h5, FlappyBird.Application.SpawnPipes, Clock.restart]
  · simp [h3]

/-- The result of one iteration of the loop in machine arithmetic from a state
whose ground collection is not empty. -/
theorem Machine.Run.frame_result_m (s : RunState) (i : FrameInput) (h : s.app.grounds ≠ []) :
    ∃ (s5 s' : RunState) (lastGround : Terrain),
      Run.createGround
        (Machine.Run.updateGrounds (Machine.Run.afterReset s i) (Machine.Run.elapsedTime i)) =
          some s5 ∧
      Machine.Run.frame s i = some s' ∧
      (s.app.grounds.map
        (fun g => Machine.Terrain.Update g (Machine.Run.elapsedTime i))).getLast? =
          some lastGround ∧
      s5.app.grounds =
        (if lastGround.position.x < -48 then
          s.app.grounds.map (fun g => Machine.Terrain.Update g (Machine.Run.elapsedTime i)) ++
            [{ position := { x := 336, y := 550 }, type := s.ground.type }]
        else s.app.grounds.map (fun g => Machine.Terrain.Update g (Machine.Run.elapsedTime i))) ∧
      s'.app.grounds =
        (if Machine.asSeconds
            ((Machine.Run.afterReset s i).pipeSpawnClock.getElapsedTime i.spawnReadInstant) > 3
          then remove_if (fun ground => decide (ground.position.x < -500)) s5.app.grounds
          else s5.app.grounds) ∧
      s'.ground.type = s.ground.type ∧
      s'.gameLost = false ∧
      s'.player = (Machine.Run.afterReset s i).player ∧
      s'.holdingSpaceButton = i.spacePressed ∧
      s'.scoreClock = (Machine.Run.afterReset s i).scoreClock ∧
      s'.pipeSpawnClock =
        (if Machine.asSeconds
            ((Machine.Run.afterReset s i).pipeSpawnClock.getElapsedTime i.spawnReadInstant) > 3
          then { startTime := i.spawnRestartInstant }
          else (Machine.Run.afterReset s i).pipeSpawnClock) ∧
      s'.app.score =
        (if Machine.asSeconds
              ((Machine.Run.afterReset s i).pipeSpawnClock.getElapsedTime i.spawnReadInstant) > 3 ∧
            Machine.asSeconds
              ((Machine.Run.afterReset s i).scoreClock.getElapsedTime i.scoreReadInstant) > 5
          then Int32.wrap ((Machine.Run.afterReset s i).app.score + 1)
          else (Machine.Run.afterReset s i).app.score) ∧
      s'.app.pipes =
        (if Machine.asSeconds
            ((Machine.Run.afterReset s i).pipeSpawnClock.getElapsedTime i.spawnReadInstant) > 3
          then
            remove_if (fun pipe => decide (pipe.position.x < -500))
                ((Machine.Run.afterReset s i).app.pipes.map
                  (fun p => Machine.Terrain.Update p (Machine.Run.elapsedTime i))) ++
              [{ position := { x := 400, y := (i.drawn.value : ℚ) }, type := 2 },
               { position := { x := 469, y := (i.drawn.value : ℚ) - 200 }, type := 3 }]
          else (Machine.Run.afterReset s i).app.pipes.map
            (fun p => Machine.Terrain.Update p (Machine.Run.elapsedTime i))) := by
  obtain ⟨hg, hgr, hh, hl⟩ := Machine.Run.afterReset_fields_m s i
  have hne : (Machine.Run.updateGrounds (Machine.Run.afterReset s i)
      (Machine.Run.elapsedTime i)).app.grounds ≠ [] := by
    simp only [Machine.Run.updateGrounds, hg, ne_eq, List.map_eq_nil_iff]
    exact h
  obtain ⟨s5, lastGround, h1, h2, h3, h4, h5, h6, h7, h8, h9, h10, h11⟩ :=
    Run.createGround_spec _ hne
  obtain ⟨f1, f2, f3, f4, f5, f6, f7, f8, f9⟩ :=
    Machine.Run.spawnAndScore_fields_m (Machine.Run.updatePipes s5 (Machine.Run.elapsedTime i)) i
  have hframe : Machine.Run.frame s i =
      some (Machine.Run.spawnAndScore
        (Machine.Run.updatePipes s5 (Machine.Run.elapsedTime i)) i) := by
    have : Machine.Run.frame s i =
        match Run.createGround
          (Machine.Run.updateGrounds (Machine.Run.afterReset s i)
            (Machine.Run.elapsedTime i)) with
        | none => none
        | some s => some (Machine.Run.spawnAndScore
            (Machine.Run.updatePipes s (Machine.Run.elapsedTime i)) i) := rfl
    rw [this, h1]
  have u1 : (Machine.Run.updatePipes s5 (Machine.Run.elapsedTime i)).player = s5.player := rfl
  have u2 : (Machine.Run.updatePipes s5 (Machine.Run.elapsedTime i)).holdingSpaceButton =
      s5.holdingSpaceButton := rfl
  have u3 : (Machine.Run.updatePipes s5 (Machine.Run.elapsedTime i)).scoreClock =
      s5.scoreClock := rfl
  have u4 : (Machine.Run.updatePipes s5 (Machine.Run.elapsedTime i)).pipeSpawnClock =
      s5.pipeSpawnClock := rfl
  have u5 : (Machine.Run.updatePipes s5 (Machine.Run.elapsedTime i)).app.score =
      s5.app.score := rfl
  have u6 : (Machine.Run.updatePipes s5 (Machine.Run.elapsedTime i)).app.pipes =
      s5.app.pipes.map (fun p => Machine.Terrain.Update p (Machine.Run.elapsedTime i)) := rfl
  have u7 : (Machine.Run.updatePipes s5 (Machine.Run.elapsedTime i)).app.grounds =
      s5.app.grounds := rfl
  have u8 : (Machine.Run.updatePipes s5 (Machine.Run.elapsedTime i)).ground = s5.ground := rfl
  have u9 : (Machine.Run.updatePipes s5 (Machine.Run.elapsedTime i)).gameLost =
      s5.gameLost := rfl
  have v7 : s5.player = (Machine.Run.afterReset s i).player := h7
  have v8 : s5.pipeSpawnClock = (Machine.Run.afterReset s i).pipeSpawnClock := h8
  have v9 : s5.scoreClock = (Machine.Run.afterReset s i).scoreClock := h9
  have v6 : s5.app.score = (Machine.Run.afterReset s i).app.score := h6
  have v5 : s5.app.pipes = (Machine.Run.afterReset s i).app.pipes := h5
  refine ⟨s5, _, lastGround, h1, hframe, ?_, ?_, ?_, ?_, ?_, ?_, ?_, ?_, ?_, ?_, ?_⟩
  · simpa only [Machine.Run.updateGrounds, hg] using h2
  · simpa only [Machine.Run.updateGrounds, hg, hgr] using h3
  · rw [f7, u7, u4, v8]
  · rw [f2, u8, h4]
    simp only [Machine.Run.updateGrounds, hgr]
  · rw [f4, u9, h11]
    simpa only [Machine.Run.updateGrounds] using hl
  · rw [f1, u1, v7]
  · rw [f3, u2, h10]
    simpa only [Machine.Run.updateGrounds] using hh
  · rw [f5, u3, v9]
  · rw [f6, u4, v8]
  · rw [f9, u4, u3, u5, v8, v9, v6]
  · rw [f8, u4, v8, Application.SpawnPipes_pipes_append, u6, v5]

/-! ## Invariants of the loop in machine arithmetic -/

/-- In machine arithmetic, at the start of every iteration the ground
collection has a last element, with x >= -48, the local `ground` has the tag
of a ground and the flag `gameLost` is not set. -/
theorem Machine.Run.Reachable.invariant_m (s : RunState) (hs : Machine.Run.Reachable s) :
    (∃ g, s.app.grounds.getLast? = some g ∧ -48 ≤ g.position.x) ∧ s.ground.type = 1 ∧
      s.gameLost = false := by
  induction hs with
  | init a b =>
    refine ⟨⟨{ position := { x := 0, y := 550 }, type := 1 }, rfl, ?_⟩, rfl, rfl⟩
    norm_num
  | frame s s' i _ hf ih =>
    obtain ⟨⟨g, hg, _⟩, ht, _⟩ := ih
    have hne : s.app.grounds ≠ [] := by
      intro h0
      rw [h0] at hg
      exact absurd hg (by simp)
    obtain ⟨s5, s'', lastGround, -, h2, h3, h4, h5, h6, h7, -⟩ :=
      Machine.Run.frame_result_m s i hne
    rw [h2, Option.some.injEq] at hf
    subst hf
    have hlast : ∃ g5, s5.app.grounds.getLast? = some g5 ∧ -48 ≤ g5.position.x := by
      by_cases hx : lastGround.position.x < -48
      · rw [if_pos hx] at h4
        refine ⟨_, by rw [h4, List.getLast?_concat], ?_⟩
        norm_num
      · rw [if_neg hx] at h4
        exact ⟨lastGround, by rw [h4]; exact h3, not_lt.mp hx⟩
    obtain ⟨g5, hg5, hx5⟩ := hlast
    refine ⟨⟨g5, ?_, hx5⟩, by rw [h6, ht], h7⟩
    rw [h5]
    split
    · refine remove_if_getLast? _ _ g5 hg5 ?_
      simp only [decide_eq_false_iff_not, not_lt]
      linarith
    · exact hg5

/-- In machine arithmetic the ground collection is not empty at the start of
an iteration. -/
theorem Machine.Run.Reachable.ne_nil_m (s : RunState) (hs : Machine.Run.Reachable s) :
    s.app.grounds ≠ [] := by
  obtain ⟨⟨g, hg, -⟩, -⟩ := Machine.Run.Reachable.invariant_m s hs
  intro h0
  rw [h0] at hg
  exact absurd hg (by simp)

/-! ## Ground maintenance in binary32 -/

/-- The ground of the start of a run after a drift of 481 ms in binary32. -/
theorem Machine.Terrain.Update_ground_481 :
    Machine.Terrain.Update { position := { x := 0, y := 550 }, type := 1 }
        (Binary32.round ((481 : Int) : ℚ)) =
      { position := { x := -12609127 / 262144, y := 550 }, type := 1 } := by
  have h0 : Binary32.round ((481 : Int) : ℚ) = 481 := by
    have := Binary32.round_int 481 (by norm_num)
    simpa using this
  have h1 : Binary32.round ((13421773 : ℚ) / 134217728 * 481) = 12609127 / 262144 := by
    rw [Binary32.round_eq _ (-18) 12609127 (by norm_num) (by norm_num)
      (Or.inr (by norm_num)) (by norm_num) (by norm_num [abs_lt])]
    norm_num
  have h2 : Binary32.round ((0 : ℚ) - 12609127 / 262144) = -12609127 / 262144 := by
    have e : (0 : ℚ) - 12609127 / 262144 = -(12609127 / 262144) := by ring
    rw [e, Binary32.round_neg,
      Binary32.round_form_eq _ 12609127 (-18) (by norm_num) (by norm_num) (by norm_num)]
    ring
  simp only [Machine.Terrain.Update, Binary32.round_one_tenth, h0, h1, h2]

/-- C19 fails as stated. In the first frame of a run, 481 ms long, the code
(in binary32) moves the ground from x = 0 to x = -12609127/262144, not to
0 - 0.1 * 481 = -48.1, and appends the new ground at (336, 550): the new
entity is not at the offset 336 from the last entity, whose x is
-12609127/262144, but 336 + 12609127/262144 (more than 384) to its right. -/
theorem C19_counterexample :
    ∃ s5 : RunState,
      (Machine.Run.updateGrounds
        (Machine.Run.afterReset (Run.init 0 0) (FrameInput.atInstant 481 false 481000))
        (Machine.Run.elapsedTime (FrameInput.atInstant 481 false 481000))).app.grounds =
          [{ position := { x := -12609127 / 262144, y := 550 }, type := 1 }] ∧
      (-12609127 / 262144 : ℚ) ≠ 0 - 0.1 * 481 ∧
      Run.createGround
        (Machine.Run.updateGrounds
          (Machine.Run.afterReset (Run.init 0 0) (FrameInput.atInstant 481 false 481000))
          (Machine.Run.elapsedTime (FrameInput.atInstant 481 false 481000))) = some s5 ∧
      s5.app.grounds =
        [{ position := { x := -12609127 / 262144, y := 550 }, type := 1 },
         { position := { x := 336, y := 550 }, type := 1 }] ∧
      (336 : ℚ) - (-12609127 / 262144) ≠ 336 ∧
      (336 : ℚ) ≠ -12609127 / 262144 + 336 := by
  have hd : (Machine.Run.updateGrounds
      (Machine.Run.afterReset (Run.init 0 0) (FrameInput.atInstant 481 false 481000))
      (Machine.Run.elapsedTime (FrameInput.atInstant 481 false 481000))).app.grounds =
      [{ position := { x := -12609127 / 262144, y := 550 }, type := 1 }] := by
    simp only [Machine.Run.updateGrounds, (Machine.Run.afterReset_fields_m _ _).1,
      Machine.Run.elapsedTime]
    have e : (FrameInput.atInstant 481 false 481000).elapsedTime = 481 := rfl
    rw [e]
    simp only [Run.init, List.nil_append, List.map_cons, List.map_nil,
      Machine.Terrain.Update_ground_481]
  have hgr : (Machine.Run.updateGrounds
      (Machine.Run.afterReset (Run.init 0 0) (FrameInput.atInstant 481 false 481000))
      (Machine.Run.elapsedTime (FrameInput.atInstant 481 false 481000))).ground =
      { position := { x := 0, y := 550 }, type := 1 } := by
    simp only [Machine.Run.updateGrounds, (Machine.Run.afterReset_fields_m _ _).2.1]
    rfl
  obtain ⟨s5, lastGround, h1, h2, h3, -⟩ := Run.createGround_spec _
    (by rw [hd]; exact List.cons_ne_nil _ _)
  rw [hd] at h2 h3
  rw [hgr] at h3
  simp only [List.getLast?_singleton, Option.some.injEq] at h2
  rw [← h2] at h3
  rw [if_pos (by norm_num)] at h3
  exact ⟨s5, hd, by norm_num, h1, h3, by norm_num, by norm_num⟩

/-- C19, amended, for the code's binary32 arithmetic: the ground maintenance
step of a frame. Each ground entity's x becomes fl(x - fl(0.1f * deltaTime)),
with fl the rounding to binary32, 0.1f = fl(0.1) = 13421773/2^27 and deltaTime
the elapsed milliseconds as a float, and y (and the tag) unchanged; then, if
the x of the last entity of the collection is below -48, exactly one new Ground
entity (type 1) is appended at the end of the collection, at the fixed position
(336, 550), which is more than 384 to the right of that last entity's x;
otherwise the collection is left as it is. At most one ground entity is added
in a frame. -/
theorem C19_ground_maintenance_binary32 (s : RunState) (hs : Machine.Run.Reachable s)
    (i : FrameInput) :
    ∃ (s5 : RunState) (lastGround : Terrain),
      Binary32.round 0.1 = 13421773 / 2 ^ 27 ∧
      (Machine.Run.updateGrounds (Machine.Run.afterReset s i)
          (Machine.Run.elapsedTime i)).app.grounds =
        s.app.grounds.map (fun g =>
          { position :=
              { x := Binary32.round
                  (g.position.x -
                    Binary32.round (Binary32.round 0.1 * Binary32.round (i.elapsedTime : ℚ))),
                y := g.position.y },
            type := g.type }) ∧
      (Machine.Run.updateGrounds (Machine.Run.afterReset s i)
          (Machine.Run.elapsedTime i)).app.grounds.getLast? = some lastGround ∧
      Run.createGround
        (Machine.Run.updateGrounds (Machine.Run.afterReset s i) (Machine.Run.elapsedTime i)) =
          some s5 ∧
      (lastGround.position.x < -48 →
        s5.app.grounds =
          (Machine.Run.updateGrounds (Machine.Run.afterReset s i)
              (Machine.Run.elapsedTime i)).app.grounds ++
            [{ position := { x := 336, y := 550 }, type := 1 }] ∧
        384 < 336 - lastGround.position.x) ∧
      (¬ lastGround.position.x < -48 →
        s5.app.grounds =
          (Machine.Run.updateGrounds (Machine.Run.afterReset s i)
              (Machine.Run.elapsedTime i)).app.grounds) ∧
      s5.app.grounds.length ≤ s.app.grounds.length + 1 := by
  have hne := Machine.Run.Reachable.ne_nil_m s hs
  obtain ⟨-, ht, -⟩ := Machine.Run.Reachable.invariant_m s hs
  obtain ⟨s5, s', lastGround, h1, -, h3, h4, -⟩ := Machine.Run.frame_result_m s i hne
  have hd : (Machine.Run.updateGrounds (Machine.Run.afterReset s i)
      (Machine.Run.elapsedTime i)).app.grounds =
      s.app.grounds.map (fun g => Machine.Terrain.Update g (Machine.Run.elapsedTime i)) := by
    simp only [Machine.Run.updateGrounds, (Machine.Run.afterReset_fields_m s i).1]
  refine ⟨s5, lastGround, ?_, ?_, ?_, h1, ?_, ?_, ?_⟩
  · rw [Binary32.round_one_tenth]
    norm_num
  · rw [hd]
    rfl
  · rw [hd]
    exact h3
  · intro hx
    rw [if_pos hx, ht] at h4
    refine ⟨by rw [hd]; exact h4, ?_⟩
    linarith
  · intro hx
    rw [if_neg hx] at h4
    rw [hd]
    exact h4
  · rw [h4]
    split <;> simp

/-- C19, amended, in the first frame of a run, 481 ms long: the ground drifts
to x = -12609127/262144, below -48, and the new ground is appended at
(336, 550). -/
theorem C19_ground_maintenance_binary32_witness :
    ∃ s5 : RunState,
      Run.createGround
        (Machine.Run.updateGrounds
          (Machine.Run.afterReset (Run.init 0 0) (FrameInput.atInstant 481 false 481000))
          (Machine.Run.elapsedTime (FrameInput.atInstant 481 false 481000))) = some s5 ∧
      s5.app.grounds =
        [{ position := { x := -12609127 / 262144, y := 550 }, type := 1 },
         { position := { x := 336, y := 550 }, type := 1 }] := by
  obtain ⟨s5, lastGround, -, hmap, hlast, hcreate, happend, -, -⟩ :=
    C19_ground_maintenance_binary32 (Run.init 0 0) (Machine.Run.Reachable.init 0 0)
      (FrameInput.atInstant 481 false 481000)
  have e : (FrameInput.atInstant 481 false 481000).elapsedTime = 481 := rfl
  have hd : (Machine.Run.updateGrounds
      (Machine.Run.afterReset (Run.init 0 0) (FrameInput.atInstant 481 false 481000))
      (Machine.Run.elapsedTime (FrameInput.atInstant 481 false 481000))).app.grounds =
      [{ position := { x := -12609127 / 262144, y := 550 }, type := 1 }] := by
    rw [hmap, e]
    have := Machine.Terrain.Update_ground_481
    simp only [Machine.Terrain.Update] at this
    simp only [Run.init, List.nil_append, List.map_cons, List.map_nil]
    rw [this]
  rw [hd] at hlast happend
  simp only [List.getLast?_singleton, Option.some.injEq] at hlast
  rw [← hlast] at happend
  exact ⟨s5, hcreate, (happend (by norm_num)).1⟩

/-! ## The score in 32-bit integer arithmetic -/

/-- An `int` operation whose exact result is in the range of `int` gives that
result. -/
theorem Int32.wrap_of_range (n : Int) (h1 : -2147483648 ≤ n) (h2 : n < 2147483648) :
    Int32.wrap n = n := by
  unfold Int32.wrap
  omega

/-- Incrementing a wrapped value wraps the incremented value. -/
theorem Int32.wrap_succ (n : Int) : Int32.wrap (Int32.wrap n + 1) = Int32.wrap (n + 1) := by
  unfold Int32.wrap
  omega

/-- In machine arithmetic the loop has a result for every list of inputs. -/
theorem Machine.Run.frames_total_m (s : RunState) (hs : Machine.Run.Reachable s)
    (inputs : List FrameInput) :
    ∃ s' : RunState, Machine.Run.frames s inputs = some s' ∧ Machine.Run.Reachable s' := by
  induction inputs generalizing s with
  | nil => exact ⟨s, rfl, hs⟩
  | cons i rest ih =>
    obtain ⟨-, s1, -, -, h1, -⟩ :=
      Machine.Run.frame_result_m s i (Machine.Run.Reachable.ne_nil_m s hs)
    obtain ⟨s', h2, hs'⟩ := ih s1 (Machine.Run.Reachable.frame s s1 i hs h1)
    refine ⟨s', ?_, hs'⟩
    simp only [Machine.Run.frames, h1, h2]

/-- The score after one frame in machine arithmetic: it is 0 after a failure
and the score of the start otherwise, incremented as an `int` when a point is
due. -/
theorem Machine.Run.frame_score_m (s s' : RunState) (i : FrameInput)
    (hs : Machine.Run.Reachable s) (hf : Machine.Run.frame s i = some s') :
    (Run.resetCondition (Machine.Run.beforeReset s i) = true →
      s'.app.score = 0 ∨ s'.app.score = Int32.wrap (0 + 1)) ∧
    (Run.resetCondition (Machine.Run.beforeReset s i) = false →
      s'.app.score =
        (if Machine.asSeconds (s.pipeSpawnClock.getElapsedTime i.spawnReadInstant) > 3 ∧
            Machine.asSeconds (s.scoreClock.getElapsedTime i.scoreReadInstant) > 5
          then Int32.wrap (s.app.score + 1) else s.app.score) ∧
      s'.scoreClock = s.scoreClock ∧
      (s'.app.score ≠ s.app.score →
        Machine.asSeconds (s.pipeSpawnClock.getElapsedTime i.spawnReadInstant) > 3 ∧
        s'.pipeSpawnClock = { startTime := i.spawnRestartInstant } ∧
        s'.app.pipes =
          remove_if (fun pipe => decide (pipe.position.x < -500))
              (s.app.pipes.map
                (fun p => Machine.Terrain.Update p (Machine.Run.elapsedTime i))) ++
            [{ position := { x := 400, y := (i.drawn.value : ℚ) }, type := 2 },
             { position := { x := 469, y := (i.drawn.value : ℚ) - 200 }, type := 3 }])) := by
  obtain ⟨-, s'', -, -, h1, -, -, -, -, -, -, -, hsc, hpc, hscore, hpipes⟩ :=
    Machine.Run.frame_result_m s i (Machine.Run.Reachable.ne_nil_m s hs)
  rw [h1, Option.some.injEq] at hf
  subst hf
  constructor
  · intro hc
    obtain ⟨-, -, a3, -, -⟩ := (Machine.Run.afterReset_cases_m s i).1 hc
    rw [a3] at hscore
    rw [hscore]
    split
    · exact Or.inr rfl
    · exact Or.inl rfl
  · intro hc
    obtain ⟨-, a2, a3, a4, a5⟩ := (Machine.Run.afterReset_cases_m s i).2 hc
    rw [a4, a5, a3] at hscore
    rw [a4] at hpc
    rw [a4, a2] at hpipes
    rw [a5] at hsc
    refine ⟨hscore, hsc, ?_⟩
    intro hne
    by_cases h3 : Machine.asSeconds (s.pipeSpawnClock.getElapsedTime i.spawnReadInstant) > 3
    · rw [if_pos h3] at hpc hpipes
      exact ⟨h3, hpc, hpipes⟩
    · exfalso
      apply hne
      rw [hscore, if_neg (fun h => h3 h.1)]

/-- After a run of n frames, with n below 2^31 - 1, the score lies between 0
and the number of frames played since the state the run starts from. -/
theorem Machine.Run.frames_score_bound_m (inputs : List FrameInput) (s s' : RunState) (k : ℕ)
    (hs : Machine.Run.Reachable s) (h0 : 0 ≤ s.app.score) (hk : s.app.score ≤ k)
    (hlen : k + inputs.length ≤ 2147483647)
    (hf : Machine.Run.frames s inputs = some s') :
    0 ≤ s'.app.score ∧ s'.app.score ≤ ((k + inputs.length : ℕ) : Int) := by
  induction inputs generalizing s k with
  | nil =>
    simp only [Machine.Run.frames, Option.some.injEq] at hf
    subst hf
    exact ⟨h0, by simpa using hk⟩
  | cons i rest ih =>
    rw [List.length_cons] at hlen
    obtain ⟨-, s1, -, -, h1, -⟩ :=
      Machine.Run.frame_result_m s i (Machine.Run.Reachable.ne_nil_m s hs)
    simp only [Machine.Run.frames, h1] at hf
    obtain ⟨c1, c2⟩ := Machine.Run.frame_score_m s s1 i hs h1
    have hb : 0 ≤ s1.app.score ∧ s1.app.score ≤ ((k + 1 : ℕ) : Int) := by
      cases hc : Run.resetCondition (Machine.Run.beforeReset s i) with
      | true =>
        rcases c1 hc with h | h
        · rw [h]
          constructor <;> omega
        · rw [h, Int32.wrap_of_range _ (by norm_num) (by norm_num)]
          constructor <;> omega
      | false =>
        obtain ⟨hsc, -⟩ := c2 hc
        rw [hsc]
        split
        · rw [Int32.wrap_of_range _ (by omega) (by omega)]
          constructor <;> omega
        · constructor <;> omega
    have := ih s1 (k + 1) (Machine.Run.Reachable.frame s s1 i hs h1) hb.1 hb.2 (by omega) hf
    rw [List.length_cons]
    have e : k + 1 + rest.length = k + (rest.length + 1) := by omega
    rw [e] at this
    exact this

/-- The result of an `int` operation is in the range of `int`. -/
theorem Int32.wrap_range (n : Int) :
    -2147483648 ≤ Int32.wrap n ∧ Int32.wrap n ≤ 2147483647 := by
  unfold Int32.wrap
  omega

/-- In machine arithmetic the score is in the range of `int` at the start of
every iteration. -/
theorem Machine.Run.Reachable.score_range_m (s : RunState) (hs : Machine.Run.Reachable s) :
    -2147483648 ≤ s.app.score ∧ s.app.score ≤ 2147483647 := by
  induction hs with
  | init a b =>
    have e : (Run.init a b).app.score = 0 := rfl
    rw [e]
    constructor <;> norm_num
  | frame s s' i hs hf ih =>
    obtain ⟨c1, c2⟩ := Machine.Run.frame_score_m s s' i hs hf
    cases hc : Run.resetCondition (Machine.Run.beforeReset s i) with
    | true =>
      rcases c1 hc with h | h
      · rw [h]
        constructor <;> norm_num
      · rw [h]
        exact Int32.wrap_range _
    | false =>
      obtain ⟨hsc, -⟩ := c2 hc
      rw [hsc]
      split
      · exact Int32.wrap_range _
      · exact ih

/-- The overlap test in binary32 fails when the second rectangle ends, on the
x axis, before the first one begins. -/
theorem Machine.Rect.intersects_false_m (r1 r2 : Rect)
    (h : max r2.left (Binary32.round (r2.left + r2.width)) ≤
      min r1.left (Binary32.round (r1.left + r1.width))) :
    Machine.Rect.intersects r1 r2 = false := by
  unfold Machine.Rect.intersects
  simp only [Bool.and_eq_false_imp, decide_eq_true_eq]
  intro hlt
  exfalso
  have h1 := lt_of_le_of_lt (le_max_left _ _) hlt
  have h2 := lt_of_lt_of_le h1 (min_le_right _ _)
  exact absurd h (not_le.mpr h2)

/-- In binary32 a pipe at one of the spawn abscissas (400 or 469) does not
collide with a player at x = 100. -/
theorem Machine.Terrain.CheckCollision_at_spawn_m (t : Terrain) (player : Player)
    (ht : t.position.x = 400 ∨ t.position.x = 469) (hp : player.position.x = 100) :
    Machine.Terrain.CheckCollision t player = false := by
  have r145 : Binary32.round ((100 : ℚ) + 45) = 145 := by
    norm_num
    exact Binary32.round_int 145 (by norm_num)
  have r470 : Binary32.round ((400 : ℚ) + 70) = 470 := by
    norm_num
    exact Binary32.round_int 470 (by norm_num)
  have r539 : Binary32.round ((469 : ℚ) + 70) = 539 := by
    norm_num
    exact Binary32.round_int 539 (by norm_num)
  have r330 : Binary32.round ((400 : ℚ) - 70) = 330 := by
    norm_num
    exact Binary32.round_int 330 (by norm_num)
  have r399 : Binary32.round ((469 : ℚ) - 70) = 399 := by
    norm_num
    exact Binary32.round_int 399 (by norm_num)
  have r400 : Binary32.round ((330 : ℚ) + 70) = 400 := by
    norm_num
    exact Binary32.round_int 400 (by norm_num)
  have r469 : Binary32.round ((399 : ℚ) + 70) = 469 := by
    norm_num
    exact Binary32.round_int 469 (by norm_num)
  unfold Machine.Terrain.CheckCollision
  simp only
  split
  · rw [Machine.Rect.intersects_false_m]
    · simp
    · simp only [Rect.ofPositionSize, hp, r145]
      rcases ht with h | h
      · rw [h, r470]
        norm_num
      · rw [h, r539]
        norm_num
  · split
    · rw [Machine.Rect.intersects_false_m]
      · simp
      · simp only [Rect.ofPositionSize, hp, r145]
        rcases ht with h | h
        · rw [h, r330, r400]
          norm_num
        · rw [h, r399, r469]
          norm_num
    · rfl

/-- In binary32 an update with no elapsed time leaves a pipe at a spawn
abscissa where it is. -/
theorem Machine.Terrain.Update_zero_m (t : Terrain)
    (ht : t.position.x = 400 ∨ t.position.x = 469) :
    (Machine.Terrain.Update t 0).position.x = t.position.x := by
  simp only [Machine.Terrain.Update, mul_zero, Binary32.round_zero, sub_zero]
  rcases ht with h | h
  · rw [h]
    exact Binary32.round_int 400 (by norm_num)
  · rw [h]
    exact Binary32.round_int 469 (by norm_num)

/-- In binary32 an update with no elapsed time leaves a player at height 100
with lift force 0 where it is. -/
theorem Machine.Player.Update_hover_m :
    Machine.Player.Update { position := { x := 100, y := 100 }, force := 0 } 0 =
      { position := { x := 100, y := 100 }, force := 0 } := by
  have h : Binary32.round (100 : ℚ) = 100 := Binary32.round_int 100 (by norm_num)
  simp only [Machine.Player.Update, zero_mul, Binary32.round_zero, sub_zero, h]

/-- In binary32 an update of 300 ms takes the player of the reset state to a
stand-still: lift force 0 at height 100. -/
theorem Machine.Player.Update_reset_300_m :
    Machine.Player.Update { position := { x := 100, y := 100 }, force := 3 } 300 =
      { position := { x := 100, y := 100 }, force := 0 } := by
  have h1 : Binary32.round ((300 : ℚ) * (5368709 / 536870912)) = 3 := by
    rw [Binary32.round_eq _ (-22) 12582912 (by norm_num) (by norm_num)
      (Or.inr (by norm_num)) (by norm_num) (by norm_num [abs_lt])]
    norm_num
  have h2 : Binary32.round (100 : ℚ) = 100 := Binary32.round_int 100 (by norm_num)
  simp only [Machine.Player.Update, Binary32.round_one_hundredth, h1, sub_self,
    Binary32.round_zero, sub_zero, h2]

/-- A frame of a stand-still. From a state of the loop in which the player
stands still at (100, 100) with lift force 0, every pipe is at a spawn
abscissa, the score timer was started at 0 and the spawn timer at T, a frame
whose millisecond count reads 0 and whose timers are read at an instant more
than 5 seconds after T sees no failure and both timers due: the score is
incremented as an `int` and the state is again of this kind. -/
theorem Machine.Run.hover_step_m (s : RunState) (n : Int) (T now : Int)
    (hs : Machine.Run.Reachable s)
    (hp : s.player = { position := { x := 100, y := 100 }, force := 0 })
    (hscore : s.app.score = Int32.wrap n)
    (hpipes : ∀ p ∈ s.app.pipes, p.position.x = 400 ∨ p.position.x = 469)
    (hsc : s.scoreClock = { startTime := 0 })
    (hpc : s.pipeSpawnClock = { startTime := T }) (hT : 0 ≤ T) (hnow : T + 5000000 < now) :
    ∃ s' : RunState,
      Machine.Run.frame s (FrameInput.atInstant 0 false now) = some s' ∧
      Run.resetCondition
        (Machine.Run.beforeReset s (FrameInput.atInstant 0 false now)) = false ∧
      Machine.asSeconds (s.pipeSpawnClock.getElapsedTime
        (FrameInput.atInstant 0 false now).spawnReadInstant) > 3 ∧
      Machine.asSeconds (s.scoreClock.getElapsedTime
        (FrameInput.atInstant 0 false now).scoreReadInstant) > 5 ∧
      Machine.Run.Reachable s' ∧
      s'.player = { position := { x := 100, y := 100 }, force := 0 } ∧
      s'.app.score = Int32.wrap (n + 1) ∧
      (∀ p ∈ s'.app.pipes, p.position.x = 400 ∨ p.position.x = 469) ∧
      s'.scoreClock = { startTime := 0 } ∧
      s'.pipeSpawnClock = { startTime := now } := by
  obtain ⟨-, -, hlost⟩ := Machine.Run.Reachable.invariant_m s hs
  have he : Machine.Run.elapsedTime (FrameInput.atInstant 0 false now) = 0 := by
    simp only [Machine.Run.elapsedTime, FrameInput.atInstant, Int.cast_zero, Binary32.round_zero]
  have hplayer : (Machine.Run.beforeReset s
      (FrameInput.atInstant 0 false now)).player =
      { position := { x := 100, y := 100 }, force := 0 } := by
    rw [(Machine.Run.beforeReset_fields_m _ _).2.2.2.2.2, he, hp]
    have e : (FrameInput.atInstant 0 false now).spacePressed = false := rfl
    rw [e]
    simp only [Bool.false_and, Bool.false_eq_true, if_false]
    exact Machine.Player.Update_hover_m
  have hc : Run.resetCondition
      (Machine.Run.beforeReset s (FrameInput.atInstant 0 false now)) = false := by
    rw [Machine.Run.resetCondition_beforeReset_m _ _ hlost, hplayer]
    have hany : s.app.pipes.any (fun pipe => Machine.Terrain.CheckCollision pipe
        { position := { x := 100, y := 100 }, force := 0 }) = false := by
      rw [List.any_eq_false]
      intro p hp'
      rw [Bool.not_eq_true]
      exact Machine.Terrain.CheckCollision_at_spawn_m p _ (hpipes p hp') rfl
    rw [hany]
    norm_num
  have h3 : Machine.asSeconds (s.pipeSpawnClock.getElapsedTime
      (FrameInput.atInstant 0 false now).spawnReadInstant) > 3 := by
    rw [Machine.asSeconds_gt_three, hpc]
    simp only [Clock.getElapsedTime, FrameInput.atInstant]
    omega
  have h5 : Machine.asSeconds (s.scoreClock.getElapsedTime
      (FrameInput.atInstant 0 false now).scoreReadInstant) > 5 := by
    rw [Machine.asSeconds_gt_five, hsc]
    simp only [Clock.getElapsedTime, FrameInput.atInstant]
    omega
  obtain ⟨-, s', -, -, h1, -, -, -, -, -, gp, -, gsc, gpc, gscore, gpipes⟩ :=
    Machine.Run.frame_result_m s (FrameInput.atInstant 0 false now)
      (Machine.Run.Reachable.ne_nil_m s hs)
  obtain ⟨a1, a2, a3, a4, a5⟩ := (Machine.Run.afterReset_cases_m s _).2 hc
  rw [a4, a5, a3, if_pos ⟨h3, h5⟩, hscore, Int32.wrap_succ] at gscore
  rw [a4, if_pos h3] at gpc
  rw [a4, a2, if_pos h3, he] at gpipes
  rw [a5, hsc] at gsc
  rw [a1, hplayer] at gp
  refine ⟨s', h1, hc, h3, h5, Machine.Run.Reachable.frame s s' _ hs h1, gp, gscore, ?_, gsc, gpc⟩
  intro p hp'
  rw [gpipes, List.mem_append] at hp'
  rcases hp' with hp' | hp'
  · have hmem := (List.mem_filter.mp hp').1
    obtain ⟨q, hq, rfl⟩ := List.mem_map.mp hmem
    rw [Machine.Terrain.Update_zero_m q (hpipes q hq)]
    exact hpipes q hq
  · simp only [List.mem_cons, List.mem_singleton, List.mem_nil_iff, or_false] at hp'
    rcases hp' with rfl | rfl
    · exact Or.inl rfl
    · exact Or.inr rfl

/-- For every number n there is a state of the loop, in machine arithmetic, in
which the player stands still and the score is n wrapped to an `int`. The run
that leads to it starts both timers at 0, has a first frame 300 ms long, which
brings the lift force to 0, and then n frames that each start 2^32 ms
(4294967296000 microseconds) after the one before: the `sf::Int32` millisecond
count of the frame clock reads 0 for such a frame, so the player and the pipes
do not move, and both timers are due. The instant `last` is the one of the
last frame of the run. -/
theorem Machine.Run.hover_reachable_m (n : ℕ) :
    ∃ (s : RunState) (T last : Int),
      Machine.Run.Reachable s ∧
      s.player = { position := { x := 100, y := 100 }, force := 0 } ∧
      s.app.score = Int32.wrap (n : Int) ∧
      (∀ p ∈ s.app.pipes, p.position.x = 400 ∨ p.position.x = 469) ∧
      s.scoreClock = { startTime := 0 } ∧
      s.pipeSpawnClock = { startTime := T } ∧ 0 ≤ T ∧ T ≤ last := by
  induction n with
  | zero =>
    have hs0 := Machine.Run.Reachable.init 0 0
    have he : Machine.Run.elapsedTime (FrameInput.atInstant 300 false 300000) = 300 := by
      have := Binary32.round_int 300 (by norm_num)
      simpa [Machine.Run.elapsedTime, FrameInput.atInstant] using this
    have hplayer : (Machine.Run.beforeReset (Run.init 0 0)
        (FrameInput.atInstant 300 false 300000)).player =
        { position := { x := 100, y := 100 }, force := 0 } := by
      rw [(Machine.Run.beforeReset_fields_m _ _).2.2.2.2.2, he]
      have e : (FrameInput.atInstant 300 false 300000).spacePressed = false := rfl
      rw [e]
      simp only [Bool.false_and, Bool.false_eq_true, if_false]
      exact Machine.Player.Update_reset_300_m
    have hc : Run.resetCondition
        (Machine.Run.beforeReset (Run.init 0 0) (FrameInput.atInstant 300 false 300000)) =
        false := by
      rw [Machine.Run.resetCondition_beforeReset_m _ _ rfl, hplayer]
      norm_num [Run.init]
    have h3 : ¬ Machine.asSeconds ((Run.init 0 0).pipeSpawnClock.getElapsedTime
        (FrameInput.atInstant 300 false 300000).spawnReadInstant) > 3 := by
      rw [Machine.asSeconds_gt_three]
      simp only [Clock.getElapsedTime, FrameInput.atInstant, Run.init]
      omega
    obtain ⟨-, s', -, -, h1, -, -, -, -, -, gp, -, gsc, gpc, gscore, gpipes⟩ :=
      Machine.Run.frame_result_m (Run.init 0 0) (FrameInput.atInstant 300 false 300000)
        (Machine.Run.Reachable.ne_nil_m _ hs0)
    obtain ⟨a1, a2, a3, a4, a5⟩ := (Machine.Run.afterReset_cases_m _ _).2 hc
    rw [a4, a5, a3, if_neg (fun h => h3 h.1)] at gscore
    rw [a4, if_neg h3] at gpc
    rw [a4, a2, if_neg h3] at gpipes
    rw [a5] at gsc
    rw [a1, hplayer] at gp
    refine ⟨s', 0, 300000, Machine.Run.Reachable.frame _ s' _ hs0 h1, gp, ?_, ?_, gsc, gpc,
      le_refl _, by norm_num⟩
    · rw [gscore]
      rfl
    · intro p hp'
      rw [gpipes] at hp'
      simp [Run.init] at hp'
  | succ n ih =>
    obtain ⟨s, T, last, hs, hp, hscore, hpipes, hsc, hpc, hT, hlast⟩ := ih
    obtain ⟨s', -, -, -, -, hs', gp, gscore, gpipes, gsc, gpc⟩ :=
      Machine.Run.hover_step_m s n T (last + 4294967296000) hs hp hscore hpipes hsc hpc hT
        (by omega)
    refine ⟨s', last + 4294967296000, last + 4294967296000, hs', gp, ?_, gpipes, gsc, gpc,
      by omega, le_refl _⟩
    rw [gscore]
    push_cast
    rfl

/-- C13 fails as stated on the code's 32-bit `int` score. There is a state of
the loop with the score 2147483647 from which a frame without a failure, with
the spawn timer above 3.0 s and the score timer above 5.0 s, ends with the score
-2147483648: the score has not increased by 1, is negative in a reachable
state, and has decreased without a failure. The state is reached by the run of
`Machine.Run.hover_reachable_m`, a stand-still of the player through
2147483647 scoring frames. -/
theorem C13_counterexample :
    ∃ (s s' : RunState) (i : FrameInput),
      Machine.Run.Reachable s ∧ Machine.Run.frame s i = some s' ∧ Machine.Run.Reachable s' ∧
      Run.resetCondition (Machine.Run.beforeReset s i) = false ∧
      Machine.asSeconds (s.pipeSpawnClock.getElapsedTime i.spawnReadInstant) > 3 ∧
      Machine.asSeconds (s.scoreClock.getElapsedTime i.scoreReadInstant) > 5 ∧
      s.app.score = 2147483647 ∧ s'.app.score = -2147483648 ∧
      s'.app.score ≠ s.app.score + 1 ∧ s'.app.score < 0 ∧ s'.app.score < s.app.score := by
  obtain ⟨s, T, last, hs, hp, hscore, hpipes, hsc, hpc, hT, hlast⟩ :=
    Machine.Run.hover_reachable_m 2147483647
  obtain ⟨s', h1, hc, h3, h5, hs', -, gscore, -⟩ :=
    Machine.Run.hover_step_m s _ T (last + 4294967296000) hs hp hscore hpipes hsc hpc hT
      (by omega)
  have e1 : s.app.score = 2147483647 := by
    rw [hscore]
    rfl
  have e2 : s'.app.score = -2147483648 := by
    rw [gscore]
    rfl
  refine ⟨s, s', _, hs, h1, hs', hc, h3, h5, e1, e2, ?_, ?_, ?_⟩
  · rw [e1, e2]
    decide
  · rw [e2]
    decide
  · rw [e1, e2]
    decide

/-- C13, amended, for the code's 32-bit `int` score: the score rule. A run of
any number of frames from the start of `Application::Run` has a result, and so
has the next frame; the score is in the range of `int` before and after it.
When no failure occurs in that frame, the score is incremented as an `int` (to
the score plus 1 wrapped to 32 bits) if at the spawn check the spawn timer
reads more than 3.0 s and the score timer reads more than 5.0 s, and is
unchanged otherwise; the score timer is not restarted, and a change of the
score comes with a spawn in the same frame. In a run of fewer than 2147483647
frames the score is non-negative and at most the number of frames played, so
the increment is exactly 1 and the score does not decrease in a frame without
a failure. -/
theorem C13_score_rule_int32 (a b : Int) (inputs : List FrameInput) (i : FrameInput) :
    ∃ s s' : RunState,
      Machine.Run.frames (Run.init a b) inputs = some s ∧ Machine.Run.frame s i = some s' ∧
      (-2147483648 ≤ s.app.score ∧ s.app.score ≤ 2147483647 ∧
        -2147483648 ≤ s'.app.score ∧ s'.app.score ≤ 2147483647) ∧
      (Run.resetCondition (Machine.Run.beforeReset s i) = false →
        s'.app.score =
          (if Machine.asSeconds (s.pipeSpawnClock.getElapsedTime i.spawnReadInstant) > 3 ∧
              Machine.asSeconds (s.scoreClock.getElapsedTime i.scoreReadInstant) > 5
            then Int32.wrap (s.app.score + 1) else s.app.score) ∧
        s'.scoreClock = s.scoreClock ∧
        (s'.app.score ≠ s.app.score →
          Machine.asSeconds (s.pipeSpawnClock.getElapsedTime i.spawnReadInstant) > 3 ∧
          s'.pipeSpawnClock = { startTime := i.spawnRestartInstant } ∧
          s'.app.pipes =
            remove_if (fun pipe => decide (pipe.position.x < -500))
                (s.app.pipes.map
                  (fun p => Machine.Terrain.Update p (Machine.Run.elapsedTime i))) ++
              [{ position := { x := 400, y := (i.drawn.value : ℚ) }, type := 2 },
               { position := { x := 469, y := (i.drawn.value : ℚ) - 200 }, type := 3 }])) ∧
      (inputs.length < 2147483647 →
        0 ≤ s.app.score ∧ s.app.score ≤ (inputs.length : Int) ∧ 0 ≤ s'.app.score ∧
        (Run.resetCondition (Machine.Run.beforeReset s i) = false →
          s'.app.score =
            (if Machine.asSeconds (s.pipeSpawnClock.getElapsedTime i.spawnReadInstant) > 3 ∧
                Machine.asSeconds (s.scoreClock.getElapsedTime i.scoreReadInstant) > 5
              then s.app.score + 1 else s.app.score) ∧
          s.app.score ≤ s'.app.score)) := by
  obtain ⟨s, h1, hs⟩ :=
    Machine.Run.frames_total_m (Run.init a b) (Machine.Run.Reachable.init a b) inputs
  obtain ⟨-, s', -, -, h2, -⟩ :=
    Machine.Run.frame_result_m s i (Machine.Run.Reachable.ne_nil_m s hs)
  obtain ⟨c1, c2⟩ := Machine.Run.frame_score_m s s' i hs h2
  obtain ⟨r1, r2⟩ := Machine.Run.Reachable.score_range_m s hs
  obtain ⟨r3, r4⟩ := Machine.Run.Reachable.score_range_m s'
    (Machine.Run.Reachable.frame s s' i hs h2)
  refine ⟨s, s', h1, h2, ⟨r1, r2, r3, r4⟩, c2, ?_⟩
  intro hlen
  have hb := Machine.Run.frames_score_bound_m inputs (Run.init a b) s 0
    (Machine.Run.Reachable.init a b) (le_refl _) (le_refl _) (by omega) h1
  rw [Nat.zero_add] at hb
  have hf2 : Machine.Run.frames (Run.init a b) (inputs ++ [i]) = some s' := by
    have key : ∀ (l : List FrameInput) (t : RunState), Machine.Run.frames t l = some s →
        Machine.Run.frames t (l ++ [i]) = some s' := by
      intro l
      induction l with
      | nil =>
        intro t ht
        simp only [Machine.Run.frames, Option.some.injEq] at ht
        subst ht
        simp only [List.nil_append, Machine.Run.frames, h2]
      | cons j rest ih =>
        intro t ht
        simp only [List.cons_append, Machine.Run.frames] at ht ⊢
        cases hj : Machine.Run.frame t j with
        | none => rw [hj] at ht; exact absurd ht (by simp)
        | some t' =>
          rw [hj] at ht
          simp only at ht ⊢
          exact ih t' ht
    exact key inputs _ h1
  have hb' := Machine.Run.frames_score_bound_m (inputs ++ [i]) (Run.init a b) s' 0
    (Machine.Run.Reachable.init a b) (le_refl _) (le_refl _)
    (by rw [List.length_append, List.length_singleton]; omega) hf2
  refine ⟨hb.1, hb.2, hb'.1, ?_⟩
  intro hc
  obtain ⟨hsc, -⟩ := c2 hc
  have hw : Int32.wrap (s.app.score + 1) = s.app.score + 1 :=
    Int32.wrap_of_range _ (by omega) (by omega)
  rw [hw] at hsc
  refine ⟨hsc, ?_⟩
  rw [hsc]
  split <;> omega

/-- The player after a first frame of 6000 ms in binary32: at height 157 with
the lift force -57. -/
theorem Machine.Player.Update_reset_6000_m :
    Machine.Player.Update { position := { x := 100, y := 100 }, force := 3 } 6000 =
      { position := { x := 100, y := 157 }, force := -57 } := by
  have h1 : Binary32.round ((6000 : ℚ) * (5368709 / 536870912)) = 60 := by
    rw [Binary32.round_eq _ (-18) 15728640 (by norm_num) (by norm_num)
      (Or.inr (by norm_num)) (by norm_num) (by norm_num [abs_lt])]
    norm_num
  have h2 : Binary32.round ((3 : ℚ) - 60) = -57 := by
    have := Binary32.round_int (-57) (by norm_num)
    norm_num at this ⊢
    exact this
  have h3 : Binary32.round ((100 : ℚ) - -57) = 157 := by
    have := Binary32.round_int 157 (by norm_num)
    norm_num at this ⊢
    exact this
  simp only [Machine.Player.Update, Binary32.round_one_hundredth, h1, h2, h3]

/-- C13, amended, in a first frame that starts 6 s after the timers: no
failure occurs, both timers are due, and the score goes from 0 to 1. -/
theorem C13_score_rule_int32_witness :
    ∃ s' : RunState,
      Machine.Run.frame (Run.init 0 0) (FrameInput.atInstant 6000 false 6000000) = some s' ∧
      Run.resetCondition
        (Machine.Run.beforeReset (Run.init 0 0) (FrameInput.atInstant 6000 false 6000000)) =
          false ∧
      s'.app.score = 1 := by
  obtain ⟨s, s', h1, h2, -, -, hrule⟩ :=
    C13_score_rule_int32 0 0 [] (FrameInput.atInstant 6000 false 6000000)
  simp only [Machine.Run.frames, Option.some.injEq] at h1
  subst h1
  have he : Machine.Run.elapsedTime (FrameInput.atInstant 6000 false 6000000) = 6000 := by
    have := Binary32.round_int 6000 (by norm_num)
    simpa [Machine.Run.elapsedTime, FrameInput.atInstant] using this
  have hplayer : (Machine.Run.beforeReset (Run.init 0 0)
      (FrameInput.atInstant 6000 false 6000000)).player =
      { position := { x := 100, y := 157 }, force := -57 } := by
    rw [(Machine.Run.beforeReset_fields_m _ _).2.2.2.2.2, he]
    have e : (FrameInput.atInstant 6000 false 6000000).spacePressed = false := rfl
    rw [e]
    simp only [Bool.false_and, Bool.false_eq_true, if_false]
    exact Machine.Player.Update_reset_6000_m
  have hc : Run.resetCondition
      (Machine.Run.beforeReset (Run.init 0 0) (FrameInput.atInstant 6000 false 6000000)) =
      false := by
    rw [Machine.Run.resetCondition_beforeReset_m _ _ rfl, hplayer]
    norm_num [Run.init]
  obtain ⟨-, -, -, hr⟩ := hrule (by simp)
  obtain ⟨hscore, -⟩ := hr hc
  have h3 : Machine.asSeconds ((Run.init 0 0).pipeSpawnClock.getElapsedTime
      (FrameInput.atInstant 6000 false 6000000).spawnReadInstant) > 3 := by
    rw [Machine.asSeconds_gt_three]
    simp only [Clock.getElapsedTime, FrameInput.atInstant, Run.init]
    omega
  have h5 : Machine.asSeconds ((Run.init 0 0).scoreClock.getElapsedTime
      (FrameInput.atInstant 6000 false 6000000).scoreReadInstant) > 5 := by
    rw [Machine.asSeconds_gt_five]
    simp only [Clock.getElapsedTime, FrameInput.atInstant, Run.init]
    omega
  rw [if_pos ⟨h3, h5⟩] at hscore
  exact ⟨s', h2, hc, by rw [hscore]; rfl⟩

end FlappyBird
